import Mathlib

/-!
# SCRAM-SHA SASL mechanism of Atheme: embedding and verified properties

Shallow embedding of `modules/saslserv/scram-sha.c`.

Conventions of the embedding:

* a byte (`char`, `unsigned char`) is a natural number;
* a C string (`char *` with a terminating NUL) is the list of its bytes before
  the terminator; a pointer into a C string is the suffix that starts there,
  and the byte it points at is the head of that suffix, or NUL (0) when the
  suffix is empty;
* a raw buffer `(in, inlen)` is the list of its `inlen` bytes; the byte at
  index `inlen` is the terminator the transport appends, and nothing beyond
  that index belongs to the buffer;
* functions of other modules (the SASL core, the PBKDF2 v2 crypto module, the
  base64 codec, the digest interface, the random-string generator) are fields
  of `scram_env`;
* the user records live in a store indexed by references (`myuser_t *`).
-/

namespace Atheme

/-- A byte of a C buffer. -/
abbrev Byte := Nat

/-- The byte value of an ASCII character. -/
def chr (c : Char) : Byte := c.toNat

/-- The bytes of a string literal, without the terminator. -/
def bytes (str : String) : List Byte := str.toList.map Char.toNat

/-- `#define NONCE_LENGTH 64` -/
def NONCE_LENGTH : Nat := 64

/-- `#define DIGEST_MDLEN_MAX DIGEST_MDLEN_SHA2_512` (0x40) of `digest.h`. -/
def DIGEST_MDLEN_MAX : Nat := 0x40

/-- The `enum scramsha_step`. -/
inductive scramsha_step where
  | SCRAMSHA_STEP_CLIENTFIRST
  | SCRAMSHA_STEP_CLIENTPROOF
  | SCRAMSHA_STEP_PASSED
  | SCRAMSHA_STEP_FAILED
  | SCRAMSHA_STEP_ERRORED
  deriving DecidableEq, Repr

open scramsha_step

/-- Modelled from the spec: the four verdicts a mechanism step returns, `More`,
`Done`, `Fail` and `Error`; they are the `ASASL_*` constants of the absent
header `sasl.h`, taken as four distinct values. -/
inductive asasl where
  | ASASL_MORE
  | ASASL_DONE
  | ASASL_FAIL
  | ASASL_ERROR
  deriving DecidableEq, Repr

open asasl

/-- Modelled from the spec: the decoded verifier record (`struct
pbkdf2v2_dbentry` of the absent header `pbkdf2v2.h`), with the fields the
mechanism reads: `a` the PRF identifier, `c` the iteration count, `salt64` the
base64 salt, `dl` the digest length L, `alg` the digest algorithm, `ssk` the
ServerKey, `shk` the StoredKey, `scram` whether the record was stored in SCRAM
form. -/
structure pbkdf2v2_dbentry where
  a : Nat
  c : Nat
  salt64 : List Byte
  dl : Nat
  alg : Nat
  ssk : List Byte
  shk : List Byte
  scram : Bool
  deriving DecidableEq, Repr

/-- Modelled from the spec: the user record (`myuser_t` of the absent header
`account.h`), with its capability flags and its mutable password field. -/
structure myuser_t where
  flags : Nat
  pass : List Byte
  deriving DecidableEq, Repr

/-- A reference to a user record (`myuser_t *`). -/
abbrev user_ref := Nat

/-- The user-record store: what each reference points at. -/
abbrev user_store := user_ref → myuser_t

/-- The `struct scramsha_session`. The buffers are held by their contents; the
null pointers of a freshly allocated session are empty lists and `mu = none`. -/
structure scramsha_session where
  db : pbkdf2v2_dbentry
  mu : Option user_ref
  cn : List Byte
  sn : List Byte
  c_gs2_buf : List Byte
  c_msg_buf : List Byte
  s_msg_buf : List Byte
  c_gs2_len : Nat
  c_msg_len : Nat
  s_msg_len : Nat
  step : scramsha_step
  deriving DecidableEq, Repr

/-- The part of `struct sasl_session` the mechanism uses: `mechdata`. -/
structure sasl_session where
  mechdata : Option scramsha_session
  deriving DecidableEq, Repr

/-- What `authcid_can_login (p, authcid, &s->mu)` does: it denies the login,
having stored a user reference through its third argument or not, or it allows
the login and has stored the reference of the user. -/
inductive authcid_result where
  | denied (mu : Option user_ref)
  | allowed (mu : user_ref)
  deriving DecidableEq, Repr

/-- The constants and functions the mechanism takes from other modules.

* `normalize buf buflen` is `pbkdf2v2_scram_functions->normalize`: SASLprep of
  the string in a buffer of `buflen` bytes, in place; `none` is `false`.
* `dbextract pass db` is `pbkdf2v2_scram_functions->dbextract`: whether the
  password field decoded, and the record left in `db`.
* `base64_decode src dstlen` and `base64_encode src dstlen`: `none` is the
  failure value `(size_t) -1`.
* `digest_oneshot alg data` and `digest_oneshot_hmac alg key data`: the digest
  written to the output buffer; `none` is `false`.
* `PBKDF2_FS_SAVEHASH a c salt64 ssk64 shk64` is the text `snprintf` renders
  for the format string of that name, and `sizeof_PBKDF2_FS_SAVEHASH` the size
  of the format string. -/
structure scram_env where
  NICKLEN : Nat
  PASSLEN : Nat
  SASL_C2S_MAXLEN : Nat
  PBKDF2_SALTLEN_MIN : Nat
  MU_CRYPTPASS : Nat
  MU_NOPASSWORD : Nat
  normalize : List Byte → Nat → Option (List Byte)
  authzid_can_login : List Byte → Bool
  authcid_can_login : List Byte → authcid_result
  dbextract : List Byte → pbkdf2v2_dbentry → Bool × pbkdf2v2_dbentry
  random_string : Nat → List Byte
  base64_decode : List Byte → Nat → Option (List Byte)
  base64_encode : List Byte → Nat → Option (List Byte)
  digest_oneshot : Nat → List Byte → Option (List Byte)
  digest_oneshot_hmac : Nat → List Byte → List Byte → Option (List Byte)
  PBKDF2_FS_SAVEHASH : Nat → Nat → List Byte → List Byte → List Byte → List Byte
  sizeof_PBKDF2_FS_SAVEHASH : Nat
  PBKDF2_PRF_SCRAM_SHA1_S64 : Nat
  PBKDF2_PRF_SCRAM_SHA2_256_S64 : Nat

/-- The `scram_attr_list`: a table of 128 string pointers indexed by the
attribute name; `none` is the null pointer. -/
abbrev scram_attr_list := Nat → Option (List Byte)

/-- The table after `memset (*attrs, 0x00, sizeof *attrs)`. -/
def attrs_empty : scram_attr_list := fun _ => none

/-- The assignment `(*attrs)[name] = value`. -/
def attrs_set (attrs : scram_attr_list) (name : Byte) (value : List Byte) : scram_attr_list :=
  fun x => if x = name then some value else attrs x

/-- The C library's `strchr (str, c)` for `c` other than NUL: the offset of the
first `c` in the string, `none` for a null result. -/
def strchr : List Byte → Byte → Option Nat
  | [], _ => none
  | b :: rest, c => if b = c then some 0 else (strchr rest c).map (· + 1)

/-- The RFC 5802 test of line 83: the name is not a single US-ASCII letter. -/
def invalid_attr_name (name : Byte) : Bool :=
  name < chr 'A' || (name > chr 'Z' && name < chr 'a') || name > chr 'z'

/-- The `for (;;)` loop of `sasl_scramsha_attrlist_parse`, one iteration for
each unit of fuel; `none` when the fuel runs out before the loop returns. The
result is the returned boolean and the table. -/
def attrlist_parse_loop : Nat → List Byte → scram_attr_list → Option (Bool × scram_attr_list)
  | 0, _, _ => none
  | fuel + 1, str, attrs =>
    match str with
    | [] => some (false, attrs)
    | name :: str1 =>
      if invalid_attr_name name then some (false, attrs)
      else
        match str1 with
        | [] => some (false, attrs)
        | eq :: str2 =>
          if eq = chr '=' then
            match strchr str2 (chr ',') with
            | some pos =>
              attrlist_parse_loop fuel (str2.drop (pos + 1)) (attrs_set attrs name (str2.take pos))
            | none => some (true, attrs_set attrs name str2)
          else some (false, attrs)

/-- The function `sasl_scramsha_attrlist_parse (str, attrs)`: the returned
boolean and the table it leaves. Every iteration of the loop consumes at
least two bytes, so `str.length + 1` iterations are never used up (see
`attrlist_parse_loop_fuel`). -/
def sasl_scramsha_attrlist_parse (str : List Byte) : Bool × scram_attr_list :=
  match attrlist_parse_loop (str.length + 1) str attrs_empty with
  | some r => r
  | none => (false, attrs_empty)

/-- The result of a step function: the returned verdict, the session it leaves,
and the output frame when `*out` and `*outlen` were written (`outlen` is the
length of the frame). -/
structure step_result where
  ret : asasl
  s : scramsha_session
  out : Option (List Byte)
  deriving DecidableEq, Repr

/-- How the scan of the GS2 header (lines 157 to 229 of
`mech_step_clientfirst`) ends: it reads a byte past the terminator of the
input, it returns `ASASL_ERROR`, or it leaves `message` at the start of the
attribute list. -/
inductive gs2_outcome where
  | overread
  | reject
  | accept (message : List Byte)
  deriving DecidableEq, Repr

/-- Lines 179 to 224 of `mech_step_clientfirst`, the branch taken when the
header has an authzid; `message` is here the pointer after `a=`. The search
for the end of the authzid starts at `message + 1`. -/
def gs2_authzid (env : scram_env) (message : List Byte) : gs2_outcome :=
  match message with
  | [] => gs2_outcome.overread
  | z0 :: after =>
    match strchr after (chr ',') with
    | none => gs2_outcome.reject
    | some k =>
      let authzid_length := k + 1
      if authzid_length ≥ env.NICKLEN then gs2_outcome.reject
      else
        match env.normalize (z0 :: after.take k) env.NICKLEN with
        | none => gs2_outcome.reject
        | some authzid =>
          if ! env.authzid_can_login authzid then gs2_outcome.reject
          else gs2_outcome.accept (after.drop (k + 1))

/-- Lines 157 to 229 of `mech_step_clientfirst` on the NUL-free input `data`:
the channel-binding flag, the comma, and the authzid section. -/
def gs2_header (env : scram_env) (data : List Byte) : gs2_outcome :=
  match data with
  | [] => gs2_outcome.reject
  | flag :: m1 =>
    if flag = chr 'y' ∨ flag = chr 'n' then
      match m1 with
      | [] => gs2_outcome.reject
      | c1 :: m2 =>
        if c1 ≠ chr ',' then gs2_outcome.reject
        else
          match m2 with
          | [] => gs2_outcome.reject
          | c2 :: m3 =>
            if c2 = chr 'a' ∧ m3.headD 0 = chr '=' then gs2_authzid env m3.tail
            else if c2 ≠ chr ',' then gs2_outcome.reject
            else gs2_outcome.accept m3
    else gs2_outcome.reject

/-- The decimal digits of `n`, as `snprintf` renders `%u`. -/
def decimal (n : Nat) : List Byte := (Nat.toDigits 10 n).map Char.toNat

/-- The text `snprintf` renders for `"r=%s%s,s=%s,i=%u"` (line 299). -/
def server_first_message (cn sn salt64 : List Byte) (c : Nat) : List Byte :=
  bytes "r=" ++ cn ++ sn ++ bytes ",s=" ++ salt64 ++ bytes ",i=" ++ decimal c

/-- The label `error:` of `mech_step_clientfirst` and of
`mech_step_clientproof`: the step becomes `SCRAMSHA_STEP_ERRORED` and the
function returns `ASASL_ERROR`. -/
def goto_error (s : scramsha_session) : step_result :=
  { ret := ASASL_ERROR, s := { s with step := SCRAMSHA_STEP_ERRORED }, out := none }

/-- Lines 261 to 322 of `mech_step_clientfirst`: from the login check of the
normalised authcid to the server-first-message. `data` is the whole input,
`message` the attribute list in it, `input_r` the value of attribute `r`. -/
def clientfirst_login (env : scram_env) (users : user_store) (s : scramsha_session)
    (data message authcid input_r : List Byte) (prf : Nat) : step_result :=
  match env.authcid_can_login authcid with
  | authcid_result.denied mu =>
    goto_error { s with mu := match mu with | some u => some u | none => s.mu }
  | authcid_result.allowed u =>
    let s := { s with mu := some u }
    if (users u).flags &&& env.MU_CRYPTPASS = 0 then goto_error s
    else if (users u).flags &&& env.MU_NOPASSWORD ≠ 0 then goto_error s
    else
      let ex := env.dbextract (users u).pass s.db
      let s := { s with db := ex.2 }
      if ! ex.1 then goto_error s
      else if s.db.a ≠ prf then goto_error s
      else
        let c_gs2_len := data.length - message.length
        let c_msg_len := data.length - c_gs2_len
        let s := { s with
          c_gs2_len := c_gs2_len
          c_gs2_buf := data.take c_gs2_len
          c_msg_len := c_msg_len
          c_msg_buf := message.take c_msg_len
          cn := input_r
          sn := env.random_string NONCE_LENGTH }
        let response := server_first_message s.cn s.sn s.db.salt64 s.db.c
        let ol := response.length
        if ol ≤ NONCE_LENGTH + env.PBKDF2_SALTLEN_MIN + 16 ∨ ol ≥ env.SASL_C2S_MAXLEN then
          goto_error s
        else
          { ret := ASASL_MORE
            s := { s with s_msg_len := ol, s_msg_buf := response, step := SCRAMSHA_STEP_CLIENTPROOF }
            out := some response }

/-- Lines 231 to 259 of `mech_step_clientfirst`, continued by
`clientfirst_login`: the attribute list, its mandatory attributes, and the
normalisation of the authcid. -/
def clientfirst_attrs (env : scram_env) (users : user_store) (s : scramsha_session)
    (data message : List Byte) (prf : Nat) : step_result :=
  let parsed := sasl_scramsha_attrlist_parse message
  let input := parsed.2
  if ! parsed.1 then goto_error s
  else
    match input (chr 'm'), input (chr 'n'), input (chr 'r') with
    | none, some (n0 :: n), some (r0 :: r) =>
      let authcid_length := (n0 :: n).length
      if authcid_length ≥ env.NICKLEN then goto_error s
      else
        match env.normalize (n0 :: n) env.NICKLEN with
        | none => goto_error s
        | some authcid => clientfirst_login env users s data message authcid (r0 :: r) prf
    | _, _, _ => goto_error s

/-- The function `mech_step_clientfirst` on the session `s = p->mechdata`; the
input is `none` for a null `in`. The result is `none` when the function reads
past the terminator of the input, for which C defines no behaviour. -/
def mech_step_clientfirst (env : scram_env) (users : user_store) (s : scramsha_session)
    (inp : Option (List Byte)) (prf : Nat) : Option step_result :=
  match inp with
  | none => some { ret := ASASL_ERROR, s := s, out := none }
  | some [] => some { ret := ASASL_ERROR, s := s, out := none }
  | some (b :: rest) =>
    if 0 ∈ b :: rest then some { ret := ASASL_ERROR, s := s, out := none }
    else
      match gs2_header env (b :: rest) with
      | gs2_outcome.overread => none
      | gs2_outcome.reject => some { ret := ASASL_ERROR, s := s, out := none }
      | gs2_outcome.accept message => some (clientfirst_attrs env users s (b :: rest) message prf)

/-- The label `fail:` of `mech_step_clientproof`. -/
def goto_fail (s : scramsha_session) : step_result :=
  { ret := ASASL_FAIL, s := { s with step := SCRAMSHA_STEP_FAILED }, out := none }

/-- Whether `memcmp (a, b, n)` is not 0, on buffers holding at least `n`
bytes. -/
def memcmp_ne (a b : List Byte) (n : Nat) : Bool := a.take n != b.take n

/-- The text `snprintf` renders for `"%s,%s,c=%s,r=%s"` (line 387). -/
def auth_message (c_msg s_msg input_c input_r : List Byte) : List Byte :=
  c_msg ++ bytes "," ++ s_msg ++ bytes ",c=" ++ input_c ++ bytes ",r=" ++ input_r

/-- The loop of lines 408 and 409: `ClientKey[x] = ClientProof[x] ^
ClientSignature[x]` for `x < dl`. -/
def xor_keys (ClientProof ClientSignature : List Byte) (dl : Nat) : List Byte :=
  (List.range dl).map (fun x => ClientProof.getD x 0 ^^^ ClientSignature.getD x 0)

/-- Lines 385 to 473 of `mech_step_clientproof`: from the AuthMessage to the
server-final-message. -/
def clientproof_verify (env : scram_env) (s : scramsha_session)
    (ClientProof input_c input_r : List Byte) : step_result :=
  let AuthMessage := auth_message s.c_msg_buf s.s_msg_buf input_c input_r
  let alen := AuthMessage.length
  if alen < NONCE_LENGTH ∨ alen ≥ env.SASL_C2S_MAXLEN then goto_error s
  else
    match env.digest_oneshot_hmac s.db.alg (s.db.shk.take s.db.dl) AuthMessage with
    | none => goto_error s
    | some ClientSignature =>
      let ClientKey := xor_keys ClientProof ClientSignature s.db.dl
      match env.digest_oneshot s.db.alg ClientKey with
      | none => goto_error s
      | some StoredKey =>
        if memcmp_ne StoredKey s.db.shk s.db.dl then goto_fail s
        else
          match env.digest_oneshot_hmac s.db.alg (s.db.ssk.take s.db.dl) AuthMessage with
          | none => goto_error s
          | some ServerSignature =>
            match env.base64_encode (ServerSignature.take s.db.dl) (DIGEST_MDLEN_MAX * 3) with
            | none => goto_error s
            | some ServerSignature64 =>
              let response := bytes "v=" ++ ServerSignature64
              let ol := response.length
              if ol < s.db.dl ∨ ol ≥ DIGEST_MDLEN_MAX * 3 then goto_error s
              else
                { ret := ASASL_MORE
                  s := { s with step := SCRAMSHA_STEP_PASSED }
                  out := some response }

/-- Lines 349 to 383 of `mech_step_clientproof`, continued by
`clientproof_verify`: the nonce, the echoed GS2 header and the length of the
ClientProof. The failure value `(size_t) -1` of `base64_decode` is no digest
length, so a ClientProof that does not decode is refused at line 379. -/
def clientproof_checks (env : scram_env) (s : scramsha_session)
    (input_c input_p input_r : List Byte) : step_result :=
  let x_nonce := s.cn ++ s.sn
  let xl := x_nonce.length
  if xl ≤ NONCE_LENGTH ∨ xl ≥ env.SASL_C2S_MAXLEN then goto_error s
  else if x_nonce ≠ input_r then goto_error s
  else
    match env.base64_decode input_c env.SASL_C2S_MAXLEN with
    | none => goto_error s
    | some c_gs2_buf =>
      let c_gs2_len := c_gs2_buf.length
      if c_gs2_len ≠ s.c_gs2_len ∨ memcmp_ne s.c_gs2_buf c_gs2_buf c_gs2_len then goto_error s
      else
        match env.base64_decode input_p DIGEST_MDLEN_MAX with
        | none => goto_error s
        | some ClientProof =>
          if ClientProof.length ≠ s.db.dl then goto_error s
          else clientproof_verify env s ClientProof input_c input_r

/-- The function `mech_step_clientproof`; the input is `none` for a null
`in`. -/
def mech_step_clientproof (env : scram_env) (s : scramsha_session)
    (inp : Option (List Byte)) : step_result :=
  match inp with
  | none => { ret := ASASL_ERROR, s := s, out := none }
  | some [] => { ret := ASASL_ERROR, s := s, out := none }
  | some (b :: rest) =>
    if 0 ∈ b :: rest then { ret := ASASL_ERROR, s := s, out := none }
    else
      let parsed := sasl_scramsha_attrlist_parse (b :: rest)
      let input := parsed.2
      if ! parsed.1 then goto_error s
      else
        match input (chr 'm'), input (chr 'c'), input (chr 'p'), input (chr 'r') with
        | none, some (c0 :: c), some (p0 :: p), some (r0 :: r) =>
          clientproof_checks env s (c0 :: c) (p0 :: p) (r0 :: r)
        | _, _, _, _ => goto_error s

/-- The store after `mowgli_strlcpy (mu->pass, res, PASSLEN)` for a `res`
shorter than `PASSLEN`. -/
def set_pass (users : user_store) (mu : user_ref) (res : List Byte) : user_store :=
  fun u => if u = mu then { users u with pass := res } else users u

/-- The function `mech_step_success`: the returned verdict and the user store
it leaves. The result is `none` when the function writes through a null
`s->mu`, for which C defines no behaviour. -/
def mech_step_success (env : scram_env) (users : user_store) (s : scramsha_session) :
    Option (asasl × user_store) :=
  if s.db.scram then some (ASASL_DONE, users)
  else
    match env.base64_encode (s.db.ssk.take s.db.dl) (DIGEST_MDLEN_MAX * 3) with
    | none => some (ASASL_DONE, users)
    | some csk64 =>
      match env.base64_encode (s.db.shk.take s.db.dl) (DIGEST_MDLEN_MAX * 3) with
      | none => some (ASASL_DONE, users)
      | some chk64 =>
        let res := env.PBKDF2_FS_SAVEHASH s.db.a s.db.c s.db.salt64 csk64 chk64
        if res.length ≥ env.PASSLEN then some (ASASL_DONE, users)
        else if res.length < env.sizeof_PBKDF2_FS_SAVEHASH + env.PBKDF2_SALTLEN_MIN + 2 * s.db.dl then
          some (ASASL_DONE, users)
        else
          match s.mu with
          | none => none
          | some mu => some (ASASL_DONE, set_pass users mu res)

/-- The result of `mech_step_dispatch`: the returned verdict, the SASL session
and the user store it leaves, and the output frame when one was written. -/
structure dispatch_result where
  ret : asasl
  p : Option sasl_session
  users : user_store
  out : Option (List Byte)

/-- The function `mech_step_dispatch`; `p` is `none` for a null pointer. The
result is `none` when the step called has no defined behaviour. -/
def mech_step_dispatch (env : scram_env) (users : user_store) (p : Option sasl_session)
    (inp : Option (List Byte)) (prf : Nat) : Option dispatch_result :=
  match p with
  | none => some { ret := ASASL_ERROR, p := none, users := users, out := none }
  | some p =>
    match p.mechdata with
    | none => some { ret := ASASL_ERROR, p := some p, users := users, out := none }
    | some s =>
      match s.step with
      | SCRAMSHA_STEP_CLIENTFIRST =>
        (mech_step_clientfirst env users s inp prf).map fun r =>
          { ret := r.ret, p := some { p with mechdata := some r.s }, users := users, out := r.out }
      | SCRAMSHA_STEP_CLIENTPROOF =>
        let r := mech_step_clientproof env s inp
        some { ret := r.ret, p := some { p with mechdata := some r.s }, users := users, out := r.out }
      | SCRAMSHA_STEP_PASSED =>
        (mech_step_success env users s).map fun r =>
          { ret := r.1, p := some p, users := r.2, out := none }
      | SCRAMSHA_STEP_FAILED =>
        some { ret := ASASL_FAIL, p := some p, users := users, out := none }
      | SCRAMSHA_STEP_ERRORED =>
        some { ret := ASASL_ERROR, p := some p, users := users, out := none }

/-- The function `mech_step_sha1`. -/
def mech_step_sha1 (env : scram_env) (users : user_store) (p : Option sasl_session)
    (inp : Option (List Byte)) : Option dispatch_result :=
  mech_step_dispatch env users p inp env.PBKDF2_PRF_SCRAM_SHA1_S64

/-- The function `mech_step_sha2_256`. -/
def mech_step_sha2_256 (env : scram_env) (users : user_store) (p : Option sasl_session)
    (inp : Option (List Byte)) : Option dispatch_result :=
  mech_step_dispatch env users p inp env.PBKDF2_PRF_SCRAM_SHA2_256_S64

/-- The session `mech_start` allocates: `smalloc` returns zeroed memory. -/
def mech_start : scramsha_session :=
  { db := { a := 0, c := 0, salt64 := [], dl := 0, alg := 0, ssk := [], shk := [], scram := false }
    mu := none, cn := [], sn := [], c_gs2_buf := [], c_msg_buf := [], s_msg_buf := []
    c_gs2_len := 0, c_msg_len := 0, s_msg_len := 0
    step := SCRAMSHA_STEP_CLIENTFIRST }

/-- The text of one attribute, `name=value`. -/
def render_attr (a : Byte × List Byte) : List Byte := a.1 :: chr '=' :: a.2

/-- The text of a list of attributes, `n1=v1,n2=v2,...`, in the grammar of
RFC 5802 section 5. -/
def render_attrs : List (Byte × List Byte) → List Byte
  | [] => []
  | [a] => render_attr a
  | a :: b :: rest => render_attr a ++ chr ',' :: render_attrs (b :: rest)

/-! ## A concrete environment, for evaluating the embedding -/

/-- A decoded verifier for the sample environment. -/
def sample_db : pbkdf2v2_dbentry :=
  { a := 25, c := 4096, salt64 := bytes "W22ZaJ0SNY7soEsUEjb6gQ==", dl := 4, alg := 3
    ssk := [1, 2, 3, 4], shk := [5, 6, 7, 8], scram := true }

/-- A sample environment: one account `user`, a decoder that knows the base64
text `biws` of `n,,` and returns any other text as it is, an encoder that
returns its input, a keyed digest that returns its key, a digest that flips
one bit of every byte, a server nonce of 64 letters `A`. -/
def sample_env : scram_env :=
  { NICKLEN := 32, PASSLEN := 289, SASL_C2S_MAXLEN := 8192, PBKDF2_SALTLEN_MIN := 8
    MU_CRYPTPASS := 0x100, MU_NOPASSWORD := 0x80000
    normalize := fun buf _ => some buf
    authzid_can_login := fun _ => true
    authcid_can_login := fun name =>
      if name = bytes "user" then authcid_result.allowed 7 else authcid_result.denied none
    dbextract := fun _ _ => (true, sample_db)
    random_string := fun n => List.replicate n (chr 'A')
    base64_decode := fun src _ => if src = bytes "biws" then some (bytes "n,,") else some src
    base64_encode := fun src _ => some src
    digest_oneshot := fun _ data => some (data.map (fun b => b ^^^ 0x40))
    digest_oneshot_hmac := fun _ key _ => some key
    PBKDF2_FS_SAVEHASH := fun _ _ salt64 ssk64 shk64 => salt64 ++ ssk64 ++ shk64
    sizeof_PBKDF2_FS_SAVEHASH := 19
    PBKDF2_PRF_SCRAM_SHA1_S64 := 24
    PBKDF2_PRF_SCRAM_SHA2_256_S64 := 25 }

/-- The user store of the sample environment: every record has `CRYPTPASS`. -/
def sample_users : user_store := fun _ => { flags := 0x100, pass := bytes "$z$25$4096$" }

/-- A session of the sample environment in a given step, after a client-first
message `n,,n=user,r=abc`. -/
def sample_session (step : scramsha_step) : scramsha_session :=
  { db := sample_db, mu := some 7, cn := bytes "abc", sn := List.replicate 64 (chr 'A')
    c_gs2_buf := bytes "n,,", c_msg_buf := bytes "n=user,r=abc"
    s_msg_buf := server_first_message (bytes "abc") (List.replicate 64 (chr 'A')) sample_db.salt64 4096
    c_gs2_len := 3, c_msg_len := 12, s_msg_len := 103
    step := step }

/-- A client nonce of 4000 letters `x`. -/
def long_cn : List Byte := List.replicate 4000 (chr 'x')

/-- The bare client-first-message `n=user,r=` followed by the long client
nonce. -/
def long_nonce_message : List Byte :=
  render_attrs [(chr 'n', bytes "user"), (chr 'r', long_cn)]

/-- The client-first-message `n,,n=user,r=` followed by the long client nonce
(4012 bytes). -/
def long_nonce_first : List Byte := chr 'n' :: chr ',' :: chr ',' :: long_nonce_message

/-- The session of the sample environment after the client-first-message
`long_nonce_first`. -/
def long_nonce_session : scramsha_session :=
  { db := sample_db, mu := some 7, cn := long_cn, sn := List.replicate 64 (chr 'A')
    c_gs2_buf := bytes "n,,", c_msg_buf := long_nonce_message
    s_msg_buf := server_first_message long_cn (List.replicate 64 (chr 'A')) sample_db.salt64 4096
    c_gs2_len := 3, c_msg_len := long_nonce_message.length
    s_msg_len :=
      (server_first_message long_cn (List.replicate 64 (chr 'A')) sample_db.salt64 4096).length
    step := SCRAMSHA_STEP_CLIENTPROOF }

/-- The client-final-message `c=biws,r=` nonce `,p=AAAA` for the session
`long_nonce_session` (4080 bytes); its proof `AAAA` is not the right one. -/
def long_nonce_final : List Byte :=
  render_attrs [(chr 'c', bytes "biws"), (chr 'r', long_cn ++ List.replicate 64 (chr 'A')),
    (chr 'p', bytes "AAAA")]

/-- The verifier of RFC 7677 section 3: password `pencil`, salt
`W22ZaJ0SNY7soEsUEjb6gQ==`, 4096 iterations, SHA-256 (`DIGALG_SHA2_256`, digest
length 32), with its ServerKey and its StoredKey. -/
def rfc7677_db : pbkdf2v2_dbentry :=
  { a := 25, c := 4096, salt64 := bytes "W22ZaJ0SNY7soEsUEjb6gQ==", dl := 32, alg := 3
    ssk := [193, 243, 203, 193, 193, 58, 157, 53, 161, 76, 9, 144, 238, 217, 118, 41, 234, 34,
      88, 99, 229, 102, 164, 49, 74, 185, 159, 63, 0, 229, 217, 213]
    shk := [88, 110, 93, 242, 131, 230, 220, 235, 92, 62, 121, 29, 139, 133, 40, 236, 25, 30,
      102, 64, 69, 206, 151, 23, 146, 226, 230, 181, 187, 19, 226, 166]
    scram := true }

/-- The sample environment with the verifier and the server nonce of RFC 7677
section 3: `random_string` returns `%hvYDpWUa2RaTCAfuxFIlj)hNlF$k0`. -/
def rfc7677_env : scram_env :=
  { sample_env with
    random_string := fun _ => bytes "%hvYDpWUa2RaTCAfuxFIlj)hNlF$k0"
    dbextract := fun _ _ => (true, rfc7677_db) }

/-- A session in ClientProof that holds the transcript of RFC 7677 section 3. -/
def rfc7677_session : scramsha_session :=
  { db := rfc7677_db, mu := some 7
    cn := bytes "rOprNGfwEbeRWgbNEkqO", sn := bytes "%hvYDpWUa2RaTCAfuxFIlj)hNlF$k0"
    c_gs2_buf := bytes "n,,", c_msg_buf := bytes "n=user,r=rOprNGfwEbeRWgbNEkqO"
    s_msg_buf := bytes
      "r=rOprNGfwEbeRWgbNEkqO%hvYDpWUa2RaTCAfuxFIlj)hNlF$k0,s=W22ZaJ0SNY7soEsUEjb6gQ==,i=4096"
    c_gs2_len := 3, c_msg_len := 29, s_msg_len := 86
    step := SCRAMSHA_STEP_CLIENTPROOF }

/-- A session of the sample environment in Passed whose verifier was stored in
the legacy form (`scram` false). -/
def legacy_session : scramsha_session :=
  { sample_session SCRAMSHA_STEP_PASSED with db := { sample_db with scram := false } }

/-- The sample environment with the record format
`$<prf>$<iter>$<salt64>$<ssk64>$<shk64>` (a format string of 17 bytes with its
terminator). -/
def legacy_env : scram_env :=
  { sample_env with
    PBKDF2_FS_SAVEHASH := fun a c salt64 ssk64 shk64 =>
      bytes "$" ++ decimal a ++ bytes "$" ++ decimal c ++ bytes "$" ++ salt64 ++ bytes "$" ++
        ssk64 ++ bytes "$" ++ shk64
    sizeof_PBKDF2_FS_SAVEHASH := 17 }

/-! ## The AUTHCOOKIE mechanism (`modules/saslserv/authcookie.c`) -/

namespace authcookie

/-- The constants and functions `authcookie.c` takes from other modules:
`NICKLEN` and `AUTHCOOKIE_LENGTH` of the headers, the two login checks of
`sasl_core_functions` (the session argument left out, as in `scram_env`), and
`authcookie_find (secret, mu)` of the cookie store. -/
structure env where
  NICKLEN : Nat
  AUTHCOOKIE_LENGTH : Nat
  authzid_can_login : List Byte → Bool
  authcid_can_login : List Byte → authcid_result
  authcookie_find : List Byte → user_ref → Bool

/-- A call `mech_step` makes into another module, with its arguments. -/
inductive call where
  | authzid_can_login (authzid : List Byte)
  | authcid_can_login (authcid : List Byte)
  | authcookie_find (secret : List Byte) (mu : user_ref)
  deriving DecidableEq, Repr

/-- What a call of `mech_step` leaves: the returned verdict, the output frame
when `*out` and `*outlen` were written, and the calls made into other modules,
in the order they were made. -/
structure step_result where
  ret : asasl
  out : Option (List Byte)
  calls : List call
  deriving DecidableEq, Repr

/-- The C string at a pointer into `data`: the bytes before the first NUL. The
buffer is zero-filled behind the `inlen` bytes copied into it, so the string
ends at the end of the list when the list holds no NUL. -/
def cstr (l : List Byte) : List Byte := l.takeWhile (fun b => b ≠ 0)

/-- Lines 46 to 56 of `mech_step`: the two login checks and the look-up of the
cookie. -/
def mech_step_logins (e : env) (authzid authcid secret : List Byte) : step_result :=
  if ! e.authzid_can_login authzid then
    { ret := ASASL_FAIL, out := none, calls := [call.authzid_can_login authzid] }
  else
    match e.authcid_can_login authcid with
    | authcid_result.denied _ =>
      { ret := ASASL_FAIL, out := none
        calls := [call.authzid_can_login authzid, call.authcid_can_login authcid] }
    | authcid_result.allowed mu =>
      if ! e.authcookie_find secret mu then
        { ret := ASASL_FAIL, out := none
          calls := [call.authzid_can_login authzid, call.authcid_can_login authcid,
            call.authcookie_find secret mu] }
      else
        { ret := ASASL_DONE, out := none
          calls := [call.authzid_can_login authzid, call.authcid_can_login authcid,
            call.authcookie_find secret mu] }

/-- The function `mech_step (p, in, inlen, out, outlen)` of `authcookie.c`.
`inp` is `none` for a null `in`, else the `inlen` bytes at `in`. The pointer
`ptr` is the offset into `data`, `end` the offset `inlen`. -/
def mech_step (e : env) (inp : Option (List Byte)) : step_result :=
  match inp with
  | none => { ret := ASASL_FAIL, out := none, calls := [] }
  | some data =>
    if data.length = 0 then { ret := ASASL_FAIL, out := none, calls := [] }
    else if data.length ≥ e.NICKLEN + 1 + e.NICKLEN + 1 + e.AUTHCOOKIE_LENGTH + 1 then
      { ret := ASASL_FAIL, out := none, calls := [] }
    else
      let authzid := cstr data
      if data.headD 0 = 0 ∨ authzid.length + 1 ≥ data.length then
        { ret := ASASL_FAIL, out := none, calls := [] }
      else
        let ptr := authzid.length + 1
        let authcid := cstr (data.drop ptr)
        if (data.drop ptr).headD 0 = 0 ∨ ptr + (authcid.length + 1) ≥ data.length then
          { ret := ASASL_FAIL, out := none, calls := [] }
        else
          let ptr := ptr + (authcid.length + 1)
          let secret := cstr (data.drop ptr)
          if (data.drop ptr).headD 0 = 0 then
            { ret := ASASL_FAIL, out := none, calls := [] }
          else mech_step_logins e authzid authcid secret

end authcookie

/-- An instance of the collaborators of `authcookie.c`: the account `user`
with the reference 7 and one cookie of twenty characters in its store. -/
def sample_authcookie_env : authcookie.env :=
  { NICKLEN := 32
    AUTHCOOKIE_LENGTH := 20
    authzid_can_login := fun z => decide (z = bytes "user")
    authcid_can_login := fun c =>
      if c = bytes "user" then authcid_result.allowed 7 else authcid_result.denied none
    authcookie_find := fun k u => decide (k = bytes "abcdefghijklmnopqrst" ∧ u = 7) }

/-! ## The registration hook of the SCRAM mechanisms (`scram-sha.c`, lines 602 to 648) -/

/-- A `struct sasl_mechanism`, as far as the registry tells mechanisms apart:
its name. -/
structure sasl_mechanism where
  name : String
  deriving DecidableEq, Repr

/-- The mechanism `sasl_scramsha_mech_sha1` (line 579). -/
def sasl_scramsha_mech_sha1 : sasl_mechanism := { name := "SCRAM-SHA-1" }

/-- The mechanism `sasl_scramsha_mech_sha2_256` (line 588). -/
def sasl_scramsha_mech_sha2_256 : sasl_mechanism := { name := "SCRAM-SHA-256" }

/-- Modelled from the spec: the registry of the SASL core is the set of the
registered mechanisms, here the function that tells for a mechanism whether it
is registered. -/
abbrev mech_registry := sasl_mechanism → Bool

/-- Modelled from the spec: `sasl_core_functions->mech_register (mech)` adds the
mechanism to the registry. -/
def mech_register (reg : mech_registry) (mech : sasl_mechanism) : mech_registry :=
  fun m => if m = mech then true else reg m

/-- Modelled from the spec: `sasl_core_functions->mech_unregister (mech)` takes
the mechanism out of the registry. -/
def mech_unregister (reg : mech_registry) (mech : sasl_mechanism) : mech_registry :=
  fun m => if m = mech then false else reg m

/-- The function `sasl_scramsha_mechs_unregister ()`. -/
def sasl_scramsha_mechs_unregister (reg : mech_registry) : mech_registry :=
  mech_unregister (mech_unregister reg sasl_scramsha_mech_sha1) sasl_scramsha_mech_sha2_256

set_option linter.unusedVariables false in
/-- The function `sasl_scramsha_pbkdf2v2_confhook (prf, iter, saltlen)`, as it
acts on the registry; the log lines it writes are left out. The `switch`
takes the first `case` label equal to `prf`. -/
def sasl_scramsha_pbkdf2v2_confhook (env : scram_env) (reg : mech_registry)
    (prf iter saltlen : Nat) : mech_registry :=
  let reg := sasl_scramsha_mechs_unregister reg
  if prf = env.PBKDF2_PRF_SCRAM_SHA1_S64 then mech_register reg sasl_scramsha_mech_sha1
  else if prf = env.PBKDF2_PRF_SCRAM_SHA2_256_S64 then
    mech_register reg sasl_scramsha_mech_sha2_256
  else reg

/-- A registry that holds both SCRAM mechanisms and the mechanism `PLAIN`. -/
def sample_registry : mech_registry :=
  fun m => decide (m.name = "SCRAM-SHA-1" ∨ m.name = "SCRAM-SHA-256" ∨ m.name = "PLAIN")

/-! ## The digest frontends (`libathemecore/digest_fe_mbedtls.c` and
`libathemecore/digest_fe_openssl.c`)

The cryptographic library behind a frontend is a parameter: a structure of its
functions over a type `σ` of the memory of a library context. A library call
that reports failure is `none`; it is taken to leave the context and the
buffers as they were, and every caller in the two files returns at once. A
`const void *` with its length is the list of the bytes, a pointer that may be
null an `Option`: `data` is `none` for a null pointer (whatever `dataLen`),
`out` and `dk` are `none` for a null pointer and else hold the bytes of the
buffer, `outLen` is `none` for a null pointer and else holds `*outLen`. -/

/-- The constant `DIGALG_MD5` of `digest.h`. -/
def DIGALG_MD5 : Nat := 0x01

/-- The constant `DIGALG_SHA1` of `digest.h`. -/
def DIGALG_SHA1 : Nat := 0x02

/-- The constant `DIGALG_SHA2_256` of `digest.h`. -/
def DIGALG_SHA2_256 : Nat := 0x03

/-- The constant `DIGALG_SHA2_512` of `digest.h`. -/
def DIGALG_SHA2_512 : Nat := 0x04

/-- A buffer after the bytes `h` were written at its start. -/
def write_buf (buf h : List Byte) : List Byte := h ++ buf.drop h.length

/-- The conversion of a `size_t` to `int`, as the casts `(int) keyLen` of the
OpenSSL frontend do it on a machine with an `int` of 32 bits. -/
def c_int (n : Nat) : Int :=
  if n % 2 ^ 32 < 2 ^ 31 then ((n % 2 ^ 32 : Nat) : Int) else ((n % 2 ^ 32 : Nat) : Int) - 2 ^ 32

/-- What a call of `digest_final` leaves: the returned boolean, the context,
the buffer at `out` and the value at `outLen`. -/
structure digest_final_result (κ : Type) where
  ret : Bool
  ctx : Option κ
  out : Option (List Byte)
  outLen : Option Nat
  deriving DecidableEq, Repr

/-- What a call of `digest_oneshot` or `digest_oneshot_hmac` leaves: the
returned boolean, the buffer at `out` and the value at `outLen`. -/
structure digest_result where
  ret : Bool
  out : Option (List Byte)
  outLen : Option Nat
  deriving DecidableEq, Repr

/-- What a call of `digest_pbkdf2_hmac` leaves: the returned boolean, the buffer
at `dk`, and the names of the library functions called, in the order of the
calls. -/
structure pbkdf2_result where
  ret : Bool
  dk : Option (List Byte)
  calls : List String
  deriving DecidableEq, Repr

namespace digest_fe_mbedtls

/-- The values of `mbedtls_md_type_t` the frontend uses. -/
inductive mbedtls_md_type_t where
  | MBEDTLS_MD_NONE
  | MBEDTLS_MD_MD5
  | MBEDTLS_MD_SHA1
  | MBEDTLS_MD_SHA256
  | MBEDTLS_MD_SHA512
  deriving DecidableEq, Repr

open mbedtls_md_type_t

/-- A non-null `const mbedtls_md_info_t *`: a handle the library hands out. -/
abbrev mbedtls_md_info_t := Nat

/-- The functions of mbedTLS the frontend calls. `mbedtls_md_init` is the
context that function leaves (it clears the memory it is given);
`mbedtls_md_get_size` takes the pointer `ctx->md`, null or not. -/
structure mbedtls (σ : Type) where
  mbedtls_md_info_from_type : mbedtls_md_type_t → Option mbedtls_md_info_t
  mbedtls_md_get_size : Option mbedtls_md_info_t → Nat
  mbedtls_md_init : σ
  mbedtls_md_setup : σ → mbedtls_md_info_t → Bool → Option σ
  mbedtls_md_starts : σ → Option σ
  mbedtls_md_hmac_starts : σ → List Byte → Option σ
  mbedtls_md_update : σ → List Byte → Option σ
  mbedtls_md_hmac_update : σ → List Byte → Option σ
  mbedtls_md_finish : σ → Option (σ × List Byte)
  mbedtls_md_hmac_finish : σ → Option (σ × List Byte)
  mbedtls_md_free : σ → σ
  mbedtls_pkcs5_pbkdf2_hmac : σ → List Byte → List Byte → Nat → Nat → Option (List Byte)

/-- The `struct digest_context` of the mbedTLS frontend. -/
structure digest_context (σ : Type) where
  md : Option mbedtls_md_info_t
  state : σ
  hmac : Bool
  deriving DecidableEq, Repr

/-- The `switch` of `digest_decide_md`: the library type of an algorithm tag,
`none` in the `default:` case. -/
def digest_decide_md_type (alg : Nat) : Option mbedtls_md_type_t :=
  if alg = DIGALG_MD5 then some MBEDTLS_MD_MD5
  else if alg = DIGALG_SHA1 then some MBEDTLS_MD_SHA1
  else if alg = DIGALG_SHA2_256 then some MBEDTLS_MD_SHA256
  else if alg = DIGALG_SHA2_512 then some MBEDTLS_MD_SHA512
  else none

/-- The function `digest_decide_md (alg)`: null in the `default:` case, else
what `mbedtls_md_info_from_type` returns. -/
def digest_decide_md {σ : Type} (lib : mbedtls σ) (alg : Nat) : Option mbedtls_md_info_t :=
  match digest_decide_md_type alg with
  | none => none
  | some md_type => lib.mbedtls_md_info_from_type md_type

/-- The function `digest_init (ctx, alg)`; `ctx` is `none` for a null pointer,
the memory behind it is overwritten. -/
def digest_init {σ : Type} (lib : mbedtls σ) (ctx : Option Unit) (alg : Nat) :
    Bool × Option (digest_context σ) :=
  match ctx with
  | none => (false, none)
  | some _ =>
    let ctx : digest_context σ := { md := none, state := lib.mbedtls_md_init, hmac := false }
    match digest_decide_md lib alg with
    | none => (false, some ctx)
    | some md =>
      let ctx := { ctx with md := some md }
      match lib.mbedtls_md_setup ctx.state md false with
      | none => (false, some ctx)
      | some st =>
        let ctx := { ctx with state := st }
        match lib.mbedtls_md_starts ctx.state with
        | none => (false, some ctx)
        | some st => (true, some { ctx with state := st })

/-- The function `digest_init_hmac (ctx, alg, key, keyLen)`. -/
def digest_init_hmac {σ : Type} (lib : mbedtls σ) (ctx : Option Unit) (alg : Nat)
    (key : List Byte) : Bool × Option (digest_context σ) :=
  match ctx with
  | none => (false, none)
  | some _ =>
    let ctx : digest_context σ := { md := none, state := lib.mbedtls_md_init, hmac := true }
    match digest_decide_md lib alg with
    | none => (false, some ctx)
    | some md =>
      let ctx := { ctx with md := some md }
      match lib.mbedtls_md_setup ctx.state md true with
      | none => (false, some ctx)
      | some st =>
        let ctx := { ctx with state := st }
        match lib.mbedtls_md_hmac_starts ctx.state key with
        | none => (false, some ctx)
        | some st => (true, some { ctx with state := st })

/-- The function `digest_update (ctx, data, dataLen)`. -/
def digest_update {σ : Type} (lib : mbedtls σ) (ctx : Option (digest_context σ))
    (data : Option (List Byte)) : Bool × Option (digest_context σ) :=
  match ctx with
  | none => (false, none)
  | some ctx =>
    match data with
    | none => (true, some ctx)
    | some d =>
      if d.length = 0 then (true, some ctx)
      else
        match (if ctx.hmac then lib.mbedtls_md_hmac_update ctx.state d
          else lib.mbedtls_md_update ctx.state d) with
        | none => (false, some ctx)
        | some st => (true, some { ctx with state := st })

/-- The function `digest_final (ctx, out, outLen)`. -/
def digest_final {σ : Type} (lib : mbedtls σ) (ctx : Option (digest_context σ))
    (out : Option (List Byte)) (outLen : Option Nat) : digest_final_result (digest_context σ) :=
  match ctx with
  | none => { ret := false, ctx := none, out := out, outLen := outLen }
  | some ctx =>
    match out with
    | none => { ret := false, ctx := some ctx, out := none, outLen := outLen }
    | some buf =>
      let hLen := lib.mbedtls_md_get_size ctx.md
      if (match outLen with | some n => decide (n < hLen) | none => false) then
        { ret := false, ctx := some ctx, out := some buf, outLen := outLen }
      else
        match (if ctx.hmac then lib.mbedtls_md_hmac_finish ctx.state
          else lib.mbedtls_md_finish ctx.state) with
        | none => { ret := false, ctx := some ctx, out := some buf, outLen := outLen }
        | some (st, h) =>
          { ret := true
            ctx := some { ctx with state := lib.mbedtls_md_free st }
            out := some (write_buf buf h)
            outLen := outLen.map (fun _ => hLen) }

/-- The function `digest_oneshot (alg, data, dataLen, out, outLen)`. -/
def digest_oneshot {σ : Type} (lib : mbedtls σ) (alg : Nat) (data : Option (List Byte))
    (out : Option (List Byte)) (outLen : Option Nat) : digest_result :=
  match out with
  | none => { ret := false, out := none, outLen := outLen }
  | some _ =>
    let i := digest_init lib (some ()) alg
    if ! i.1 then { ret := false, out := out, outLen := outLen }
    else
      let u := digest_update lib i.2 data
      if ! u.1 then { ret := false, out := out, outLen := outLen }
      else
        let f := digest_final lib u.2 out outLen
        { ret := f.ret, out := f.out, outLen := f.outLen }

/-- The function `digest_oneshot_hmac (alg, key, keyLen, data, dataLen, out,
outLen)`. -/
def digest_oneshot_hmac {σ : Type} (lib : mbedtls σ) (alg : Nat) (key : List Byte)
    (data : Option (List Byte)) (out : Option (List Byte)) (outLen : Option Nat) :
    digest_result :=
  match out with
  | none => { ret := false, out := none, outLen := outLen }
  | some _ =>
    let i := digest_init_hmac lib (some ()) alg key
    if ! i.1 then { ret := false, out := out, outLen := outLen }
    else
      let u := digest_update lib i.2 data
      if ! u.1 then { ret := false, out := out, outLen := outLen }
      else
        let f := digest_final lib u.2 out outLen
        { ret := f.ret, out := f.out, outLen := f.outLen }

/-- The function `digest_pbkdf2_hmac (alg, pass, passLen, salt, saltLen, c, dk,
dkLen)`; the casts `(unsigned int) c` and `(uint32_t) dkLen` are the
remainders modulo 2^32. -/
def digest_pbkdf2_hmac {σ : Type} (lib : mbedtls σ) (alg : Nat) (pass salt : List Byte)
    (c : Nat) (dk : Option (List Byte)) (dkLen : Nat) : pbkdf2_result :=
  if c = 0 then { ret := false, dk := dk, calls := [] }
  else
    match dk with
    | none => { ret := false, dk := none, calls := [] }
    | some buf =>
      if dkLen = 0 then { ret := false, dk := some buf, calls := [] }
      else
        match digest_decide_md_type alg with
        | none => { ret := false, dk := some buf, calls := [] }
        | some md_type =>
          match lib.mbedtls_md_info_from_type md_type with
          | none => { ret := false, dk := some buf, calls := ["mbedtls_md_info_from_type"] }
          | some md =>
            match lib.mbedtls_md_setup lib.mbedtls_md_init md true with
            | none =>
              { ret := false, dk := some buf
                calls := ["mbedtls_md_info_from_type", "mbedtls_md_init", "mbedtls_md_setup",
                  "mbedtls_md_free"] }
            | some ctx =>
              match lib.mbedtls_pkcs5_pbkdf2_hmac ctx pass salt (c % 2 ^ 32)
                (dkLen % 2 ^ 32) with
              | none =>
                { ret := false, dk := some buf
                  calls := ["mbedtls_md_info_from_type", "mbedtls_md_init", "mbedtls_md_setup",
                    "mbedtls_pkcs5_pbkdf2_hmac", "mbedtls_md_free"] }
              | some key =>
                { ret := true, dk := some (write_buf buf key)
                  calls := ["mbedtls_md_info_from_type", "mbedtls_md_init", "mbedtls_md_setup",
                    "mbedtls_pkcs5_pbkdf2_hmac", "mbedtls_md_free"] }

/-- The calls `digest_update (ctx, d1, ...)`, ..., `digest_update (ctx, dk,
...)` of a caller that stops at the first failure. -/
def digest_updates {σ : Type} (lib : mbedtls σ) :
    Option (digest_context σ) → List (List Byte) → Bool × Option (digest_context σ)
  | ctx, [] => (true, ctx)
  | ctx, d :: ds =>
    let u := digest_update lib ctx (some d)
    if ! u.1 then (false, u.2) else digest_updates lib u.2 ds

/-- A caller that streams: `digest_init`, one `digest_update` for every
segment, `digest_final`; it stops at the first call that fails. -/
def digest_stream {σ : Type} (lib : mbedtls σ) (alg : Nat) (segs : List (List Byte))
    (out : Option (List Byte)) (outLen : Option Nat) : digest_result :=
  let i := digest_init lib (some ()) alg
  if ! i.1 then { ret := false, out := out, outLen := outLen }
  else
    let u := digest_updates lib i.2 segs
    if ! u.1 then { ret := false, out := out, outLen := outLen }
    else
      let f := digest_final lib u.2 out outLen
      { ret := f.ret, out := f.out, outLen := f.outLen }

/-- A caller that streams in HMAC mode: `digest_init_hmac`, one `digest_update`
for every segment, `digest_final`. -/
def digest_stream_hmac {σ : Type} (lib : mbedtls σ) (alg : Nat) (key : List Byte)
    (segs : List (List Byte)) (out : Option (List Byte)) (outLen : Option Nat) :
    digest_result :=
  let i := digest_init_hmac lib (some ()) alg key
  if ! i.1 then { ret := false, out := out, outLen := outLen }
  else
    let u := digest_updates lib i.2 segs
    if ! u.1 then { ret := false, out := out, outLen := outLen }
    else
      let f := digest_final lib u.2 out outLen
      { ret := f.ret, out := f.out, outLen := f.outLen }

end digest_fe_mbedtls

namespace digest_fe_openssl

/-- A non-null `const EVP_MD *`: a handle the library hands out. -/
abbrev EVP_MD := Nat

/-- The constant `EVP_MAX_MD_SIZE` of OpenSSL. -/
def EVP_MAX_MD_SIZE : Nat := 64

/-- The functions of OpenSSL the frontend calls. `EVP_MD_CTX_init` and
`HMAC_CTX_init` are the contexts those functions leave (they clear the memory
they are given); `EVP_MD_size` takes the pointer `ctx->md`, null or not, and
gives the value after the cast to `size_t`; `EVP_DigestFinal_ex` and
`HMAC_Final` take the value at their third argument and give the context, the
bytes written to `out` and the value they leave at the third argument. -/
structure openssl (σ : Type) where
  EVP_md5 : EVP_MD
  EVP_sha1 : EVP_MD
  EVP_sha256 : EVP_MD
  EVP_sha512 : EVP_MD
  EVP_MD_size : Option EVP_MD → Nat
  EVP_MD_CTX_init : σ
  HMAC_CTX_init : σ
  EVP_DigestInit_ex : σ → EVP_MD → Option σ
  HMAC_Init_ex : σ → List Byte → Int → EVP_MD → Option σ
  EVP_DigestUpdate : σ → List Byte → Option σ
  HMAC_Update : σ → List Byte → Option σ
  EVP_DigestFinal_ex : σ → Nat → Option (σ × List Byte × Nat)
  HMAC_Final : σ → Nat → Option (σ × List Byte × Nat)
  EVP_MD_CTX_cleanup : σ → σ
  HMAC_CTX_cleanup : σ → σ
  PKCS5_PBKDF2_HMAC : List Byte → Int → List Byte → Int → Int → EVP_MD → Int →
    Option (List Byte)

/-- The `struct digest_context` of the OpenSSL frontend; `state` is the memory
of the union of an `EVP_MD_CTX` and an `HMAC_CTX`. -/
structure digest_context (σ : Type) where
  md : Option EVP_MD
  state : σ
  hmac : Bool
  deriving DecidableEq, Repr

/-- The function `digest_decide_md (alg)`: null behind the `switch`, else the
descriptor the library returns. -/
def digest_decide_md {σ : Type} (lib : openssl σ) (alg : Nat) : Option EVP_MD :=
  if alg = DIGALG_MD5 then some lib.EVP_md5
  else if alg = DIGALG_SHA1 then some lib.EVP_sha1
  else if alg = DIGALG_SHA2_256 then some lib.EVP_sha256
  else if alg = DIGALG_SHA2_512 then some lib.EVP_sha512
  else none

/-- The name of the library function `digest_decide_md (alg)` calls. -/
def digest_decide_md_call (alg : Nat) : List String :=
  if alg = DIGALG_MD5 then ["EVP_md5"]
  else if alg = DIGALG_SHA1 then ["EVP_sha1"]
  else if alg = DIGALG_SHA2_256 then ["EVP_sha256"]
  else if alg = DIGALG_SHA2_512 then ["EVP_sha512"]
  else []

/-- The function `digest_init (ctx, alg)`; `ctx` is `none` for a null pointer,
the memory behind it is overwritten. -/
def digest_init {σ : Type} (lib : openssl σ) (ctx : Option Unit) (alg : Nat) :
    Bool × Option (digest_context σ) :=
  match ctx with
  | none => (false, none)
  | some _ =>
    let ctx : digest_context σ := { md := none, state := lib.EVP_MD_CTX_init, hmac := false }
    match digest_decide_md lib alg with
    | none => (false, some ctx)
    | some md =>
      let ctx := { ctx with md := some md }
      match lib.EVP_DigestInit_ex ctx.state md with
      | none => (false, some ctx)
      | some st => (true, some { ctx with state := st })

/-- The function `digest_init_hmac (ctx, alg, key, keyLen)`. -/
def digest_init_hmac {σ : Type} (lib : openssl σ) (ctx : Option Unit) (alg : Nat)
    (key : List Byte) : Bool × Option (digest_context σ) :=
  match ctx with
  | none => (false, none)
  | some _ =>
    let ctx : digest_context σ := { md := none, state := lib.HMAC_CTX_init, hmac := true }
    match digest_decide_md lib alg with
    | none => (false, some ctx)
    | some md =>
      let ctx := { ctx with md := some md }
      match lib.HMAC_Init_ex ctx.state key (c_int key.length) md with
      | none => (false, some ctx)
      | some st => (true, some { ctx with state := st })

/-- The function `digest_update (ctx, data, dataLen)`. -/
def digest_update {σ : Type} (lib : openssl σ) (ctx : Option (digest_context σ))
    (data : Option (List Byte)) : Bool × Option (digest_context σ) :=
  match ctx with
  | none => (false, none)
  | some ctx =>
    match data with
    | none => (true, some ctx)
    | some d =>
      if d.length = 0 then (true, some ctx)
      else
        match (if ctx.hmac then lib.HMAC_Update ctx.state d
          else lib.EVP_DigestUpdate ctx.state d) with
        | none => (false, some ctx)
        | some st => (true, some { ctx with state := st })

/-- The function `digest_final (ctx, out, outLen)`; `uLen` is an `unsigned int`
of 32 bits. -/
def digest_final {σ : Type} (lib : openssl σ) (ctx : Option (digest_context σ))
    (out : Option (List Byte)) (outLen : Option Nat) : digest_final_result (digest_context σ) :=
  match ctx with
  | none => { ret := false, ctx := none, out := out, outLen := outLen }
  | some ctx =>
    match out with
    | none => { ret := false, ctx := some ctx, out := none, outLen := outLen }
    | some buf =>
      let hLen := lib.EVP_MD_size ctx.md
      if (match outLen with | some n => decide (n < hLen) | none => false) then
        { ret := false, ctx := some ctx, out := some buf, outLen := outLen }
      else
        let uLen := match outLen with | some n => n % 2 ^ 32 | none => EVP_MAX_MD_SIZE
        if ctx.hmac then
          match lib.HMAC_Final ctx.state uLen with
          | none => { ret := false, ctx := some ctx, out := some buf, outLen := outLen }
          | some (st, h, uLen) =>
            { ret := true
              ctx := some { ctx with state := lib.HMAC_CTX_cleanup st }
              out := some (write_buf buf h)
              outLen := outLen.map (fun _ => uLen) }
        else
          match lib.EVP_DigestFinal_ex ctx.state uLen with
          | none => { ret := false, ctx := some ctx, out := some buf, outLen := outLen }
          | some (st, h, uLen) =>
            { ret := true
              ctx := some { ctx with state := lib.EVP_MD_CTX_cleanup st }
              out := some (write_buf buf h)
              outLen := outLen.map (fun _ => uLen) }

/-- The function `digest_oneshot (alg, data, dataLen, out, outLen)`. -/
def digest_oneshot {σ : Type} (lib : openssl σ) (alg : Nat) (data : Option (List Byte))
    (out : Option (List Byte)) (outLen : Option Nat) : digest_result :=
  match out with
  | none => { ret := false, out := none, outLen := outLen }
  | some _ =>
    let i := digest_init lib (some ()) alg
    if ! i.1 then { ret := false, out := out, outLen := outLen }
    else
      let u := digest_update lib i.2 data
      if ! u.1 then { ret := false, out := out, outLen := outLen }
      else
        let f := digest_final lib u.2 out outLen
        { ret := f.ret, out := f.out, outLen := f.outLen }

/-- The function `digest_oneshot_hmac (alg, key, keyLen, data, dataLen, out,
outLen)`. -/
def digest_oneshot_hmac {σ : Type} (lib : openssl σ) (alg : Nat) (key : List Byte)
    (data : Option (List Byte)) (out : Option (List Byte)) (outLen : Option Nat) :
    digest_result :=
  match out with
  | none => { ret := false, out := none, outLen := outLen }
  | some _ =>
    let i := digest_init_hmac lib (some ()) alg key
    if ! i.1 then { ret := false, out := out, outLen := outLen }
    else
      let u := digest_update lib i.2 data
      if ! u.1 then { ret := false, out := out, outLen := outLen }
      else
        let f := digest_final lib u.2 out outLen
        { ret := f.ret, out := f.out, outLen := f.outLen }

/-- The function `digest_pbkdf2_hmac (alg, pass, passLen, salt, saltLen, c, dk,
dkLen)`. -/
def digest_pbkdf2_hmac {σ : Type} (lib : openssl σ) (alg : Nat) (pass salt : List Byte)
    (c : Nat) (dk : Option (List Byte)) (dkLen : Nat) : pbkdf2_result :=
  if c = 0 then { ret := false, dk := dk, calls := [] }
  else
    match dk with
    | none => { ret := false, dk := none, calls := [] }
    | some buf =>
      if dkLen = 0 then { ret := false, dk := some buf, calls := [] }
      else
        match digest_decide_md lib alg with
        | none => { ret := false, dk := some buf, calls := [] }
        | some md =>
          match lib.PKCS5_PBKDF2_HMAC pass (c_int pass.length) salt (c_int salt.length)
            (c_int c) md (c_int dkLen) with
          | none =>
            { ret := false, dk := some buf
              calls := digest_decide_md_call alg ++ ["PKCS5_PBKDF2_HMAC"] }
          | some key =>
            { ret := true, dk := some (write_buf buf key)
              calls := digest_decide_md_call alg ++ ["PKCS5_PBKDF2_HMAC"] }

/-- The calls `digest_update (ctx, d1, ...)`, ..., `digest_update (ctx, dk,
...)` of a caller that stops at the first failure. -/
def digest_updates {σ : Type} (lib : openssl σ) :
    Option (digest_context σ) → List (List Byte) → Bool × Option (digest_context σ)
  | ctx, [] => (true, ctx)
  | ctx, d :: ds =>
    let u := digest_update lib ctx (some d)
    if ! u.1 then (false, u.2) else digest_updates lib u.2 ds

/-- A caller that streams: `digest_init`, one `digest_update` for every
segment, `digest_final`; it stops at the first call that fails. -/
def digest_stream {σ : Type} (lib : openssl σ) (alg : Nat) (segs : List (List Byte))
    (out : Option (List Byte)) (outLen : Option Nat) : digest_result :=
  let i := digest_init lib (some ()) alg
  if ! i.1 then { ret := false, out := out, outLen := outLen }
  else
    let u := digest_updates lib i.2 segs
    if ! u.1 then { ret := false, out := out, outLen := outLen }
    else
      let f := digest_final lib u.2 out outLen
      { ret := f.ret, out := f.out, outLen := f.outLen }

/-- A caller that streams in HMAC mode: `digest_init_hmac`, one `digest_update`
for every segment, `digest_final`. -/
def digest_stream_hmac {σ : Type} (lib : openssl σ) (alg : Nat) (key : List Byte)
    (segs : List (List Byte)) (out : Option (List Byte)) (outLen : Option Nat) :
    digest_result :=
  let i := digest_init_hmac lib (some ()) alg key
  if ! i.1 then { ret := false, out := out, outLen := outLen }
  else
    let u := digest_updates lib i.2 segs
    if ! u.1 then { ret := false, out := out, outLen := outLen }
    else
      let f := digest_final lib u.2 out outLen
      { ret := f.ret, out := f.out, outLen := f.outLen }

end digest_fe_openssl

/-- The digest of the toy libraries below: `size` times the sum of the bytes
fed, modulo 256. -/
def toy_digest (size : Nat) (fed : List Byte) : List Byte :=
  List.replicate size (fed.foldl (fun a b => a + b) 0 % 256)

/-- A toy library with the interface of mbedTLS. A context is the list of the
digest size and the bytes fed so far; a freed context is the empty list. -/
def sample_mbedtls : digest_fe_mbedtls.mbedtls (List Byte) :=
  { mbedtls_md_info_from_type := fun t =>
      match t with
      | digest_fe_mbedtls.mbedtls_md_type_t.MBEDTLS_MD_NONE => none
      | digest_fe_mbedtls.mbedtls_md_type_t.MBEDTLS_MD_MD5 => some 0x10
      | digest_fe_mbedtls.mbedtls_md_type_t.MBEDTLS_MD_SHA1 => some 0x14
      | digest_fe_mbedtls.mbedtls_md_type_t.MBEDTLS_MD_SHA256 => some 0x20
      | digest_fe_mbedtls.mbedtls_md_type_t.MBEDTLS_MD_SHA512 => some 0x40
    mbedtls_md_get_size := fun md => md.getD 0
    mbedtls_md_init := []
    mbedtls_md_setup := fun _ md _ => some [md]
    mbedtls_md_starts := fun st => some st
    mbedtls_md_hmac_starts := fun st key => some (st ++ key)
    mbedtls_md_update := fun st d => some (st ++ d)
    mbedtls_md_hmac_update := fun st d => some (st ++ d)
    mbedtls_md_finish := fun st => some (st, toy_digest (st.headD 0) st.tail)
    mbedtls_md_hmac_finish := fun st => some (st, toy_digest (st.headD 0) st.tail)
    mbedtls_md_free := fun _ => []
    mbedtls_pkcs5_pbkdf2_hmac := fun _ pass salt _ dkLen => some (toy_digest dkLen (pass ++ salt)) }

/-- A toy library with the interface of OpenSSL, built as `sample_mbedtls`. -/
def sample_openssl : digest_fe_openssl.openssl (List Byte) :=
  { EVP_md5 := 0x10
    EVP_sha1 := 0x14
    EVP_sha256 := 0x20
    EVP_sha512 := 0x40
    EVP_MD_size := fun md => md.getD 0
    EVP_MD_CTX_init := []
    HMAC_CTX_init := []
    EVP_DigestInit_ex := fun _ md => some [md]
    HMAC_Init_ex := fun _ key _ md => some (md :: key)
    EVP_DigestUpdate := fun st d => some (st ++ d)
    HMAC_Update := fun st d => some (st ++ d)
    EVP_DigestFinal_ex := fun st _ => some (st, toy_digest (st.headD 0) st.tail, st.headD 0)
    HMAC_Final := fun st _ => some (st, toy_digest (st.headD 0) st.tail, st.headD 0)
    EVP_MD_CTX_cleanup := fun _ => []
    HMAC_CTX_cleanup := fun _ => []
    PKCS5_PBKDF2_HMAC := fun pass _ salt _ _ _ dkLen =>
      some (toy_digest dkLen.toNat (pass ++ salt)) }

/-! ## The reads of the input buffer

A pointer into a buffer is here the list of the bytes of the buffer from the
pointer to the end of the buffer, terminator included; the pointer one past
the end is the empty list, and a read through it is outside the buffer. -/

/-- What code that reads memory through a pointer ends with: a read outside
the buffer, for which C defines no behaviour, or a value. -/
inductive access (α : Type) where
  | overread
  | ok (val : α)

/-- The C library's `strchr (p, c)` for `c` other than NUL, on the memory at
`p`: it compares byte after byte until it meets `c` or the terminator. -/
def strchr_mem : List Byte → Byte → access (Option Nat)
  | [], _ => access.overread
  | b :: rest, c =>
    if b = c then access.ok (some 0)
    else if b = 0 then access.ok none
    else
      match strchr_mem rest c with
      | access.overread => access.overread
      | access.ok r => access.ok (r.map (· + 1))

/-- The string `sstrdup (p)` copies from the memory at `p`: the bytes before
the terminator. -/
def sstrdup_mem : List Byte → access (List Byte)
  | [] => access.overread
  | b :: rest =>
    if b = 0 then access.ok []
    else
      match sstrdup_mem rest with
      | access.overread => access.overread
      | access.ok v => access.ok (b :: v)

/-- The `for (;;)` loop of `sasl_scramsha_attrlist_parse` on the memory at
`str`, one iteration for each unit of fuel; `none` when the fuel runs out
before the loop returns. -/
def attrlist_parse_mem_loop :
    Nat → List Byte → scram_attr_list → Option (access (Bool × scram_attr_list))
  | 0, _, _ => none
  | fuel + 1, str, attrs =>
    match str with
    | [] => some access.overread
    | name :: str1 =>
      if invalid_attr_name name then some (access.ok (false, attrs))
      else
        match str1 with
        | [] => some access.overread
        | eq :: str2 =>
          if eq = chr '=' then
            match strchr_mem str2 (chr ',') with
            | access.overread => some access.overread
            | access.ok (some pos) =>
              attrlist_parse_mem_loop fuel (str2.drop (pos + 1))
                (attrs_set attrs name (str2.take pos))
            | access.ok none =>
              match sstrdup_mem str2 with
              | access.overread => some access.overread
              | access.ok v => some (access.ok (true, attrs_set attrs name v))
          else some (access.ok (false, attrs))

/-- The function `sasl_scramsha_attrlist_parse (str, attrs)` on the memory at
`str`; `none` would be a loop that does not return. -/
def sasl_scramsha_attrlist_parse_mem (str : List Byte) :
    Option (access (Bool × scram_attr_list)) :=
  attrlist_parse_mem_loop (str.length + 1) str attrs_empty

/-- Lines 179 to 224 of `mech_step_clientfirst` on the memory at `message`,
the pointer after `a=`: the search `strchr (message + 1, ',')` starts one byte
behind `message`. The outcome `accept` holds the pointer `pos + 1`. -/
def gs2_authzid_mem (env : scram_env) (message : List Byte) : gs2_outcome :=
  match message with
  | [] => gs2_outcome.overread
  | z0 :: after =>
    match strchr_mem after (chr ',') with
    | access.overread => gs2_outcome.overread
    | access.ok none => gs2_outcome.reject
    | access.ok (some k) =>
      let authzid_length := k + 1
      if authzid_length ≥ env.NICKLEN then gs2_outcome.reject
      else
        match env.normalize (z0 :: after.take k) env.NICKLEN with
        | none => gs2_outcome.reject
        | some authzid =>
          if ! env.authzid_can_login authzid then gs2_outcome.reject
          else gs2_outcome.accept (after.drop (k + 1))

/-- Lines 157 to 229 of `mech_step_clientfirst` on the memory at `in`: the
reads `*message++`, `*message++`, `message[0]`, `message[1]` (when
`message[0]` is `a`) and the authzid section. -/
def gs2_header_mem (env : scram_env) (buf : List Byte) : gs2_outcome :=
  match buf with
  | [] => gs2_outcome.overread
  | flag :: m1 =>
    if flag = chr 'y' ∨ flag = chr 'n' then
      match m1 with
      | [] => gs2_outcome.overread
      | c1 :: m2 =>
        if c1 ≠ chr ',' then gs2_outcome.reject
        else
          match m2 with
          | [] => gs2_outcome.overread
          | c2 :: m3 =>
            if c2 = chr 'a' then
              match m3 with
              | [] => gs2_outcome.overread
              | c3 :: m4 =>
                if c3 = chr '=' then gs2_authzid_mem env m4
                else gs2_outcome.reject
            else if c2 ≠ chr ',' then gs2_outcome.reject
            else gs2_outcome.accept m3
    else gs2_outcome.reject

/-- The sample environment with a core that lets only the authzid `,` log
in. -/
def comma_authzid_env : scram_env :=
  { sample_env with authzid_can_login := fun z => decide (z = [chr ',']) }

/-- The sample environment with a core that lets only the empty authzid log
in. -/
def empty_authzid_env : scram_env :=
  { sample_env with authzid_can_login := fun z => decide (z = []) }

/-- The sample environment with a verifier of a salt of 8 bytes (12 characters
of base64) and 999 iterations. -/
def short_salt_env : scram_env :=
  { sample_env with
    dbextract := fun _ _ => (true, { sample_db with salt64 := bytes "c2FsdHNhbHQ=", c := 999 }) }

/-! ## Properties -/

theorem attrlist_parse_loop_fuel (fuel : Nat) :
    ∀ (str : List Byte) (attrs : scram_attr_list), str.length < fuel →
      (attrlist_parse_loop fuel str attrs).isSome = true := by
  induction fuel with
  | zero => intro str attrs h; omega
  | succ n ih =>
    intro str attrs h
    unfold attrlist_parse_loop
    match str with
    | [] => simp
    | name :: [] => by_cases hn : invalid_attr_name name = true <;> simp [hn]
    | name :: eq :: str2 =>
      by_cases hn : invalid_attr_name name = true
      · simp [hn]
      · by_cases he : eq = chr '='
        · simp only [hn, he, if_true]
          cases hs : strchr str2 (chr ',') with
          | none => simp
          | some pos =>
            simp only [Bool.false_eq_true, if_false]
            apply ih
            simp only [List.length_drop, List.length_cons] at h ⊢
            omega
        · simp [hn, he]


theorem mech_step_success_done (env : scram_env) (users : user_store) (s : scramsha_session)
    (hmu : s.mu ≠ none) :
    ∃ users1, mech_step_success env users s = some (ASASL_DONE, users1) := by
  cases hmu1 : s.mu with
  | none => exact absurd hmu1 hmu
  | some u =>
    simp only [mech_step_success, hmu1]
    repeat' split
    all_goals exact ⟨_, rfl⟩

/-- C1: when the step of a session is Passed, Failed or Errored, then for every
input frame `mech_step_dispatch` returns, leaves the session (and so its step
field) as it was, and returns the verdict of that state: Done for Passed, Fail
for Failed, Error for Errored. A session in Passed has a resolved user. -/
theorem mech_step_dispatch_absorbing (env : scram_env) (users : user_store) (p : sasl_session)
    (s : scramsha_session) (inp : Option (List Byte)) (prf : Nat)
    (hp : p.mechdata = some s)
    (hs : s.step = SCRAMSHA_STEP_PASSED ∨ s.step = SCRAMSHA_STEP_FAILED ∨
      s.step = SCRAMSHA_STEP_ERRORED)
    (hmu : s.step = SCRAMSHA_STEP_PASSED → s.mu ≠ none) :
    ∃ r, mech_step_dispatch env users (some p) inp prf = some r ∧
      r.p = some p ∧
      (r.p.bind (fun q => q.mechdata)).map (fun t => t.step) = some s.step ∧
      r.out = none ∧
      (s.step = SCRAMSHA_STEP_PASSED → r.ret = ASASL_DONE) ∧
      (s.step = SCRAMSHA_STEP_FAILED → r.ret = ASASL_FAIL) ∧
      (s.step = SCRAMSHA_STEP_ERRORED → r.ret = ASASL_ERROR) := by
  rcases hs with h | h | h
  · obtain ⟨users1, hu⟩ := mech_step_success_done env users s (hmu h)
    refine ⟨{ ret := ASASL_DONE, p := some p, users := users1, out := none }, ?_, rfl, ?_, rfl, ?_⟩
    · simp [mech_step_dispatch, hp, h, hu]
    · simp [hp]
    · simp [h]
  · refine ⟨{ ret := ASASL_FAIL, p := some p, users := users, out := none }, ?_, rfl, ?_, rfl, ?_⟩
    · simp [mech_step_dispatch, hp, h]
    · simp [hp]
    · simp [h]
  · refine ⟨{ ret := ASASL_ERROR, p := some p, users := users, out := none }, ?_, rfl, ?_, rfl, ?_⟩
    · simp [mech_step_dispatch, hp, h]
    · simp [hp]
    · simp [h]

theorem mech_step_dispatch_absorbing_witness :
    (sample_session SCRAMSHA_STEP_PASSED).step = SCRAMSHA_STEP_PASSED ∧
    ∃ r, mech_step_dispatch sample_env sample_users
        (some { mechdata := some (sample_session SCRAMSHA_STEP_PASSED) }) (some (bytes "x")) 25 = some r ∧
      r.p = some { mechdata := some (sample_session SCRAMSHA_STEP_PASSED) } ∧
      (r.p.bind (fun q => q.mechdata)).map (fun t => t.step) = some SCRAMSHA_STEP_PASSED ∧
      r.out = none ∧
      (SCRAMSHA_STEP_PASSED = SCRAMSHA_STEP_PASSED → r.ret = ASASL_DONE) ∧
      (SCRAMSHA_STEP_PASSED = SCRAMSHA_STEP_FAILED → r.ret = ASASL_FAIL) ∧
      (SCRAMSHA_STEP_PASSED = SCRAMSHA_STEP_ERRORED → r.ret = ASASL_ERROR) :=
  ⟨rfl, mech_step_dispatch_absorbing sample_env sample_users
    { mechdata := some (sample_session SCRAMSHA_STEP_PASSED) }
    (sample_session SCRAMSHA_STEP_PASSED) (some (bytes "x")) 25 rfl (Or.inl rfl)
    (fun _ => by decide)⟩


theorem goto_error_ret (s : scramsha_session) : (goto_error s).ret = ASASL_ERROR := rfl

theorem goto_error_step (s : scramsha_session) :
    (goto_error s).s.step = SCRAMSHA_STEP_ERRORED := rfl

theorem goto_error_out (s : scramsha_session) : (goto_error s).out = none := rfl

/-- What a client-first step that returns More has established and stored, from
the login check on (lines 261 to 317). -/
theorem clientfirst_login_more (env : scram_env) (users : user_store) (s : scramsha_session)
    (data message authcid input_r : List Byte) (prf : Nat)
    (h : (clientfirst_login env users s data message authcid input_r prf).ret = ASASL_MORE) :
    ∃ u, env.authcid_can_login authcid = authcid_result.allowed u ∧
      (users u).flags &&& env.MU_CRYPTPASS ≠ 0 ∧
      (users u).flags &&& env.MU_NOPASSWORD = 0 ∧
      (env.dbextract (users u).pass s.db).1 = true ∧
      (env.dbextract (users u).pass s.db).2.a = prf ∧
      NONCE_LENGTH + env.PBKDF2_SALTLEN_MIN + 16 <
        (server_first_message input_r (env.random_string NONCE_LENGTH)
          (env.dbextract (users u).pass s.db).2.salt64
          (env.dbextract (users u).pass s.db).2.c).length ∧
      (server_first_message input_r (env.random_string NONCE_LENGTH)
          (env.dbextract (users u).pass s.db).2.salt64
          (env.dbextract (users u).pass s.db).2.c).length < env.SASL_C2S_MAXLEN ∧
      clientfirst_login env users s data message authcid input_r prf =
        { ret := ASASL_MORE
          s := { db := (env.dbextract (users u).pass s.db).2
                 mu := some u
                 cn := input_r
                 sn := env.random_string NONCE_LENGTH
                 c_gs2_buf := data.take (data.length - message.length)
                 c_msg_buf := message.take (data.length - (data.length - message.length))
                 s_msg_buf := server_first_message input_r (env.random_string NONCE_LENGTH)
                   (env.dbextract (users u).pass s.db).2.salt64
                   (env.dbextract (users u).pass s.db).2.c
                 c_gs2_len := data.length - message.length
                 c_msg_len := data.length - (data.length - message.length)
                 s_msg_len := (server_first_message input_r (env.random_string NONCE_LENGTH)
                   (env.dbextract (users u).pass s.db).2.salt64
                   (env.dbextract (users u).pass s.db).2.c).length
                 step := SCRAMSHA_STEP_CLIENTPROOF }
          out := some (server_first_message input_r (env.random_string NONCE_LENGTH)
                   (env.dbextract (users u).pass s.db).2.salt64
                   (env.dbextract (users u).pass s.db).2.c) } := by
  unfold clientfirst_login at h ⊢
  cases hc : env.authcid_can_login authcid with
  | denied mu => simp [hc, goto_error] at h
  | allowed u =>
    simp only [hc] at h ⊢
    refine ⟨u, rfl, ?_⟩
    split_ifs at h with h1 h2 h3 h4 h5
    all_goals first
      | (exfalso; simp [goto_error] at h; done)
      | skip
    simp only [Bool.not_eq_true', Bool.not_eq_false] at h3
    simp only [not_or, not_le, ge_iff_le] at h5
    refine ⟨h1, by simpa using h2, by simpa using h3, by simpa using h4, h5.1, h5.2, ?_⟩
    simp [h1, h2, h3, h4, h5]

theorem strchr_split (c : Byte) :
    ∀ (str : List Byte) (k : Nat), strchr str c = some k →
      str = str.take k ++ c :: str.drop (k + 1) ∧ c ∉ str.take k := by
  intro str
  induction str with
  | nil => intro k h; simp [strchr] at h
  | cons b rest ih =>
    intro k h
    unfold strchr at h
    by_cases hb : b = c
    · simp only [hb, if_true, Option.some.injEq] at h
      subst h
      simp [hb]
    · simp only [hb, if_false, Option.map_eq_some'] at h
      obtain ⟨j, hj, rfl⟩ := h
      obtain ⟨h1, h2⟩ := ih j hj
      constructor
      · simp only [List.take_succ_cons, List.drop_succ_cons, List.cons_append, List.cons.injEq,
          true_and]
        exact h1
      · simp only [List.take_succ_cons, List.mem_cons, not_or]
        exact ⟨fun e => hb e.symm, h2⟩

theorem strchr_none (c : Byte) :
    ∀ (str : List Byte), strchr str c = none ↔ c ∉ str := by
  intro str
  induction str with
  | nil => simp [strchr]
  | cons b rest ih =>
    unfold strchr
    by_cases hb : b = c
    · simp [hb]
    · simp only [hb, if_false, Option.map_eq_none', ih, List.mem_cons, not_or]
      exact ⟨fun h => ⟨fun e => hb e.symm, h⟩, fun h => h.2⟩

/-- The header the scan accepts is a part of the input that ends with a comma,
and the attribute list is the rest of the input. -/
theorem gs2_header_accept (env : scram_env) (data message : List Byte)
    (h : gs2_header env data = gs2_outcome.accept message) :
    ∃ hdr, data = (hdr ++ [chr ',']) ++ message := by
  unfold gs2_header at h
  match data, h with
  | [], h => simp at h
  | [flag], h => simp only at h; split_ifs at h
  | [flag, c1], h => simp only at h; split_ifs at h
  | flag :: c1 :: c2 :: m3, h =>
    simp only at h
    split_ifs at h with hf hc1 ha hc2
    · -- the authzid branch
      unfold gs2_authzid at h
      match m3, ha, h with
      | [], ha, h => simp at h
      | [e], ha, h => simp at h
      | e :: z0 :: after, ha, h =>
        simp only [List.tail_cons] at h
        cases hk : strchr after (chr ',') with
        | none => simp [hk] at h
        | some k =>
          simp only [hk] at h
          split_ifs at h
          cases hn : env.normalize (z0 :: List.take k after) env.NICKLEN with
          | none => simp [hn] at h
          | some authzid =>
            simp only [hn] at h
            split_ifs at h
            simp only [gs2_outcome.accept.injEq] at h
            refine ⟨flag :: c1 :: c2 :: e :: z0 :: after.take k, ?_⟩
            have hsp := (strchr_split (chr ',') after k hk).1
            rw [← h]
            simp only [List.cons_append, List.append_assoc, List.singleton_append, List.cons.injEq,
              true_and]
            exact hsp
    · simp only [ne_eq, Decidable.not_not] at hc2
      simp only [gs2_outcome.accept.injEq] at h
      refine ⟨[flag, c1], ?_⟩
      simp [h, hc2]

/-- What the attribute checks of a client-first step that returns More have
established (lines 231 to 259). -/
theorem clientfirst_attrs_more (env : scram_env) (users : user_store) (s : scramsha_session)
    (data message : List Byte) (prf : Nat)
    (h : (clientfirst_attrs env users s data message prf).ret = ASASL_MORE) :
    ∃ n input_r authcid,
      (sasl_scramsha_attrlist_parse message).1 = true ∧
      (sasl_scramsha_attrlist_parse message).2 (chr 'm') = none ∧
      (sasl_scramsha_attrlist_parse message).2 (chr 'n') = some n ∧ n ≠ [] ∧
      (sasl_scramsha_attrlist_parse message).2 (chr 'r') = some input_r ∧ input_r ≠ [] ∧
      n.length < env.NICKLEN ∧
      env.normalize n env.NICKLEN = some authcid ∧
      clientfirst_attrs env users s data message prf =
        clientfirst_login env users s data message authcid input_r prf := by
  unfold clientfirst_attrs at h ⊢
  simp only at h ⊢
  split_ifs at h with hp
  · simp [goto_error] at h
  · split at h
    · rename_i n0 n r0 r hm hn hr
      split_ifs at h with hl
      · simp [goto_error] at h
      · cases hz : env.normalize (n0 :: n) env.NICKLEN with
        | none => simp [hz, goto_error] at h
        | some authcid =>
          refine ⟨n0 :: n, r0 :: r, authcid, by simpa using hp, hm, hn, by simp, hr, by simp,
            by simpa using hl, hz, ?_⟩
          rw [if_neg hp]
          simp only [hm, hn, hr]
          rw [if_neg hl]
    · simp [goto_error] at h

/-- Every path from the login check on that does not return More goes through
the label `error:`. -/
theorem clientfirst_login_error (env : scram_env) (users : user_store) (s : scramsha_session)
    (data message authcid input_r : List Byte) (prf : Nat)
    (h : (clientfirst_login env users s data message authcid input_r prf).ret ≠ ASASL_MORE) :
    (clientfirst_login env users s data message authcid input_r prf).ret = ASASL_ERROR ∧
    (clientfirst_login env users s data message authcid input_r prf).s.step = SCRAMSHA_STEP_ERRORED ∧
    (clientfirst_login env users s data message authcid input_r prf).out = none := by
  revert h
  unfold clientfirst_login
  cases hc : env.authcid_can_login authcid with
  | denied mu => intro _; exact ⟨rfl, rfl, rfl⟩
  | allowed u =>
    simp only
    split_ifs
    all_goals first
      | (intro _; exact ⟨rfl, rfl, rfl⟩)
      | (intro h; exact absurd rfl h)

/-- Every path of the client-first step that passes the GS2 header and does not
return More goes through the label `error:`. -/
theorem clientfirst_attrs_error (env : scram_env) (users : user_store) (s : scramsha_session)
    (data message : List Byte) (prf : Nat)
    (h : (clientfirst_attrs env users s data message prf).ret ≠ ASASL_MORE) :
    (clientfirst_attrs env users s data message prf).ret = ASASL_ERROR ∧
    (clientfirst_attrs env users s data message prf).s.step = SCRAMSHA_STEP_ERRORED ∧
    (clientfirst_attrs env users s data message prf).out = none := by
  revert h
  unfold clientfirst_attrs
  simp only
  split_ifs with hp
  · intro _; exact ⟨rfl, rfl, rfl⟩
  · split
    · rename_i n0 n r0 r hm hn hr
      split_ifs with hl
      · intro _; exact ⟨rfl, rfl, rfl⟩
      · cases hz : env.normalize (n0 :: n) env.NICKLEN with
        | none => intro _; exact ⟨rfl, rfl, rfl⟩
        | some authcid =>
          simp only
          exact clientfirst_login_error env users s data message authcid (r0 :: r) prf
    · intro _; exact ⟨rfl, rfl, rfl⟩

/-- The client-first step returns More only on a non-empty NUL-free input
whose GS2 header is accepted. -/
theorem mech_step_clientfirst_more (env : scram_env) (users : user_store) (s : scramsha_session)
    (inp : Option (List Byte)) (prf : Nat) (r : step_result)
    (h : mech_step_clientfirst env users s inp prf = some r) (hr : r.ret = ASASL_MORE) :
    ∃ data message, inp = some data ∧ data ≠ [] ∧ 0 ∉ data ∧
      gs2_header env data = gs2_outcome.accept message ∧
      r = clientfirst_attrs env users s data message prf := by
  unfold mech_step_clientfirst at h
  match inp, h with
  | none, h => simp only [Option.some.injEq] at h; subst h; simp at hr
  | some [], h => simp only [Option.some.injEq] at h; subst h; simp at hr
  | some (b :: rest), h =>
    simp only at h
    split_ifs at h with h0
    · simp only [Option.some.injEq] at h; subst h; simp at hr
    · cases hg : gs2_header env (b :: rest) with
      | overread => simp [hg] at h
      | reject => simp only [hg, Option.some.injEq] at h; subst h; simp at hr
      | accept message =>
        simp only [hg, Option.some.injEq] at h
        exact ⟨b :: rest, message, rfl, by simp, h0, hg, h.symm⟩



/-- Whatever the client-first step returns other than More is Error, with no
output, and the session is either left as it was or has gone through the label
`error:`. -/
theorem mech_step_clientfirst_not_more (env : scram_env) (users : user_store)
    (s : scramsha_session) (inp : Option (List Byte)) (prf : Nat) (r : step_result)
    (h : mech_step_clientfirst env users s inp prf = some r) (hr : r.ret ≠ ASASL_MORE) :
    r.ret = ASASL_ERROR ∧ r.out = none ∧ (r.s = s ∨ r.s.step = SCRAMSHA_STEP_ERRORED) := by
  unfold mech_step_clientfirst at h
  match inp, h with
  | none, h => simp only [Option.some.injEq] at h; subst h; exact ⟨rfl, rfl, Or.inl rfl⟩
  | some [], h => simp only [Option.some.injEq] at h; subst h; exact ⟨rfl, rfl, Or.inl rfl⟩
  | some (b :: rest), h =>
    simp only at h
    split_ifs at h with h0
    · simp only [Option.some.injEq] at h; subst h; exact ⟨rfl, rfl, Or.inl rfl⟩
    · cases hg : gs2_header env (b :: rest) with
      | overread => simp [hg] at h
      | reject => simp only [hg, Option.some.injEq] at h; subst h; exact ⟨rfl, rfl, Or.inl rfl⟩
      | accept message =>
        simp only [hg, Option.some.injEq] at h
        subst h
        obtain ⟨h1, h2, h3⟩ := clientfirst_attrs_error env users s (b :: rest) message prf hr
        exact ⟨h1, h3, Or.inr h2⟩

/-- C2: the client-first step returns Error and leaves the session as it was,
step included, on the frame `x,,n=user,r=abc` (malformed GS2 header), on the
empty frame, and on the frame `n` NUL: a session in ClientFirst is then still
in ClientFirst, not in Errored. -/
theorem mech_step_clientfirst_early_return (env : scram_env) (users : user_store)
    (s : scramsha_session) (prf : Nat) :
    mech_step_clientfirst env users s (some (bytes "x,,n=user,r=abc")) prf =
      some { ret := ASASL_ERROR, s := s, out := none } ∧
    mech_step_clientfirst env users s (some []) prf =
      some { ret := ASASL_ERROR, s := s, out := none } ∧
    mech_step_clientfirst env users s (some [chr 'n', 0]) prf =
      some { ret := ASASL_ERROR, s := s, out := none } :=
  ⟨rfl, rfl, rfl⟩

/-- C4: on every client-first input whose first byte is neither `y` nor `n` (so
also on `p`), or whose second byte is not a comma, the client-first step
returns Error, writes no output and leaves the session as it was; it does not
return More. -/
theorem mech_step_clientfirst_bad_flag (env : scram_env) (users : user_store)
    (s : scramsha_session) (data : List Byte) (prf : Nat)
    (h : (data[0]? ≠ some (chr 'y') ∧ data[0]? ≠ some (chr 'n')) ∨ data[1]? ≠ some (chr ',')) :
    mech_step_clientfirst env users s (some data) prf =
      some { ret := ASASL_ERROR, s := s, out := none } := by
  unfold mech_step_clientfirst
  match data, h with
  | [], _ => rfl
  | [flag], h =>
    simp only
    split_ifs
    · rfl
    · simp only [gs2_header]
      split_ifs <;> rfl
  | flag :: c1 :: m2, h =>
    simp only
    split_ifs with h0
    · rfl
    · simp only [gs2_header]
      by_cases hf : flag = chr 'y' ∨ flag = chr 'n'
      · have hc : c1 ≠ chr ',' := by
          rcases h with h | h
          · rcases hf with hf | hf <;> simp [hf] at h
          · simpa using h
        simp [hf, hc]
      · simp [hf]

theorem mech_step_clientfirst_bad_flag_witness :
    (((bytes "p,,n=user,r=abc")[0]? ≠ some (chr 'y') ∧
      (bytes "p,,n=user,r=abc")[0]? ≠ some (chr 'n')) ∨
      (bytes "p,,n=user,r=abc")[1]? ≠ some (chr ',')) ∧
    mech_step_clientfirst sample_env sample_users mech_start (some (bytes "p,,n=user,r=abc")) 25 =
      some { ret := ASASL_ERROR, s := mech_start, out := none } :=
  ⟨by decide, mech_step_clientfirst_bad_flag sample_env sample_users mech_start
    (bytes "p,,n=user,r=abc") 25 (by decide)⟩

/-- C5: on every client-first input with an accepted GS2 header whose attribute
list has an `m` attribute (whatever its value, the empty value included), or
has no `n`, or no `r`, or an empty `n`, or an empty `r`, the client-first step
returns Error, writes no output, and the step of the session becomes
Errored. -/
theorem mech_step_clientfirst_attrs_unacceptable (env : scram_env) (users : user_store)
    (s : scramsha_session) (data message : List Byte) (prf : Nat)
    (hne : data ≠ []) (h0 : 0 ∉ data)
    (hg : gs2_header env data = gs2_outcome.accept message)
    (hbad : ((sasl_scramsha_attrlist_parse message).2 (chr 'm')).isSome = true ∨
      (sasl_scramsha_attrlist_parse message).2 (chr 'n') = none ∨
      (sasl_scramsha_attrlist_parse message).2 (chr 'n') = some [] ∨
      (sasl_scramsha_attrlist_parse message).2 (chr 'r') = none ∨
      (sasl_scramsha_attrlist_parse message).2 (chr 'r') = some []) :
    ∃ r, mech_step_clientfirst env users s (some data) prf = some r ∧
      r.ret = ASASL_ERROR ∧ r.out = none ∧ r.s.step = SCRAMSHA_STEP_ERRORED := by
  have hstep : mech_step_clientfirst env users s (some data) prf =
      some (clientfirst_attrs env users s data message prf) := by
    unfold mech_step_clientfirst
    match data, hne, h0, hg with
    | b :: rest, _, h0, hg => simp only [h0, if_false, hg]
  refine ⟨_, hstep, ?_⟩
  have hnm : (clientfirst_attrs env users s data message prf).ret ≠ ASASL_MORE := by
    intro hm
    obtain ⟨n, input_r, authcid, _, h2, h3, h4, h5, h6, _⟩ :=
      clientfirst_attrs_more env users s data message prf hm
    rcases hbad with hb | hb | hb | hb | hb
    · simp [h2] at hb
    · simp [h3] at hb
    · rw [h3] at hb; exact h4 (Option.some.inj hb)
    · simp [h5] at hb
    · rw [h5] at hb; exact h6 (Option.some.inj hb)
  obtain ⟨h1, h2, h3⟩ := clientfirst_attrs_error env users s data message prf hnm
  exact ⟨h1, h3, h2⟩

set_option maxRecDepth 100000 in
theorem mech_step_clientfirst_attrs_unacceptable_witness :
    bytes "n,,n=user,r=abc,m=" ≠ [] ∧ 0 ∉ bytes "n,,n=user,r=abc,m=" ∧
    gs2_header sample_env (bytes "n,,n=user,r=abc,m=") =
      gs2_outcome.accept (bytes "n=user,r=abc,m=") ∧
    ((sasl_scramsha_attrlist_parse (bytes "n=user,r=abc,m=")).2 (chr 'm')).isSome = true ∧
    ∃ r, mech_step_clientfirst sample_env sample_users mech_start
        (some (bytes "n,,n=user,r=abc,m=")) 25 = some r ∧
      r.ret = ASASL_ERROR ∧ r.out = none ∧ r.s.step = SCRAMSHA_STEP_ERRORED :=
  ⟨by decide, by decide, by decide, by decide,
    mech_step_clientfirst_attrs_unacceptable sample_env sample_users mech_start
      (bytes "n,,n=user,r=abc,m=") (bytes "n=user,r=abc,m=") 25
      (by decide) (by decide) (by decide) (Or.inl (by decide))⟩

/-- Everything a client-first step that returns More has checked, and the
session and the output it leaves. -/
theorem mech_step_clientfirst_more_full (env : scram_env) (users : user_store)
    (s : scramsha_session) (inp : Option (List Byte)) (prf : Nat) (r : step_result)
    (h : mech_step_clientfirst env users s inp prf = some r) (hr : r.ret = ASASL_MORE) :
    ∃ data message hdr n input_r authcid u,
      inp = some data ∧ data ≠ [] ∧ 0 ∉ data ∧
      gs2_header env data = gs2_outcome.accept message ∧
      data = (hdr ++ [chr ',']) ++ message ∧
      (sasl_scramsha_attrlist_parse message).1 = true ∧
      (sasl_scramsha_attrlist_parse message).2 (chr 'm') = none ∧
      (sasl_scramsha_attrlist_parse message).2 (chr 'n') = some n ∧ n ≠ [] ∧
      (sasl_scramsha_attrlist_parse message).2 (chr 'r') = some input_r ∧ input_r ≠ [] ∧
      n.length < env.NICKLEN ∧
      env.normalize n env.NICKLEN = some authcid ∧
      env.authcid_can_login authcid = authcid_result.allowed u ∧
      (users u).flags &&& env.MU_CRYPTPASS ≠ 0 ∧
      (users u).flags &&& env.MU_NOPASSWORD = 0 ∧
      (env.dbextract (users u).pass s.db).1 = true ∧
      (env.dbextract (users u).pass s.db).2.a = prf ∧
      NONCE_LENGTH + env.PBKDF2_SALTLEN_MIN + 16 <
        (server_first_message input_r (env.random_string NONCE_LENGTH)
          (env.dbextract (users u).pass s.db).2.salt64
          (env.dbextract (users u).pass s.db).2.c).length ∧
      (server_first_message input_r (env.random_string NONCE_LENGTH)
          (env.dbextract (users u).pass s.db).2.salt64
          (env.dbextract (users u).pass s.db).2.c).length < env.SASL_C2S_MAXLEN ∧
      r = { ret := ASASL_MORE
            s := { db := (env.dbextract (users u).pass s.db).2
                   mu := some u
                   cn := input_r
                   sn := env.random_string NONCE_LENGTH
                   c_gs2_buf := hdr ++ [chr ',']
                   c_msg_buf := message
                   s_msg_buf := server_first_message input_r (env.random_string NONCE_LENGTH)
                     (env.dbextract (users u).pass s.db).2.salt64
                     (env.dbextract (users u).pass s.db).2.c
                   c_gs2_len := (hdr ++ [chr ',']).length
                   c_msg_len := message.length
                   s_msg_len := (server_first_message input_r (env.random_string NONCE_LENGTH)
                     (env.dbextract (users u).pass s.db).2.salt64
                     (env.dbextract (users u).pass s.db).2.c).length
                   step := SCRAMSHA_STEP_CLIENTPROOF }
            out := some (server_first_message input_r (env.random_string NONCE_LENGTH)
                     (env.dbextract (users u).pass s.db).2.salt64
                     (env.dbextract (users u).pass s.db).2.c) } := by
  obtain ⟨data, message, hin, hne, h0, hg, hrd⟩ :=
    mech_step_clientfirst_more env users s inp prf r h hr
  obtain ⟨hdr, hd⟩ := gs2_header_accept env data message hg
  have hr1 : (clientfirst_attrs env users s data message prf).ret = ASASL_MORE := hrd ▸ hr
  obtain ⟨n, input_r, authcid, a1, a2, a3, a4, a5, a6, a7, a8, a9⟩ :=
    clientfirst_attrs_more env users s data message prf hr1
  have hr2 : (clientfirst_login env users s data message authcid input_r prf).ret = ASASL_MORE :=
    a9 ▸ hr1
  obtain ⟨u, b1, b2, b3, b4, b5, b6, b7, b8⟩ :=
    clientfirst_login_more env users s data message authcid input_r prf hr2
  refine ⟨data, message, hdr, n, input_r, authcid, u, hin, hne, h0, hg, hd, a1, a2, a3, a4, a5,
    a6, a7, a8, b1, b2, b3, b4, b5, b6, b7, ?_⟩
  rw [hrd, a9, b8]
  have l1 : data.length - message.length = (hdr ++ [chr ',']).length := by
    rw [hd]; simp only [List.length_append]; omega
  have l2 : data.length - (hdr ++ [chr ',']).length = message.length := by
    rw [hd]; simp only [List.length_append]; omega
  rw [l1, l2]
  have l3 : data.take (hdr ++ [chr ',']).length = hdr ++ [chr ','] := by
    rw [hd]; exact List.take_left' rfl
  rw [l3, List.take_length]

/-- C6: whenever the client-first step returns More, the normalised authcid
resolved to a user that has the CRYPTPASS flag set and the NOPASSWORD flag
clear, the stored verifier of that user was decoded, and the PRF identifier of
the decoded verifier is the PRF of the mechanism; and on an input with an
accepted GS2 header for which no user so resolved passes all of these checks,
the step returns Error with step Errored. -/
theorem mech_step_clientfirst_verifier (env : scram_env) (users : user_store)
    (s : scramsha_session) (inp : Option (List Byte)) (prf : Nat) :
    (∀ r, mech_step_clientfirst env users s inp prf = some r → r.ret = ASASL_MORE →
      ∃ data message n authcid u, inp = some data ∧
        gs2_header env data = gs2_outcome.accept message ∧
        (sasl_scramsha_attrlist_parse message).2 (chr 'n') = some n ∧
        env.normalize n env.NICKLEN = some authcid ∧
        env.authcid_can_login authcid = authcid_result.allowed u ∧
        r.s.mu = some u ∧
        (users u).flags &&& env.MU_CRYPTPASS ≠ 0 ∧
        (users u).flags &&& env.MU_NOPASSWORD = 0 ∧
        (env.dbextract (users u).pass s.db).1 = true ∧
        r.s.db = (env.dbextract (users u).pass s.db).2 ∧
        r.s.db.a = prf) ∧
    (∀ data message, inp = some data → data ≠ [] → 0 ∉ data →
      gs2_header env data = gs2_outcome.accept message →
      (∀ n authcid u, (sasl_scramsha_attrlist_parse message).2 (chr 'n') = some n →
        env.normalize n env.NICKLEN = some authcid →
        env.authcid_can_login authcid = authcid_result.allowed u →
        ¬ ((users u).flags &&& env.MU_CRYPTPASS ≠ 0 ∧
           (users u).flags &&& env.MU_NOPASSWORD = 0 ∧
           (env.dbextract (users u).pass s.db).1 = true ∧
           (env.dbextract (users u).pass s.db).2.a = prf)) →
      ∃ r, mech_step_clientfirst env users s inp prf = some r ∧
        r.ret = ASASL_ERROR ∧ r.s.step = SCRAMSHA_STEP_ERRORED) := by
  constructor
  · intro r h hr
    obtain ⟨data, message, hdr, n, input_r, authcid, u, hin, _, _, hg, _, _, _, a3, _, _, _, _,
      a8, b1, b2, b3, b4, b5, _, _, hrec⟩ :=
      mech_step_clientfirst_more_full env users s inp prf r h hr
    refine ⟨data, message, n, authcid, u, hin, hg, a3, a8, b1, ?_, b2, b3, b4, ?_, ?_⟩
    · rw [hrec]
    · rw [hrec]
    · rw [hrec]; exact b5
  · intro data message hin hne h0 hg hfail
    have hstep : mech_step_clientfirst env users s inp prf =
        some (clientfirst_attrs env users s data message prf) := by
      rw [hin]
      unfold mech_step_clientfirst
      match data, hne, h0, hg with
      | b :: rest, _, h0, hg => simp only [h0, if_false, hg]
    refine ⟨_, hstep, ?_⟩
    have hnm : (clientfirst_attrs env users s data message prf).ret ≠ ASASL_MORE := by
      intro hm
      obtain ⟨data1, message1, hdr, n, input_r, authcid, u, hin1, _, _, hg1, _, _, _, a3, _, _,
        _, _, a8, b1, b2, b3, b4, b5, _, _, _⟩ :=
        mech_step_clientfirst_more_full env users s inp prf _ hstep hm
      have e1 : data1 = data := by
        rw [hin] at hin1; exact (Option.some.inj hin1).symm
      subst e1
      have e2 : message1 = message := by
        rw [hg] at hg1; exact (gs2_outcome.accept.inj hg1).symm
      subst e2
      exact hfail n authcid u a3 a8 b1 ⟨b2, b3, b4, b5⟩
    obtain ⟨h1, h2, _⟩ := clientfirst_attrs_error env users s data message prf hnm
    exact ⟨h1, h2⟩

set_option maxRecDepth 100000 in
theorem mech_step_clientfirst_verifier_witness :
    mech_step_clientfirst sample_env sample_users mech_start
        (some (bytes "n,,n=user,r=abc")) 25 =
      some (clientfirst_attrs sample_env sample_users mech_start
        (bytes "n,,n=user,r=abc") (bytes "n=user,r=abc") 25) ∧
    (clientfirst_attrs sample_env sample_users mech_start
        (bytes "n,,n=user,r=abc") (bytes "n=user,r=abc") 25).ret = ASASL_MORE ∧
    ∃ data message n authcid u, some (bytes "n,,n=user,r=abc") = some data ∧
      gs2_header sample_env data = gs2_outcome.accept message ∧
      (sasl_scramsha_attrlist_parse message).2 (chr 'n') = some n ∧
      sample_env.normalize n sample_env.NICKLEN = some authcid ∧
      sample_env.authcid_can_login authcid = authcid_result.allowed u ∧
      (clientfirst_attrs sample_env sample_users mech_start
        (bytes "n,,n=user,r=abc") (bytes "n=user,r=abc") 25).s.mu = some u ∧
      (sample_users u).flags &&& sample_env.MU_CRYPTPASS ≠ 0 ∧
      (sample_users u).flags &&& sample_env.MU_NOPASSWORD = 0 ∧
      (sample_env.dbextract (sample_users u).pass mech_start.db).1 = true ∧
      (clientfirst_attrs sample_env sample_users mech_start
        (bytes "n,,n=user,r=abc") (bytes "n=user,r=abc") 25).s.db =
        (sample_env.dbextract (sample_users u).pass mech_start.db).2 ∧
      (clientfirst_attrs sample_env sample_users mech_start
        (bytes "n,,n=user,r=abc") (bytes "n=user,r=abc") 25).s.db.a = 25 :=
  ⟨by decide, by decide,
    (mech_step_clientfirst_verifier sample_env sample_users mech_start
      (some (bytes "n,,n=user,r=abc")) 25).1 _ (by decide) (by decide)⟩

/-- C7: whenever the client-first step returns More on the input bytes `I`, the
saved `c_gs2` ends with a comma, `c_gs2` followed by `c_msg` is `I` byte for
byte (so `c_gs2` is a prefix of `I` and `c_msg` the rest), the saved lengths
are the lengths of the two buffers and add up to `inlen`, and the saved client
nonce `cn` is the value of attribute `r` parsed from `c_msg`. -/
theorem mech_step_clientfirst_transcript (env : scram_env) (users : user_store)
    (s : scramsha_session) (I : List Byte) (prf : Nat) (r : step_result)
    (h : mech_step_clientfirst env users s (some I) prf = some r) (hr : r.ret = ASASL_MORE) :
    (∃ hdr, r.s.c_gs2_buf = hdr ++ [chr ',']) ∧
    r.s.c_gs2_buf ++ r.s.c_msg_buf = I ∧
    r.s.c_gs2_len = r.s.c_gs2_buf.length ∧
    r.s.c_msg_len = r.s.c_msg_buf.length ∧
    r.s.c_gs2_len + r.s.c_msg_len = I.length ∧
    (sasl_scramsha_attrlist_parse r.s.c_msg_buf).2 (chr 'r') = some r.s.cn := by
  obtain ⟨data, message, hdr, n, input_r, authcid, u, hin, _, _, _, hd, _, _, _, _, a5, _, _,
    _, _, _, _, _, _, _, _, hrec⟩ :=
    mech_step_clientfirst_more_full env users s (some I) prf r h hr
  have hI : I = data := Option.some.inj hin
  subst hI
  rw [hrec]
  refine ⟨⟨hdr, rfl⟩, hd.symm, rfl, rfl, ?_, a5⟩
  simp only
  rw [← List.length_append, ← hd]

set_option maxRecDepth 100000 in
theorem mech_step_clientfirst_transcript_witness :
    mech_step_clientfirst sample_env sample_users mech_start
        (some (bytes "n,,n=user,r=abc")) 25 =
      some (clientfirst_attrs sample_env sample_users mech_start
        (bytes "n,,n=user,r=abc") (bytes "n=user,r=abc") 25) ∧
    (clientfirst_attrs sample_env sample_users mech_start
        (bytes "n,,n=user,r=abc") (bytes "n=user,r=abc") 25).s.c_gs2_buf = bytes "n,," ∧
    (clientfirst_attrs sample_env sample_users mech_start
        (bytes "n,,n=user,r=abc") (bytes "n=user,r=abc") 25).s.c_gs2_buf ++
      (clientfirst_attrs sample_env sample_users mech_start
        (bytes "n,,n=user,r=abc") (bytes "n=user,r=abc") 25).s.c_msg_buf =
      bytes "n,,n=user,r=abc" :=
  ⟨by decide, by decide,
    (mech_step_clientfirst_transcript sample_env sample_users mech_start
      (bytes "n,,n=user,r=abc") 25 _ (by decide) (by decide)).2.1⟩

/-- C8: whenever the client-first step returns More, the output frame is the
bytes `r=` cn sn `,s=` salt64 `,i=` decimal(iter), with cn the saved client
nonce, sn the saved server nonce drawn by `random_string (NONCE_LENGTH)` (64
characters when that function returns as many as it is asked for), salt64 and
iter those of the verifier decoded from the password field of the resolved
user; the saved `s_msg_len` is the length of the output, the saved `s_msg` is
the output, and the step of the session is ClientProof. -/
theorem mech_step_clientfirst_server_first (env : scram_env) (users : user_store)
    (s : scramsha_session) (inp : Option (List Byte)) (prf : Nat) (r : step_result)
    (h : mech_step_clientfirst env users s inp prf = some r) (hr : r.ret = ASASL_MORE)
    (hrand : (env.random_string NONCE_LENGTH).length = NONCE_LENGTH) :
    r.out = some (bytes "r=" ++ r.s.cn ++ r.s.sn ++ bytes ",s=" ++ r.s.db.salt64 ++
      bytes ",i=" ++ decimal r.s.db.c) ∧
    r.s.sn = env.random_string NONCE_LENGTH ∧
    r.s.sn.length = 64 ∧
    (∃ u, r.s.mu = some u ∧ r.s.db = (env.dbextract (users u).pass s.db).2) ∧
    r.out.map List.length = some r.s.s_msg_len ∧
    r.out = some r.s.s_msg_buf ∧
    r.s.step = SCRAMSHA_STEP_CLIENTPROOF := by
  obtain ⟨data, message, hdr, n, input_r, authcid, u, _, _, _, _, _, _, _, _, _, _, _, _,
    _, _, _, _, _, _, _, _, hrec⟩ :=
    mech_step_clientfirst_more_full env users s inp prf r h hr
  rw [hrec]
  refine ⟨rfl, rfl, ?_, ⟨u, rfl, rfl⟩, rfl, rfl, rfl⟩
  simp only
  rw [hrand]
  rfl

set_option maxRecDepth 100000 in
theorem mech_step_clientfirst_server_first_witness :
    mech_step_clientfirst sample_env sample_users mech_start
        (some (bytes "n,,n=user,r=abc")) 25 =
      some (clientfirst_attrs sample_env sample_users mech_start
        (bytes "n,,n=user,r=abc") (bytes "n=user,r=abc") 25) ∧
    (sample_env.random_string NONCE_LENGTH).length = NONCE_LENGTH ∧
    (clientfirst_attrs sample_env sample_users mech_start
        (bytes "n,,n=user,r=abc") (bytes "n=user,r=abc") 25).out =
      some (bytes
        "r=abcAAAAAAAAAAAAAAAAAAAAAAAAAAAAAAAAAAAAAAAAAAAAAAAAAAAAAAAAAAAAAAAA,s=W22ZaJ0SNY7soEsUEjb6gQ==,i=4096") ∧
    (clientfirst_attrs sample_env sample_users mech_start
        (bytes "n,,n=user,r=abc") (bytes "n=user,r=abc") 25).s.step = SCRAMSHA_STEP_CLIENTPROOF :=
  ⟨by decide, by decide, by decide,
    (mech_step_clientfirst_server_first sample_env sample_users mech_start
      (some (bytes "n,,n=user,r=abc")) 25 _ (by decide) (by decide) (by decide)).2.2.2.2.2.2⟩

/-- On a non-empty NUL-free input the client-proof step either goes through
the label `error:` or has found the attributes `c`, `p` and `r` and continues
with the checks of line 349. -/
theorem mech_step_clientproof_cases (env : scram_env) (s : scramsha_session)
    (data : List Byte) (hne : data ≠ []) (h0 : 0 ∉ data) :
    mech_step_clientproof env s (some data) = goto_error s ∨
    ∃ c p r, (sasl_scramsha_attrlist_parse data).1 = true ∧
      (sasl_scramsha_attrlist_parse data).2 (chr 'm') = none ∧
      (sasl_scramsha_attrlist_parse data).2 (chr 'c') = some c ∧ c ≠ [] ∧
      (sasl_scramsha_attrlist_parse data).2 (chr 'p') = some p ∧ p ≠ [] ∧
      (sasl_scramsha_attrlist_parse data).2 (chr 'r') = some r ∧ r ≠ [] ∧
      mech_step_clientproof env s (some data) = clientproof_checks env s c p r := by
  unfold mech_step_clientproof
  match data, hne, h0 with
  | b :: rest, _, h0 =>
    simp only [h0, if_false]
    split_ifs with hp
    · exact Or.inl rfl
    · split
      · rename_i c0 c p0 p r0 r hm hc hpp hr
        exact Or.inr ⟨c0 :: c, p0 :: p, r0 :: r, by simpa using hp, hm, hc, by simp, hpp, by simp,
          hr, by simp, rfl⟩
      · exact Or.inl rfl

/-- The checks of lines 349 to 383 either go through the label `error:` or
have found the nonce equal to `cn` followed by `sn`, the decoded `c` equal to
the saved GS2 header over the saved length, and a ClientProof of `dl` bytes. -/
theorem clientproof_checks_cases (env : scram_env) (s : scramsha_session)
    (c p r : List Byte) :
    clientproof_checks env s c p r = goto_error s ∨
    (s.cn ++ s.sn = r ∧
      ∃ d, env.base64_decode c env.SASL_C2S_MAXLEN = some d ∧
        d.length = s.c_gs2_len ∧ s.c_gs2_buf.take d.length = d ∧
        ∃ cp, env.base64_decode p DIGEST_MDLEN_MAX = some cp ∧ cp.length = s.db.dl ∧
          clientproof_checks env s c p r = clientproof_verify env s cp c r) := by
  unfold clientproof_checks
  simp only
  split_ifs with h1 h2
  · exact Or.inl rfl
  · exact Or.inl rfl
  · cases hd : env.base64_decode c env.SASL_C2S_MAXLEN with
    | none => exact Or.inl rfl
    | some d =>
      simp only
      split_ifs with h3
      · exact Or.inl rfl
      · cases hq : env.base64_decode p DIGEST_MDLEN_MAX with
        | none => exact Or.inl rfl
        | some cp =>
          simp only
          split_ifs with h4
          · exact Or.inl rfl
          · right
            simp only [not_or, ne_eq, Decidable.not_not, memcmp_ne, bne_iff_ne,
              List.take_length] at h3
            simp only [ne_eq, Decidable.not_not] at h2 h4
            exact ⟨h2, d, rfl, h3.1, h3.2, cp, rfl, h4, rfl⟩

set_option maxRecDepth 100000 in
theorem sample_clientproof_after_empty_frame :
    (mech_step_clientproof sample_env
      (mech_step_clientproof sample_env (sample_session SCRAMSHA_STEP_CLIENTPROOF) (some [])).s
      (some (bytes "c=biws,r=abcAAAAAAAAAAAAAAAAAAAAAAAAAAAAAAAAAAAAAAAAAAAAAAAAAAAAAAAAAAAAAAAA,p=@@@@"))).ret = ASASL_MORE := by
  decide

/-- C3: the client-proof step returns Error and leaves the session as it was,
step included, on the empty frame and on a frame with a NUL byte: a session in
ClientProof is then still in ClientProof, not in Errored; in the sample
environment the next step call, on a well-formed client-final message, then
returns More and not Error. -/
theorem mech_step_clientproof_early_return (env : scram_env) (s : scramsha_session) :
    mech_step_clientproof env s (some []) = { ret := ASASL_ERROR, s := s, out := none } ∧
    mech_step_clientproof env s (some (bytes "c=biws" ++ [0])) =
      { ret := ASASL_ERROR, s := s, out := none } ∧
    (mech_step_clientproof sample_env
      (mech_step_clientproof sample_env (sample_session SCRAMSHA_STEP_CLIENTPROOF) (some [])).s
      (some (bytes "c=biws,r=abcAAAAAAAAAAAAAAAAAAAAAAAAAAAAAAAAAAAAAAAAAAAAAAAAAAAAAAAAAAAAAAAA,p=@@@@"))).ret = ASASL_MORE :=
  ⟨rfl, rfl, sample_clientproof_after_empty_frame⟩

/-- C9: for every session and every non-empty NUL-free client-final message
whose `r` value is not `cn` followed by `sn` (it differs in a byte or in
length), the client-proof step returns Error, writes no output, and the step
of the session becomes Errored; it returns neither More nor Fail. -/
theorem mech_step_clientproof_nonce_mismatch (env : scram_env) (s : scramsha_session)
    (data rv : List Byte) (hne : data ≠ []) (h0 : 0 ∉ data)
    (hr : (sasl_scramsha_attrlist_parse data).2 (chr 'r') = some rv)
    (hrv : rv ≠ s.cn ++ s.sn) :
    (mech_step_clientproof env s (some data)).ret = ASASL_ERROR ∧
    (mech_step_clientproof env s (some data)).s.step = SCRAMSHA_STEP_ERRORED ∧
    (mech_step_clientproof env s (some data)).out = none ∧
    mech_step_clientproof env s (some data) = goto_error s := by
  have key : mech_step_clientproof env s (some data) = goto_error s := by
    rcases mech_step_clientproof_cases env s data hne h0 with h | ⟨c, p, r, _, _, _, _, _, _, h7, _, h9⟩
    · exact h
    · rw [h9]
      rcases clientproof_checks_cases env s c p r with h | ⟨hx, _⟩
      · exact h
      · rw [hr] at h7
        exact absurd ((Option.some.inj h7).trans hx.symm) hrv
  rw [key]
  exact ⟨rfl, rfl, rfl, rfl⟩

set_option maxRecDepth 100000 in
theorem mech_step_clientproof_nonce_mismatch_witness :
    bytes "c=biws,r=abcAAAAAAAAAAAAAAAAAAAAAAAAAAAAAAAAAAAAAAAAAAAAAAAAAAAAAAAAAAAAAAAB,p=@@@@" ≠ [] ∧ 0 ∉ bytes "c=biws,r=abcAAAAAAAAAAAAAAAAAAAAAAAAAAAAAAAAAAAAAAAAAAAAAAAAAAAAAAAAAAAAAAAB,p=@@@@" ∧
    (mech_step_clientproof sample_env (sample_session SCRAMSHA_STEP_CLIENTPROOF)
      (some (bytes "c=biws,r=abcAAAAAAAAAAAAAAAAAAAAAAAAAAAAAAAAAAAAAAAAAAAAAAAAAAAAAAAAAAAAAAAB,p=@@@@"))).ret = ASASL_ERROR ∧
    (mech_step_clientproof sample_env (sample_session SCRAMSHA_STEP_CLIENTPROOF)
      (some (bytes "c=biws,r=abcAAAAAAAAAAAAAAAAAAAAAAAAAAAAAAAAAAAAAAAAAAAAAAAAAAAAAAAAAAAAAAAB,p=@@@@"))).s.step = SCRAMSHA_STEP_ERRORED :=
  ⟨by decide, by decide,
    (mech_step_clientproof_nonce_mismatch sample_env (sample_session SCRAMSHA_STEP_CLIENTPROOF)
      (bytes "c=biws,r=abcAAAAAAAAAAAAAAAAAAAAAAAAAAAAAAAAAAAAAAAAAAAAAAAAAAAAAAAAAAAAAAAB,p=@@@@")
      (bytes "abcAAAAAAAAAAAAAAAAAAAAAAAAAAAAAAAAAAAAAAAAAAAAAAAAAAAAAAAAAAAAAAAB")
      (by decide) (by decide) (by decide) (by decide)).1,
    (mech_step_clientproof_nonce_mismatch sample_env (sample_session SCRAMSHA_STEP_CLIENTPROOF)
      (bytes "c=biws,r=abcAAAAAAAAAAAAAAAAAAAAAAAAAAAAAAAAAAAAAAAAAAAAAAAAAAAAAAAAAAAAAAAB,p=@@@@")
      (bytes "abcAAAAAAAAAAAAAAAAAAAAAAAAAAAAAAAAAAAAAAAAAAAAAAAAAAAAAAAAAAAAAAAB")
      (by decide) (by decide) (by decide) (by decide)).2.1⟩

/-- C10: for every session whose saved `c_gs2_len` is the length of the saved
`c_gs2`, and every non-empty NUL-free client-final message (with a matching
nonce or not), if the base64 decoding of the `c` attribute fails, or the
decoded bytes differ from the saved `c_gs2` in length or in a byte, the
client-proof step returns Error, writes no output, and the step of the session
becomes Errored. -/
theorem mech_step_clientproof_gs2_mismatch (env : scram_env) (s : scramsha_session)
    (data cv : List Byte) (hne : data ≠ []) (h0 : 0 ∉ data)
    (hwf : s.c_gs2_len = s.c_gs2_buf.length)
    (hc : (sasl_scramsha_attrlist_parse data).2 (chr 'c') = some cv)
    (hbad : env.base64_decode cv env.SASL_C2S_MAXLEN = none ∨
      ∃ d, env.base64_decode cv env.SASL_C2S_MAXLEN = some d ∧ d ≠ s.c_gs2_buf) :
    (mech_step_clientproof env s (some data)).ret = ASASL_ERROR ∧
    (mech_step_clientproof env s (some data)).s.step = SCRAMSHA_STEP_ERRORED ∧
    (mech_step_clientproof env s (some data)).out = none ∧
    mech_step_clientproof env s (some data) = goto_error s := by
  have key : mech_step_clientproof env s (some data) = goto_error s := by
    rcases mech_step_clientproof_cases env s data hne h0 with h | ⟨c, p, r, _, _, h3, _, _, _, _, _, h9⟩
    · exact h
    · rw [h9]
      rcases clientproof_checks_cases env s c p r with h | ⟨_, d, hd, hl, ht, _⟩
      · exact h
      · exfalso
        rw [hc] at h3
        have hcv : cv = c := Option.some.inj h3
        subst hcv
        rcases hbad with hb | ⟨d1, hb, hdne⟩
        · rw [hb] at hd; exact Option.noConfusion hd
        · rw [hb] at hd
          have hdd : d1 = d := Option.some.inj hd
          subst hdd
          apply hdne
          rw [← ht, hl, hwf, List.take_length]
  rw [key]
  exact ⟨rfl, rfl, rfl, rfl⟩

set_option maxRecDepth 100000 in
theorem mech_step_clientproof_gs2_mismatch_witness :
    bytes "c=eSws,r=abcAAAAAAAAAAAAAAAAAAAAAAAAAAAAAAAAAAAAAAAAAAAAAAAAAAAAAAAAAAAAAAAA,p=@@@@" ≠ [] ∧ 0 ∉ bytes "c=eSws,r=abcAAAAAAAAAAAAAAAAAAAAAAAAAAAAAAAAAAAAAAAAAAAAAAAAAAAAAAAAAAAAAAAA,p=@@@@" ∧
    (sample_session SCRAMSHA_STEP_CLIENTPROOF).c_gs2_len =
      (sample_session SCRAMSHA_STEP_CLIENTPROOF).c_gs2_buf.length ∧
    (mech_step_clientproof sample_env (sample_session SCRAMSHA_STEP_CLIENTPROOF)
      (some (bytes "c=eSws,r=abcAAAAAAAAAAAAAAAAAAAAAAAAAAAAAAAAAAAAAAAAAAAAAAAAAAAAAAAAAAAAAAAA,p=@@@@"))).ret = ASASL_ERROR ∧
    (mech_step_clientproof sample_env (sample_session SCRAMSHA_STEP_CLIENTPROOF)
      (some (bytes "c=eSws,r=abcAAAAAAAAAAAAAAAAAAAAAAAAAAAAAAAAAAAAAAAAAAAAAAAAAAAAAAAAAAAAAAAA,p=@@@@"))).s.step = SCRAMSHA_STEP_ERRORED :=
  ⟨by decide, by decide, by decide,
    (mech_step_clientproof_gs2_mismatch sample_env (sample_session SCRAMSHA_STEP_CLIENTPROOF)
      (bytes "c=eSws,r=abcAAAAAAAAAAAAAAAAAAAAAAAAAAAAAAAAAAAAAAAAAAAAAAAAAAAAAAAAAAAAAAAA,p=@@@@") (bytes "eSws")
      (by decide) (by decide) (by decide) (by decide)
      (Or.inr ⟨bytes "eSws", by decide, by decide⟩)).1,
    (mech_step_clientproof_gs2_mismatch sample_env (sample_session SCRAMSHA_STEP_CLIENTPROOF)
      (bytes "c=eSws,r=abcAAAAAAAAAAAAAAAAAAAAAAAAAAAAAAAAAAAAAAAAAAAAAAAAAAAAAAAAAAAAAAAA,p=@@@@") (bytes "eSws")
      (by decide) (by decide) (by decide) (by decide)
      (Or.inr ⟨bytes "eSws", by decide, by decide⟩)).2.1⟩

/-- The three ways lines 385 to 473 end: through the label `error:`, through
the label `fail:`, or with More, the step Passed and an output frame. -/
theorem clientproof_verify_cases (env : scram_env) (s : scramsha_session)
    (cp c r : List Byte) :
    clientproof_verify env s cp c r = goto_error s ∨
    clientproof_verify env s cp c r = goto_fail s ∨
    ∃ out, clientproof_verify env s cp c r =
      { ret := ASASL_MORE, s := { s with step := SCRAMSHA_STEP_PASSED }, out := some out } := by
  unfold clientproof_verify
  simp only
  split_ifs
  · exact Or.inl rfl
  · split
    · exact Or.inl rfl
    · split
      · exact Or.inl rfl
      · split_ifs
        · exact Or.inr (Or.inl rfl)
        · split
          · exact Or.inl rfl
          · split
            · exact Or.inl rfl
            · split_ifs
              · exact Or.inl rfl
              · exact Or.inr (Or.inr ⟨_, rfl⟩)

/-- The client-proof step changes no field of the session other than the
step. -/
theorem mech_step_clientproof_frame (env : scram_env) (s : scramsha_session)
    (inp : Option (List Byte)) :
    ∃ st, (mech_step_clientproof env s inp).s = { s with step := st } := by
  match inp with
  | none => exact ⟨s.step, rfl⟩
  | some [] => exact ⟨s.step, rfl⟩
  | some (b :: rest) =>
    by_cases h0 : 0 ∈ b :: rest
    · refine ⟨s.step, ?_⟩
      simp only [mech_step_clientproof, h0, if_true]
    · rcases mech_step_clientproof_cases env s (b :: rest) (by simp) h0 with
        h | ⟨c, p, r, _, _, _, _, _, _, _, _, h9⟩
      · rw [h]; exact ⟨_, rfl⟩
      · rw [h9]
        rcases clientproof_checks_cases env s c p r with h | ⟨_, d, _, _, _, cp, _, _, h⟩
        · rw [h]; exact ⟨_, rfl⟩
        · rw [h]
          rcases clientproof_verify_cases env s cp c r with h | h | ⟨out, h⟩
          · rw [h]; exact ⟨_, rfl⟩
          · rw [h]; exact ⟨_, rfl⟩
          · rw [h]; exact ⟨_, rfl⟩

/-- On a non-empty NUL-free frame, a client-proof step that returns Error has
gone through the label `error:`. -/
theorem mech_step_clientproof_error_nonempty (env : scram_env) (s : scramsha_session)
    (data : List Byte) (hne : data ≠ []) (h0 : 0 ∉ data)
    (he : (mech_step_clientproof env s (some data)).ret = ASASL_ERROR) :
    mech_step_clientproof env s (some data) = goto_error s := by
  rcases mech_step_clientproof_cases env s data hne h0 with
    h | ⟨c, p, r, _, _, _, _, _, _, _, _, h9⟩
  · exact h
  · rw [h9] at he ⊢
    rcases clientproof_checks_cases env s c p r with h | ⟨_, d, _, _, _, cp, _, _, h⟩
    · exact h
    · rw [h] at he ⊢
      rcases clientproof_verify_cases env s cp c r with h | h | ⟨out, h⟩
      · exact h
      · rw [h] at he; exact absurd he (by simp [goto_fail])
      · rw [h] at he; exact absurd he (by simp)

/-- The session `mech_start` allocates has no step that needs a user. -/
theorem mech_start_step : mech_start.step = SCRAMSHA_STEP_CLIENTFIRST := rfl

/-- A session in ClientProof, Passed or Failed has a resolved user: the
property holds after every step call on a session for which it holds. -/
theorem mech_step_dispatch_resolved (env : scram_env) (users : user_store) (p : sasl_session)
    (s : scramsha_session) (inp : Option (List Byte)) (prf : Nat) (r : dispatch_result)
    (hp : p.mechdata = some s)
    (hinv : s.step ≠ SCRAMSHA_STEP_CLIENTFIRST → s.step ≠ SCRAMSHA_STEP_ERRORED → s.mu ≠ none)
    (h : mech_step_dispatch env users (some p) inp prf = some r) :
    ∃ q t, r.p = some q ∧ q.mechdata = some t ∧
      (t.step ≠ SCRAMSHA_STEP_CLIENTFIRST → t.step ≠ SCRAMSHA_STEP_ERRORED → t.mu ≠ none) := by
  unfold mech_step_dispatch at h
  simp only [hp] at h
  cases hs : s.step with
  | SCRAMSHA_STEP_CLIENTFIRST =>
    simp only [hs, Option.map_eq_some'] at h
    obtain ⟨r1, h1, h2⟩ := h
    subst h2
    refine ⟨_, r1.s, rfl, rfl, ?_⟩
    by_cases hm : r1.ret = ASASL_MORE
    · obtain ⟨_, _, _, _, _, _, u, _, _, _, _, _, _, _, _, _, _, _, _, _, _, _, _, _, _, _, _,
        hrec⟩ := mech_step_clientfirst_more_full env users s inp prf r1 h1 hm
      intro _ _
      rw [hrec]
      simp
    · obtain ⟨_, _, h3⟩ := mech_step_clientfirst_not_more env users s inp prf r1 h1 hm
      rcases h3 with h3 | h3
      · rw [h3]; intro hc; exact absurd hs hc
      · intro _ he; exact absurd h3 he
  | SCRAMSHA_STEP_CLIENTPROOF =>
    simp only [hs, Option.some.injEq] at h
    subst h
    refine ⟨_, _, rfl, rfl, ?_⟩
    obtain ⟨st, hst⟩ := mech_step_clientproof_frame env s inp
    rw [hst]
    intro _ _
    exact hinv (by rw [hs]; decide) (by rw [hs]; decide)
  | SCRAMSHA_STEP_PASSED =>
    simp only [hs, Option.map_eq_some'] at h
    obtain ⟨r1, _, h2⟩ := h
    subst h2
    exact ⟨p, s, rfl, hp, hinv⟩
  | SCRAMSHA_STEP_FAILED =>
    simp only [hs, Option.some.injEq] at h
    subst h
    exact ⟨p, s, rfl, hp, hinv⟩
  | SCRAMSHA_STEP_ERRORED =>
    simp only [hs, Option.some.injEq] at h
    subst h
    exact ⟨p, s, rfl, hp, hinv⟩

theorem strchr_append (c : Byte) :
    ∀ (pre post : List Byte), c ∉ pre → strchr (pre ++ c :: post) c = some pre.length := by
  intro pre
  induction pre with
  | nil => intro post _; simp [strchr]
  | cons b rest ih =>
    intro post h
    simp only [List.mem_cons, not_or] at h
    have hb : ¬ b = c := fun e => h.1 e.symm
    have hi := ih post h.2
    show strchr (b :: (rest ++ c :: post)) c = some (rest.length + 1)
    unfold strchr
    rw [if_neg hb, hi]
    rfl

theorem render_attrs_length (l : List (Byte × List Byte)) :
    l.length ≤ (render_attrs l).length := by
  induction l with
  | nil => simp [render_attrs]
  | cons a rest ih =>
    cases rest with
    | nil => simp [render_attrs, render_attr]
    | cons b rest =>
      simp only [render_attrs, render_attr, List.length_cons, List.cons_append,
        List.length_append] at ih ⊢
      omega

/-- The loop of the parser on the text of a list of attributes with letter
names and comma-free values: it returns true, having assigned the values in
the order of the list. -/
theorem attrlist_parse_loop_render :
    ∀ (l : List (Byte × List Byte)), l ≠ [] →
      (∀ a ∈ l, invalid_attr_name a.1 = false ∧ chr ',' ∉ a.2) →
      ∀ (fuel : Nat) (attrs : scram_attr_list), l.length ≤ fuel →
        attrlist_parse_loop fuel (render_attrs l) attrs =
          some (true, l.foldl (fun t a => attrs_set t a.1 a.2) attrs) := by
  intro l
  induction l with
  | nil => intro h; exact absurd rfl h
  | cons a rest ih =>
    intro _ hok fuel attrs hfuel
    obtain ⟨hname, hval⟩ := hok a (List.mem_cons_self a rest)
    cases fuel with
    | zero => simp at hfuel
    | succ f =>
      cases rest with
      | nil =>
        simp only [render_attrs, render_attr, attrlist_parse_loop, hname, Bool.false_eq_true,
          if_false, if_true, (strchr_none (chr ',') a.2).mpr hval, List.foldl_cons,
          List.foldl_nil]
      | cons b rest =>
        have hrec := ih (by simp) (fun x hx => hok x (List.mem_cons_of_mem a hx)) f
          (attrs_set attrs a.1 a.2) (by simpa using hfuel)
        have hd : List.drop (a.2.length + 1) (a.2 ++ chr ',' :: render_attrs (b :: rest)) =
            render_attrs (b :: rest) := by
          have e : a.2 ++ chr ',' :: render_attrs (b :: rest) =
              (a.2 ++ [chr ',']) ++ render_attrs (b :: rest) := by simp
          rw [e]
          exact List.drop_left' (by simp)
        have ht : List.take a.2.length (a.2 ++ chr ',' :: render_attrs (b :: rest)) = a.2 :=
          List.take_left' rfl
        simp only [render_attrs, render_attr, List.cons_append, attrlist_parse_loop, hname,
          Bool.false_eq_true, if_false, if_true, strchr_append (chr ',') a.2 _ hval]
        rw [hd, ht]
        exact hrec

/-- The parser on the text of a non-empty list of attributes with letter names
and comma-free values succeeds, and the table holds for every name the value
of its last occurrence in the list. -/
theorem sasl_scramsha_attrlist_parse_render (l : List (Byte × List Byte)) (hl : l ≠ [])
    (hok : ∀ a ∈ l, invalid_attr_name a.1 = false ∧ chr ',' ∉ a.2) :
    sasl_scramsha_attrlist_parse (render_attrs l) =
      (true, l.foldl (fun t a => attrs_set t a.1 a.2) attrs_empty) := by
  unfold sasl_scramsha_attrlist_parse
  rw [attrlist_parse_loop_render l hl hok _ attrs_empty
    (Nat.le_succ_of_le (render_attrs_length l))]

/-- A name assigned by some attribute of the list is present in the table. -/
theorem attrs_foldl_present (name : Byte) :
    ∀ (l : List (Byte × List Byte)) (attrs : scram_attr_list),
      ((attrs name).isSome = true ∨ ∃ a ∈ l, a.1 = name) →
      ((l.foldl (fun t a => attrs_set t a.1 a.2) attrs) name).isSome = true := by
  intro l
  induction l with
  | nil =>
    intro attrs h
    rcases h with h | ⟨a, ha, _⟩
    · exact h
    · simp at ha
  | cons b rest ih =>
    intro attrs h
    simp only [List.foldl_cons]
    apply ih
    by_cases hb : b.1 = name
    · left; simp [attrs_set, hb]
    · rcases h with h | ⟨a, ha, hn⟩
      · left
        simp only [attrs_set]
        split_ifs
        · rfl
        · exact h
      · rcases List.mem_cons.mp ha with e | e
        · subst e; exact absurd hn hb
        · right; exact ⟨a, e, hn⟩

/-- An attribute the grammar of RFC 5802 section 5 admits: a letter for the
name, no comma in the value. -/
theorem attrlist_parse_loop_grammar (fuel : Nat) :
    ∀ (str : List Byte) (attrs t : scram_attr_list),
      attrlist_parse_loop fuel str attrs = some (true, t) →
      ∃ l : List (Byte × List Byte), l ≠ [] ∧
        (∀ a ∈ l, invalid_attr_name a.1 = false ∧ chr ',' ∉ a.2) ∧
        str = render_attrs l ∧ t = l.foldl (fun t a => attrs_set t a.1 a.2) attrs := by
  induction fuel with
  | zero => intro str attrs t h; simp [attrlist_parse_loop] at h
  | succ n ih =>
    intro str attrs t h
    unfold attrlist_parse_loop at h
    match str, h with
    | [], h => simp at h
    | [name], h =>
      simp only at h
      split_ifs at h <;> simp at h
    | name :: eq :: str2, h =>
      simp only at h
      by_cases hn : invalid_attr_name name = true
      · simp [hn] at h
      · by_cases he : eq = chr '='
        · simp only [hn, he, Bool.false_eq_true, if_false, if_true] at h
          have hn' : invalid_attr_name name = false := by simpa using hn
          cases hs : strchr str2 (chr ',') with
          | none =>
            simp only [hs, Option.some.injEq, Prod.mk.injEq, true_and] at h
            refine ⟨[(name, str2)], by simp, ?_, ?_, ?_⟩
            · intro a ha
              simp only [List.mem_singleton] at ha
              subst ha
              exact ⟨hn', (strchr_none (chr ',') str2).mp hs⟩
            · simp [render_attrs, render_attr, he]
            · simp [h]
          | some pos =>
            simp only [hs] at h
            obtain ⟨l, hl, hok, hstr, ht⟩ := ih _ _ _ h
            obtain ⟨hsplit, hnot⟩ := strchr_split (chr ',') str2 pos hs
            refine ⟨(name, str2.take pos) :: l, by simp, ?_, ?_, ?_⟩
            · intro a ha
              rcases List.mem_cons.mp ha with e | e
              · subst e; exact ⟨hn', hnot⟩
              · exact hok a e
            · match l, hl, hstr with
              | b :: rest, _, hstr =>
                simp only [render_attrs, render_attr, List.cons_append, he, List.cons.injEq,
                  true_and]
                rw [← hstr]
                exact hsplit
            · simp [ht]
        · simp [hn, he] at h

/-- The text of a non-empty list of admissible attributes does not end with a
comma. -/
theorem render_attrs_getLast :
    ∀ (l : List (Byte × List Byte)), l ≠ [] →
      (∀ a ∈ l, invalid_attr_name a.1 = false ∧ chr ',' ∉ a.2) →
      (render_attrs l).getLast? ≠ some (chr ',') := by
  intro l
  induction l with
  | nil => intro h; exact absurd rfl h
  | cons a rest ih =>
    intro _ hok
    cases rest with
    | nil =>
      have hv := (hok a (List.mem_cons_self a [])).2
      simp only [render_attrs, render_attr]
      intro hlast
      rcases List.eq_nil_or_concat a.2 with hnil | ⟨init, x, hx⟩
      · rw [hnil] at hlast
        simp [List.getLast?] at hlast
        exact absurd hlast (by decide)
      · rw [hx] at hlast hv
        simp only [List.concat_eq_append] at hlast hv
        have : (a.1 :: chr '=' :: (init ++ [x])).getLast? = some x := by
          have e : a.1 :: chr '=' :: (init ++ [x]) = (a.1 :: chr '=' :: init) ++ [x] := by simp
          rw [e, List.getLast?_append]
          simp
        rw [this] at hlast
        simp only [Option.some.injEq] at hlast
        subst hlast
        simp at hv
    | cons b rest =>
      have hrec := ih (by simp) (fun x hx => hok x (List.mem_cons_of_mem a hx))
      simp only [render_attrs]
      intro hlast
      apply hrec
      have hne : render_attrs (b :: rest) ≠ [] := by
        intro e
        have := render_attrs_length (b :: rest)
        rw [e] at this
        simp at this
      have e : render_attr a ++ chr ',' :: render_attrs (b :: rest) =
          (render_attr a ++ [chr ',']) ++ render_attrs (b :: rest) := by simp
      rw [e, List.getLast?_append] at hlast
      cases hg : (render_attrs (b :: rest)).getLast? with
      | none =>
        rw [List.getLast?_eq_none_iff] at hg
        exact absurd hg hne
      | some x =>
        rw [hg] at hlast
        simpa using hlast

/-- The table after the assignments of a list: a name the list does not
assign keeps its entry. -/
theorem attrs_foldl_absent (name : Byte) :
    ∀ (l : List (Byte × List Byte)) (attrs : scram_attr_list),
      (∀ a ∈ l, a.1 ≠ name) →
      (l.foldl (fun t a => attrs_set t a.1 a.2) attrs) name = attrs name := by
  intro l
  induction l with
  | nil => intro attrs _; rfl
  | cons b rest ih =>
    intro attrs h
    simp only [List.foldl_cons]
    rw [ih _ (fun a ha => h a (List.mem_cons_of_mem b ha))]
    have hb : b.1 ≠ name := h b (List.mem_cons_self b rest)
    simp only [attrs_set]
    rw [if_neg (fun e => hb e.symm)]

/-- The table after the assignments of a list holds, for an attribute that no
later attribute of the list overwrites, the value of that attribute. -/
theorem attrs_foldl_last (pre post : List (Byte × List Byte)) (a : Byte × List Byte)
    (attrs : scram_attr_list) (hpost : ∀ b ∈ post, b.1 ≠ a.1) :
    ((pre ++ a :: post).foldl (fun t a => attrs_set t a.1 a.2) attrs) a.1 = some a.2 := by
  rw [List.foldl_append, List.foldl_cons, attrs_foldl_absent a.1 post _ hpost]
  simp [attrs_set]

/-- The test of line 83 lets through the bytes `A` to `Z` and `a` to `z`. -/
theorem invalid_attr_name_false_iff (name : Nat) :
    invalid_attr_name name = false ↔
      ((chr 'A' ≤ name ∧ name ≤ chr 'Z') ∨ (chr 'a' ≤ name ∧ name ≤ chr 'z')) := by
  have hA : chr 'A' = 65 := rfl
  have hZ : chr 'Z' = 90 := rfl
  have ha : chr 'a' = 97 := rfl
  have hz : chr 'z' = 122 := rfl
  rw [hA, hZ, ha, hz]
  unfold invalid_attr_name
  rw [hA, hZ, ha, hz]
  simp only [Bool.or_eq_false_iff, Bool.and_eq_false_imp, decide_eq_false_iff_not,
    decide_eq_true_eq]
  show ((¬ (name : Nat) < 65 ∧ ((name : Nat) > 90 → ¬ (name : Nat) < 97)) ∧ ¬ (name : Nat) > 122) ↔
    ((65 : Nat) ≤ name ∧ name ≤ (90 : Nat)) ∨ ((97 : Nat) ≤ name ∧ name ≤ (122 : Nat))
  constructor
  · rintro ⟨⟨h1, h2⟩, h3⟩
    by_cases h : name > 90
    · have := h2 h
      omega
    · omega
  · intro h
    refine ⟨⟨by omega, fun _ => by omega⟩, by omega⟩

/-- C18: `sasl_scramsha_attrlist_parse` returns true on a string exactly when the
string is `letter = value` repeated one or more times with commas between,
each letter in `A` to `Z` or `a` to `z` and each value a possibly empty run of
bytes other than the comma; so it returns false on the empty string, on a name
byte that is not a letter, on a name that `=` does not follow, and on every
string that ends with a comma. -/
theorem sasl_scramsha_attrlist_parse_grammar :
    (∀ str : List Byte, (sasl_scramsha_attrlist_parse str).1 = true ↔
      ∃ l : List (Byte × List Byte), l ≠ [] ∧
        (∀ a ∈ l, ((chr 'A' ≤ a.1 ∧ a.1 ≤ chr 'Z') ∨ (chr 'a' ≤ a.1 ∧ a.1 ≤ chr 'z')) ∧
          chr ',' ∉ a.2) ∧
        str = render_attrs l) ∧
    (sasl_scramsha_attrlist_parse []).1 = false ∧
    (∀ (name : Byte) (rest : List Byte),
      ¬ ((chr 'A' ≤ name ∧ name ≤ chr 'Z') ∨ (chr 'a' ≤ name ∧ name ≤ chr 'z')) →
      (sasl_scramsha_attrlist_parse (name :: rest)).1 = false) ∧
    (∀ name : Byte, (sasl_scramsha_attrlist_parse [name]).1 = false) ∧
    (∀ (name c : Byte) (rest : List Byte), c ≠ chr '=' →
      (sasl_scramsha_attrlist_parse (name :: c :: rest)).1 = false) ∧
    (∀ str : List Byte, (sasl_scramsha_attrlist_parse (str ++ [chr ','])).1 = false) := by
  have hiff : ∀ str : List Byte, (sasl_scramsha_attrlist_parse str).1 = true ↔
      ∃ l : List (Byte × List Byte), l ≠ [] ∧
        (∀ a ∈ l, ((chr 'A' ≤ a.1 ∧ a.1 ≤ chr 'Z') ∨ (chr 'a' ≤ a.1 ∧ a.1 ≤ chr 'z')) ∧
          chr ',' ∉ a.2) ∧
        str = render_attrs l := by
    intro str
    constructor
    · intro h
      unfold sasl_scramsha_attrlist_parse at h
      cases hloop : attrlist_parse_loop (str.length + 1) str attrs_empty with
      | none => simp [hloop] at h
      | some r =>
        simp only [hloop] at h
        obtain ⟨ok, t⟩ := r
        simp only at h
        subst h
        obtain ⟨l, hl, hok, hstr, _⟩ := attrlist_parse_loop_grammar _ _ _ _ hloop
        exact ⟨l, hl, fun a ha =>
          ⟨(invalid_attr_name_false_iff a.1).mp (hok a ha).1, (hok a ha).2⟩, hstr⟩
    · rintro ⟨l, hl, hok, hstr⟩
      rw [hstr, sasl_scramsha_attrlist_parse_render l hl (fun a ha =>
        ⟨(invalid_attr_name_false_iff a.1).mpr (hok a ha).1, (hok a ha).2⟩)]
  refine ⟨hiff, rfl, ?_, ?_, ?_, ?_⟩
  · intro name rest hname
    have hn : invalid_attr_name name = true := by
      cases hv : invalid_attr_name name with
      | true => rfl
      | false => exact absurd ((invalid_attr_name_false_iff name).mp hv) hname
    simp [sasl_scramsha_attrlist_parse, attrlist_parse_loop, hn]
  · intro name
    simp only [sasl_scramsha_attrlist_parse, attrlist_parse_loop]
    split_ifs <;> rfl
  · intro name c rest hc
    simp only [sasl_scramsha_attrlist_parse, attrlist_parse_loop, hc, if_false]
    split_ifs <;> rfl
  · intro str
    cases hv : (sasl_scramsha_attrlist_parse (str ++ [chr ','])).1 with
    | false => rfl
    | true =>
      exfalso
      obtain ⟨l, hl, hok, hstr⟩ := (hiff _).mp hv
      have hlast := render_attrs_getLast l hl (fun a ha =>
        ⟨(invalid_attr_name_false_iff a.1).mpr (hok a ha).1, (hok a ha).2⟩)
      rw [← hstr] at hlast
      simp at hlast

set_option maxRecDepth 100000 in
theorem sasl_scramsha_attrlist_parse_grammar_witness :
    (sasl_scramsha_attrlist_parse (bytes "n=user,r=abc")).1 = true ∧
    (sasl_scramsha_attrlist_parse (bytes "1=user")).1 = false ∧
    (sasl_scramsha_attrlist_parse (bytes "n-user")).1 = false ∧
    (sasl_scramsha_attrlist_parse (bytes "n=user,")).1 = false :=
  ⟨(sasl_scramsha_attrlist_parse_grammar.1 (bytes "n=user,r=abc")).mpr
      ⟨[(chr 'n', bytes "user"), (chr 'r', bytes "abc")], by decide, by decide, by decide⟩,
    sasl_scramsha_attrlist_parse_grammar.2.2.1 (chr '1') (bytes "=user") (by decide),
    sasl_scramsha_attrlist_parse_grammar.2.2.2.2.1 (chr 'n') (chr '-') (bytes "user") (by decide),
    sasl_scramsha_attrlist_parse_grammar.2.2.2.2.2 (bytes "n=user")⟩

/-- C19: on the text `n1=v1,n2=v2,...,nk=vk` of a list of one or more attributes
with pairwise distinct letter names and comma-free values,
`sasl_scramsha_attrlist_parse` returns true, and the table holds `vi` at `ni`
for every attribute of the list (the empty string, not the null pointer, for an
empty `vi`) and the null pointer at every other index. -/
theorem sasl_scramsha_attrlist_parse_distinct (l : List (Byte × List Byte)) (hl : l ≠ [])
    (hok : ∀ a ∈ l, ((chr 'A' ≤ a.1 ∧ a.1 ≤ chr 'Z') ∨ (chr 'a' ≤ a.1 ∧ a.1 ≤ chr 'z')) ∧
      chr ',' ∉ a.2)
    (hdist : (l.map Prod.fst).Nodup) :
    (sasl_scramsha_attrlist_parse (render_attrs l)).1 = true ∧
    (∀ a ∈ l, (sasl_scramsha_attrlist_parse (render_attrs l)).2 a.1 = some a.2) ∧
    (∀ x : Nat, x ∉ l.map Prod.fst → (sasl_scramsha_attrlist_parse (render_attrs l)).2 x = none) := by
  rw [sasl_scramsha_attrlist_parse_render l hl (fun a ha =>
    ⟨(invalid_attr_name_false_iff a.1).mpr (hok a ha).1, (hok a ha).2⟩)]
  refine ⟨rfl, ?_, ?_⟩
  · intro a ha
    obtain ⟨pre, post, hsplit⟩ := List.append_of_mem ha
    subst hsplit
    apply attrs_foldl_last
    intro b hb hba
    simp only [List.map_append, List.map_cons] at hdist
    have h2 := (List.nodup_append.mp hdist).2.1
    have h3 := (List.nodup_cons.mp h2).1
    apply h3
    rw [← hba]
    exact List.mem_map_of_mem Prod.fst hb
  · intro x hx
    simp only
    rw [attrs_foldl_absent x l attrs_empty]
    · rfl
    · intro a ha hax
      apply hx
      rw [← hax]
      exact List.mem_map_of_mem Prod.fst ha

set_option maxRecDepth 100000 in
theorem sasl_scramsha_attrlist_parse_distinct_witness :
    (sasl_scramsha_attrlist_parse (bytes "c=biws,r=abc,p=")).1 = true ∧
    (sasl_scramsha_attrlist_parse (bytes "c=biws,r=abc,p=")).2 (chr 'p') = some [] ∧
    (sasl_scramsha_attrlist_parse (bytes "c=biws,r=abc,p=")).2 (chr 'm') = none :=
  ⟨(sasl_scramsha_attrlist_parse_distinct
      [(chr 'c', bytes "biws"), (chr 'r', bytes "abc"), (chr 'p', [])]
      (by decide) (by decide) (by decide)).1,
    (sasl_scramsha_attrlist_parse_distinct
      [(chr 'c', bytes "biws"), (chr 'r', bytes "abc"), (chr 'p', [])]
      (by decide) (by decide) (by decide)).2.1 (chr 'p', []) (by decide),
    (sasl_scramsha_attrlist_parse_distinct
      [(chr 'c', bytes "biws"), (chr 'r', bytes "abc"), (chr 'p', [])]
      (by decide) (by decide) (by decide)).2.2 (chr 'm') (by decide)⟩

/-- C20, counterexample: the parser accepts the list `r=a,r=b`, in which the
name `r` occurs twice, and leaves the second value in the table. -/
theorem sasl_scramsha_attrlist_parse_duplicate_accepted :
    (sasl_scramsha_attrlist_parse (bytes "r=a,r=b")).1 = true ∧
    (sasl_scramsha_attrlist_parse (bytes "r=a,r=b")).2 (chr 'r') = some (bytes "b") := by
  decide

/-- C20, amended: on the text of a list of one or more attributes with letter
names and comma-free values, names that occur more than once included,
`sasl_scramsha_attrlist_parse` returns true, and the table holds at every name
the value of the last attribute of the list with that name. -/
theorem sasl_scramsha_attrlist_parse_last_wins (l : List (Byte × List Byte)) (hl : l ≠ [])
    (hok : ∀ a ∈ l, ((chr 'A' ≤ a.1 ∧ a.1 ≤ chr 'Z') ∨ (chr 'a' ≤ a.1 ∧ a.1 ≤ chr 'z')) ∧
      chr ',' ∉ a.2) :
    (sasl_scramsha_attrlist_parse (render_attrs l)).1 = true ∧
    (∀ (pre post : List (Byte × List Byte)) (a : Byte × List Byte),
      l = pre ++ a :: post → (∀ b ∈ post, b.1 ≠ a.1) →
      (sasl_scramsha_attrlist_parse (render_attrs l)).2 a.1 = some a.2) := by
  rw [sasl_scramsha_attrlist_parse_render l hl (fun a ha =>
    ⟨(invalid_attr_name_false_iff a.1).mpr (hok a ha).1, (hok a ha).2⟩)]
  refine ⟨rfl, ?_⟩
  intro pre post a hsplit hpost
  subst hsplit
  exact attrs_foldl_last pre post a attrs_empty hpost

set_option maxRecDepth 100000 in
theorem sasl_scramsha_attrlist_parse_last_wins_witness :
    render_attrs [(chr 'r', bytes "a"), (chr 'r', bytes "b")] = bytes "r=a,r=b" ∧
    (sasl_scramsha_attrlist_parse
      (render_attrs [(chr 'r', bytes "a"), (chr 'r', bytes "b")])).1 = true ∧
    (sasl_scramsha_attrlist_parse
      (render_attrs [(chr 'r', bytes "a"), (chr 'r', bytes "b")])).2 (chr 'r') = some (bytes "b") :=
  ⟨by decide,
    (sasl_scramsha_attrlist_parse_last_wins [(chr 'r', bytes "a"), (chr 'r', bytes "b")]
      (by decide) (by decide)).1,
    (sasl_scramsha_attrlist_parse_last_wins [(chr 'r', bytes "a"), (chr 'r', bytes "b")]
      (by decide) (by decide)).2 [(chr 'r', bytes "a")] [] (chr 'r', bytes "b") rfl
      (by simp)⟩

/-- The client-first step on an input that passes every check: it returns
More, with the session and the output of lines 289 to 317. -/
theorem mech_step_clientfirst_success (env : scram_env) (users : user_store)
    (s : scramsha_session) (data message n input_r authcid : List Byte) (u : user_ref)
    (prf : Nat)
    (hne : data ≠ []) (h0 : 0 ∉ data)
    (hg : gs2_header env data = gs2_outcome.accept message)
    (hparse : (sasl_scramsha_attrlist_parse message).1 = true)
    (hm : (sasl_scramsha_attrlist_parse message).2 (chr 'm') = none)
    (hn : (sasl_scramsha_attrlist_parse message).2 (chr 'n') = some n) (hnne : n ≠ [])
    (hr : (sasl_scramsha_attrlist_parse message).2 (chr 'r') = some input_r)
    (hrne : input_r ≠ [])
    (hnl : n.length < env.NICKLEN)
    (hnorm : env.normalize n env.NICKLEN = some authcid)
    (hlogin : env.authcid_can_login authcid = authcid_result.allowed u)
    (hcrypt : (users u).flags &&& env.MU_CRYPTPASS ≠ 0)
    (hnopass : (users u).flags &&& env.MU_NOPASSWORD = 0)
    (hex : (env.dbextract (users u).pass s.db).1 = true)
    (hprf : (env.dbextract (users u).pass s.db).2.a = prf)
    (hlo : NONCE_LENGTH + env.PBKDF2_SALTLEN_MIN + 16 <
      (server_first_message input_r (env.random_string NONCE_LENGTH)
        (env.dbextract (users u).pass s.db).2.salt64
        (env.dbextract (users u).pass s.db).2.c).length)
    (hhi : (server_first_message input_r (env.random_string NONCE_LENGTH)
        (env.dbextract (users u).pass s.db).2.salt64
        (env.dbextract (users u).pass s.db).2.c).length < env.SASL_C2S_MAXLEN) :
    mech_step_clientfirst env users s (some data) prf =
      some { ret := ASASL_MORE
             s := { db := (env.dbextract (users u).pass s.db).2
                    mu := some u
                    cn := input_r
                    sn := env.random_string NONCE_LENGTH
                    c_gs2_buf := data.take (data.length - message.length)
                    c_msg_buf := message
                    s_msg_buf := server_first_message input_r (env.random_string NONCE_LENGTH)
                      (env.dbextract (users u).pass s.db).2.salt64
                      (env.dbextract (users u).pass s.db).2.c
                    c_gs2_len := data.length - message.length
                    c_msg_len := message.length
                    s_msg_len := (server_first_message input_r (env.random_string NONCE_LENGTH)
                      (env.dbextract (users u).pass s.db).2.salt64
                      (env.dbextract (users u).pass s.db).2.c).length
                    step := SCRAMSHA_STEP_CLIENTPROOF }
             out := some (server_first_message input_r (env.random_string NONCE_LENGTH)
                      (env.dbextract (users u).pass s.db).2.salt64
                      (env.dbextract (users u).pass s.db).2.c) } := by
  obtain ⟨hdr, hd⟩ := gs2_header_accept env data message hg
  have hlen : data.length - (data.length - message.length) = message.length := by
    rw [hd]; simp only [List.length_append]; omega
  have hstep : mech_step_clientfirst env users s (some data) prf =
      some (clientfirst_attrs env users s data message prf) := by
    unfold mech_step_clientfirst
    match data, hne, h0, hg with
    | b :: rest, _, h0, hg => simp only [h0, if_false, hg]
  rw [hstep]
  congr 1
  match n, hnne, hn, hnl, hnorm with
  | n0 :: n', _, hn, hnl, hnorm =>
    match input_r, hrne, hr, hlo, hhi with
    | r0 :: r', _, hr, hlo, hhi =>
      have hp' : (!(sasl_scramsha_attrlist_parse message).1) = false := by simp [hparse]
      have hnl' : ¬ (n0 :: n').length ≥ env.NICKLEN := by omega
      have hex' : (!(env.dbextract (users u).pass s.db).1) = false := by simp [hex]
      have hbound : ¬ ((server_first_message (r0 :: r') (env.random_string NONCE_LENGTH)
          (env.dbextract (users u).pass s.db).2.salt64
          (env.dbextract (users u).pass s.db).2.c).length ≤
            NONCE_LENGTH + env.PBKDF2_SALTLEN_MIN + 16 ∨
          (server_first_message (r0 :: r') (env.random_string NONCE_LENGTH)
          (env.dbextract (users u).pass s.db).2.salt64
          (env.dbextract (users u).pass s.db).2.c).length ≥ env.SASL_C2S_MAXLEN) := by
        omega
      simp only [clientfirst_attrs, hp', Bool.false_eq_true, if_false, hm, hn, hr, hnl', hnorm,
        clientfirst_login, hlogin, hcrypt, hnopass, hex', hprf, ne_eq, not_true_eq_false,
        hbound, hlen, List.take_length]

/-- The client-proof step on a non-empty NUL-free frame whose attributes, nonce,
echoed GS2 header and ClientProof length pass lines 338 to 383 continues with
the AuthMessage of line 385. -/
theorem mech_step_clientproof_to_verify (env : scram_env) (s : scramsha_session)
    (data c p r d cp : List Byte)
    (hne : data ≠ []) (h0 : 0 ∉ data)
    (hparse : (sasl_scramsha_attrlist_parse data).1 = true)
    (hm : (sasl_scramsha_attrlist_parse data).2 (chr 'm') = none)
    (hc : (sasl_scramsha_attrlist_parse data).2 (chr 'c') = some c) (hcne : c ≠ [])
    (hp : (sasl_scramsha_attrlist_parse data).2 (chr 'p') = some p) (hpne : p ≠ [])
    (hr : (sasl_scramsha_attrlist_parse data).2 (chr 'r') = some r) (hrne : r ≠ [])
    (hxlo : NONCE_LENGTH < (s.cn ++ s.sn).length)
    (hxhi : (s.cn ++ s.sn).length < env.SASL_C2S_MAXLEN)
    (hnonce : s.cn ++ s.sn = r)
    (hdec : env.base64_decode c env.SASL_C2S_MAXLEN = some d)
    (hdl : d.length = s.c_gs2_len)
    (hcmp : s.c_gs2_buf.take d.length = d)
    (hcp : env.base64_decode p DIGEST_MDLEN_MAX = some cp)
    (hcpl : cp.length = s.db.dl) :
    mech_step_clientproof env s (some data) = clientproof_verify env s cp c r := by
  match data, hne, h0, hparse, hm, hc, hp, hr with
  | b :: rest, _, h0, hparse, hm, hc, hp, hr =>
    match c, hcne, hc, hdec with
    | c0 :: c', _, hc, hdec =>
      match p, hpne, hp, hcp with
      | p0 :: p', _, hp, hcp =>
        match r, hrne, hr, hnonce with
        | r0 :: r', _, hr, hnonce =>
          have hp' : (!(sasl_scramsha_attrlist_parse (b :: rest)).1) = false := by simp [hparse]
          have hx : ¬ ((s.cn ++ s.sn).length ≤ NONCE_LENGTH ∨
              (s.cn ++ s.sn).length ≥ env.SASL_C2S_MAXLEN) := by omega
          have hmem : memcmp_ne s.c_gs2_buf d d.length = false := by
            simp [memcmp_ne, hcmp]
          rw [hnonce] at hx
          rw [hdl] at hmem
          simp only [mech_step_clientproof, h0, if_false, hp', Bool.false_eq_true, hm, hc, hp,
            hr, clientproof_checks, hx, hnonce, ne_eq, not_true_eq_false, hdec, hdl, hmem,
            or_self, hcp, hcpl]

/-- The AuthMessage holds the nonce, so a nonce longer than `NONCE_LENGTH`
makes the AuthMessage longer than `NONCE_LENGTH`. -/
theorem auth_message_length (c_msg s_msg c r : List Byte) :
    (auth_message c_msg s_msg c r).length =
      c_msg.length + s_msg.length + c.length + r.length + 7 := by
  simp only [auth_message, bytes, List.length_append, List.length_map]
  have h1 : (",".toList).length = 1 := rfl
  have h2 : (",c=".toList).length = 3 := rfl
  have h3 : (",r=".toList).length = 3 := rfl
  rw [h1, h2, h3]
  omega

/-- Lines 385 to 424 when the StoredKey computed from the ClientProof differs
from the stored one: the step leaves through the label `fail:`. -/
theorem clientproof_verify_mismatch (env : scram_env) (s : scramsha_session)
    (cp c r cs sk : List Byte)
    (hlo : NONCE_LENGTH ≤ (auth_message s.c_msg_buf s.s_msg_buf c r).length)
    (hhi : (auth_message s.c_msg_buf s.s_msg_buf c r).length < env.SASL_C2S_MAXLEN)
    (hcs : env.digest_oneshot_hmac s.db.alg (s.db.shk.take s.db.dl)
      (auth_message s.c_msg_buf s.s_msg_buf c r) = some cs)
    (hsk : env.digest_oneshot s.db.alg (xor_keys cp cs s.db.dl) = some sk)
    (hmis : sk.take s.db.dl ≠ s.db.shk.take s.db.dl) :
    clientproof_verify env s cp c r = goto_fail s := by
  have hb : ¬ ((auth_message s.c_msg_buf s.s_msg_buf c r).length < NONCE_LENGTH ∨
      (auth_message s.c_msg_buf s.s_msg_buf c r).length ≥ env.SASL_C2S_MAXLEN) := by omega
  have hmem : memcmp_ne sk s.db.shk s.db.dl = true := by
    simp [memcmp_ne, hmis]
  simp only [clientproof_verify, hb, if_false, hcs, hsk, hmem, if_true]

/-- Lines 385 to 463 when the StoredKey computed from the ClientProof is the
stored one and the ServerSignature is computed, encoded and fits: the step
returns More with the server-final-message and the step Passed. -/
theorem clientproof_verify_match (env : scram_env) (s : scramsha_session)
    (cp c r cs sk sig sig64 : List Byte)
    (hlo : NONCE_LENGTH ≤ (auth_message s.c_msg_buf s.s_msg_buf c r).length)
    (hhi : (auth_message s.c_msg_buf s.s_msg_buf c r).length < env.SASL_C2S_MAXLEN)
    (hcs : env.digest_oneshot_hmac s.db.alg (s.db.shk.take s.db.dl)
      (auth_message s.c_msg_buf s.s_msg_buf c r) = some cs)
    (hsk : env.digest_oneshot s.db.alg (xor_keys cp cs s.db.dl) = some sk)
    (heq : sk.take s.db.dl = s.db.shk.take s.db.dl)
    (hsig : env.digest_oneshot_hmac s.db.alg (s.db.ssk.take s.db.dl)
      (auth_message s.c_msg_buf s.s_msg_buf c r) = some sig)
    (h64 : env.base64_encode (sig.take s.db.dl) (DIGEST_MDLEN_MAX * 3) = some sig64)
    (holo : s.db.dl ≤ (bytes "v=" ++ sig64).length)
    (hohi : (bytes "v=" ++ sig64).length < DIGEST_MDLEN_MAX * 3) :
    clientproof_verify env s cp c r =
      { ret := ASASL_MORE, s := { s with step := SCRAMSHA_STEP_PASSED },
        out := some (bytes "v=" ++ sig64) } := by
  have hb : ¬ ((auth_message s.c_msg_buf s.s_msg_buf c r).length < NONCE_LENGTH ∨
      (auth_message s.c_msg_buf s.s_msg_buf c r).length ≥ env.SASL_C2S_MAXLEN) := by omega
  have hmem : memcmp_ne sk s.db.shk s.db.dl = false := by
    simp [memcmp_ne, heq]
  have ho : ¬ ((bytes "v=" ++ sig64).length < s.db.dl ∨
      (bytes "v=" ++ sig64).length ≥ DIGEST_MDLEN_MAX * 3) := by omega
  simp only [clientproof_verify, hb, if_false, hcs, hsk, hmem, Bool.false_eq_true, hsig, h64, ho]

/-- Line 390 for an AuthMessage that does not fit the buffer of
`SASL_C2S_MAXLEN` bytes: the step leaves through the label `error:`. -/
theorem clientproof_verify_too_long (env : scram_env) (s : scramsha_session)
    (cp c r : List Byte)
    (hhi : env.SASL_C2S_MAXLEN ≤ (auth_message s.c_msg_buf s.s_msg_buf c r).length) :
    clientproof_verify env s cp c r = goto_error s := by
  have hb : (auth_message s.c_msg_buf s.s_msg_buf c r).length < NONCE_LENGTH ∨
      (auth_message s.c_msg_buf s.s_msg_buf c r).length ≥ env.SASL_C2S_MAXLEN := Or.inr hhi
  simp only [clientproof_verify, hb, if_true]

theorem server_first_message_length (cn sn salt64 : List Byte) (c : Nat) :
    (server_first_message cn sn salt64 c).length =
      cn.length + sn.length + salt64.length + (decimal c).length + 8 := by
  simp only [server_first_message, bytes, List.length_append, List.length_map]
  have h1 : ("r=".toList).length = 2 := rfl
  have h2 : (",s=".toList).length = 3 := rfl
  have h3 : (",i=".toList).length = 3 := rfl
  rw [h1, h2, h3]
  omega

theorem long_cn_length : long_cn.length = 4000 :=
  List.length_replicate 4000 (chr 'x')

theorem long_nonce_message_length : long_nonce_message.length = 4009 := by
  have h : (bytes "user").length = 4 := rfl
  simp only [long_nonce_message, render_attrs, render_attr, List.length_cons, List.length_append,
    long_cn_length, h]

theorem long_nonce_s_msg_length :
    (server_first_message long_cn (List.replicate 64 (chr 'A')) sample_db.salt64 4096).length =
      4100 := by
  have h1 : sample_db.salt64.length = 24 := rfl
  have h2 : (decimal 4096).length = 4 := rfl
  rw [server_first_message_length, long_cn_length, h1, h2, List.length_replicate]

theorem long_nonce_message_parse :
    sasl_scramsha_attrlist_parse long_nonce_message =
      (true, attrs_set (attrs_set attrs_empty (chr 'n') (bytes "user")) (chr 'r') long_cn) := by
  unfold long_nonce_message
  rw [sasl_scramsha_attrlist_parse_render _ (by simp)]
  · rfl
  · intro a ha
    simp only [List.mem_cons, List.mem_singleton, List.not_mem_nil, or_false] at ha
    rcases ha with e | e
    · subst e; exact ⟨by decide, by decide⟩
    · subst e
      refine ⟨by decide, ?_⟩
      simp only [long_cn]
      intro h
      exact absurd (List.eq_of_mem_replicate h) (by decide)

theorem long_cn_no_nul : (0 : Nat) ∉ long_cn := by
  intro h
  exact absurd (List.eq_of_mem_replicate h) (by decide)

theorem long_cn_no_comma : chr ',' ∉ long_cn := by
  intro h
  exact absurd (List.eq_of_mem_replicate h) (by decide)

theorem long_cn_ne_nil : long_cn ≠ [] := by
  intro h
  have := long_cn_length
  rw [h] at this
  simp at this

/-- The session `long_nonce_session` is the one the client-first step leaves
in the sample environment on the input `long_nonce_first`. -/
theorem long_nonce_session_reached :
    mech_step_clientfirst sample_env sample_users mech_start (some long_nonce_first) 25 =
      some { ret := ASASL_MORE, s := long_nonce_session,
             out := some long_nonce_session.s_msg_buf } := by
  have hg : gs2_header sample_env long_nonce_first =
      gs2_outcome.accept long_nonce_message := by
    have hm : long_nonce_message =
        chr 'n' :: chr '=' :: (bytes "user" ++ chr ',' :: chr 'r' :: chr '=' :: long_cn) := rfl
    unfold long_nonce_first
    rw [hm]
    rfl
  have h0 : (0 : Nat) ∉ long_nonce_first := by
    have hu : (0 : Nat) ∉ bytes "user" := by decide
    simp only [long_nonce_first, long_nonce_message, render_attrs, render_attr, List.mem_cons,
      List.mem_append, not_or]
    exact ⟨by decide, by decide, by decide, ⟨by decide, by decide, hu⟩, by decide, by decide,
      by decide, long_cn_no_nul⟩
  have hp := long_nonce_message_parse
  have hstep := mech_step_clientfirst_success sample_env sample_users mech_start
    long_nonce_first long_nonce_message (bytes "user") long_cn (bytes "user") 7 25
    (by simp [long_nonce_first]) h0 hg
    (by rw [hp])
    (by rw [hp]; rfl)
    (by rw [hp]; rfl) (by decide)
    (by rw [hp]; simp [attrs_set]) long_cn_ne_nil
    (by decide) rfl (by decide) (by decide) (by decide) rfl rfl
    (by
      show NONCE_LENGTH + sample_env.PBKDF2_SALTLEN_MIN + 16 <
        (server_first_message long_cn (List.replicate 64 (chr 'A')) sample_db.salt64 4096).length
      rw [long_nonce_s_msg_length]; decide)
    (by
      show (server_first_message long_cn (List.replicate 64 (chr 'A')) sample_db.salt64
        4096).length < sample_env.SASL_C2S_MAXLEN
      rw [long_nonce_s_msg_length]; decide)
  rw [hstep]
  have hl : long_nonce_first.length - long_nonce_message.length = 3 := by
    simp only [long_nonce_first, List.length_cons]
    omega
  have ht : List.take 3 long_nonce_first = bytes "n,," := rfl
  rw [hl, ht]
  rfl


theorem long_nonce_final_parse :
    sasl_scramsha_attrlist_parse long_nonce_final =
      (true, attrs_set (attrs_set (attrs_set attrs_empty (chr 'c') (bytes "biws")) (chr 'r')
        (long_cn ++ List.replicate 64 (chr 'A'))) (chr 'p') (bytes "AAAA")) := by
  unfold long_nonce_final
  rw [sasl_scramsha_attrlist_parse_render _ (by simp)]
  · rfl
  · intro a ha
    simp only [List.mem_cons, List.mem_singleton, List.not_mem_nil, or_false] at ha
    rcases ha with e | e | e
    · subst e; exact ⟨by decide, by decide⟩
    · subst e
      refine ⟨by decide, ?_⟩
      simp only [List.mem_append, not_or]
      refine ⟨long_cn_no_comma, ?_⟩
      intro h
      exact absurd (List.eq_of_mem_replicate h) (by decide)
    · subst e; exact ⟨by decide, by decide⟩

theorem long_nonce_final_no_nul : (0 : Nat) ∉ long_nonce_final := by
  have hb : (0 : Nat) ∉ bytes "biws" := by decide
  have ha : (0 : Nat) ∉ bytes "AAAA" := by decide
  have hr : (0 : Nat) ∉ List.replicate 64 (chr 'A') := by
    intro h
    exact absurd (List.eq_of_mem_replicate h) (by decide)
  simp only [long_nonce_final, render_attrs, render_attr, List.mem_cons, List.mem_append, not_or]
  exact ⟨⟨by decide, by decide, hb⟩, by decide, ⟨by decide, by decide, long_cn_no_nul, hr⟩,
    by decide, by decide, by decide, ha⟩

/-- The client-proof step of the sample environment on `long_nonce_final`, for
the session `long_nonce_session`, leaves through the label `error:` at line
390: the AuthMessage has more than `SASL_C2S_MAXLEN` bytes. -/
theorem long_nonce_final_error :
    mech_step_clientproof sample_env long_nonce_session (some long_nonce_final) =
      goto_error long_nonce_session := by
  have hp := long_nonce_final_parse
  have hx : (long_nonce_session.cn ++ long_nonce_session.sn).length = 4064 := by
    show (long_cn ++ List.replicate 64 (chr 'A')).length = 4064
    rw [List.length_append, long_cn_length, List.length_replicate]
  rw [mech_step_clientproof_to_verify sample_env long_nonce_session long_nonce_final
    (bytes "biws") (bytes "AAAA") (long_cn ++ List.replicate 64 (chr 'A')) (bytes "n,,")
    (bytes "AAAA") (by simp [long_nonce_final, render_attrs, render_attr])
    long_nonce_final_no_nul
    (by rw [hp]) (by rw [hp]; rfl) (by rw [hp]; rfl) (by decide) (by rw [hp]; rfl) (by decide)
    (by rw [hp]; rfl)
    (by
      intro h
      have := congrArg List.length h
      rw [List.length_append, long_cn_length] at this
      simp at this)
    (by rw [hx]; decide) (by rw [hx]; decide) rfl (by decide) rfl (by decide) (by decide) rfl]
  apply clientproof_verify_too_long
  have e1 : long_nonce_session.c_msg_buf = long_nonce_message := rfl
  have e2 : long_nonce_session.s_msg_buf =
      server_first_message long_cn (List.replicate 64 (chr 'A')) sample_db.salt64 4096 := rfl
  rw [auth_message_length, e1, e2, long_nonce_message_length, long_nonce_s_msg_length,
    List.length_append, long_cn_length, List.length_replicate]
  decide

/-- C11, counterexample: in the sample environment, the client-final-message
`long_nonce_final` finds the session `long_nonce_session` (which the
client-first step leaves on `long_nonce_first`); it passes the attribute check,
the nonce check, the channel-binding-echo check and the proof-length check, and
the StoredKey computed from its proof differs from the stored one; the step
returns Error, not Fail, and the step of the session becomes Errored, not
Failed. -/
theorem mech_step_clientproof_wrong_proof_long_transcript :
    mech_step_clientfirst sample_env sample_users mech_start (some long_nonce_first) 25 =
      some { ret := ASASL_MORE, s := long_nonce_session,
             out := some long_nonce_session.s_msg_buf } ∧
    long_nonce_final ≠ [] ∧ (0 : Nat) ∉ long_nonce_final ∧
    (sasl_scramsha_attrlist_parse long_nonce_final).1 = true ∧
    (sasl_scramsha_attrlist_parse long_nonce_final).2 (chr 'm') = none ∧
    (sasl_scramsha_attrlist_parse long_nonce_final).2 (chr 'c') = some (bytes "biws") ∧
    (sasl_scramsha_attrlist_parse long_nonce_final).2 (chr 'p') = some (bytes "AAAA") ∧
    (sasl_scramsha_attrlist_parse long_nonce_final).2 (chr 'r') =
      some (long_nonce_session.cn ++ long_nonce_session.sn) ∧
    NONCE_LENGTH < (long_nonce_session.cn ++ long_nonce_session.sn).length ∧
    (long_nonce_session.cn ++ long_nonce_session.sn).length < sample_env.SASL_C2S_MAXLEN ∧
    sample_env.base64_decode (bytes "biws") sample_env.SASL_C2S_MAXLEN =
      some long_nonce_session.c_gs2_buf ∧
    long_nonce_session.c_gs2_len = long_nonce_session.c_gs2_buf.length ∧
    sample_env.base64_decode (bytes "AAAA") DIGEST_MDLEN_MAX = some (bytes "AAAA") ∧
    (bytes "AAAA").length = long_nonce_session.db.dl ∧
    sample_env.digest_oneshot_hmac long_nonce_session.db.alg
      (long_nonce_session.db.shk.take long_nonce_session.db.dl)
      (auth_message long_nonce_session.c_msg_buf long_nonce_session.s_msg_buf (bytes "biws")
        (long_nonce_session.cn ++ long_nonce_session.sn)) = some [5, 6, 7, 8] ∧
    sample_env.digest_oneshot long_nonce_session.db.alg
      (xor_keys (bytes "AAAA") [5, 6, 7, 8] long_nonce_session.db.dl) = some [4, 7, 6, 9] ∧
    [4, 7, 6, 9].take long_nonce_session.db.dl ≠
      long_nonce_session.db.shk.take long_nonce_session.db.dl ∧
    (mech_step_clientproof sample_env long_nonce_session (some long_nonce_final)).ret =
      ASASL_ERROR ∧
    (mech_step_clientproof sample_env long_nonce_session (some long_nonce_final)).s.step =
      SCRAMSHA_STEP_ERRORED := by
  have hp := long_nonce_final_parse
  have hx : (long_nonce_session.cn ++ long_nonce_session.sn).length = 4064 := by
    show (long_cn ++ List.replicate 64 (chr 'A')).length = 4064
    rw [List.length_append, long_cn_length, List.length_replicate]
  refine ⟨long_nonce_session_reached, ?_, long_nonce_final_no_nul, by rw [hp], by rw [hp]; rfl,
    by rw [hp]; rfl, by rw [hp]; rfl, by rw [hp]; rfl, by rw [hx]; decide, by rw [hx]; decide,
    by decide, by decide, by decide, by decide, rfl, by decide, by decide, ?_, ?_⟩
  · simp [long_nonce_final, render_attrs, render_attr]
  · rw [long_nonce_final_error]; rfl
  · rw [long_nonce_final_error]; rfl


/-- C11, amended: for every non-empty NUL-free client-final-message that passes
the attribute check, the nonce check, the channel-binding-echo check and the
proof-length check, and whose AuthMessage `c_msg , s_msg ,c= c ,r= r` is
shorter than `SASL_C2S_MAXLEN`: if HMAC (StoredKey, AuthMessage) and H of its
XOR with the ClientProof are computed and the result differs from the stored
StoredKey over its `dl` bytes, the step returns Fail, writes no output, and
the step of the session becomes Failed. -/
theorem mech_step_clientproof_wrong_proof (env : scram_env) (s : scramsha_session)
    (data c p r cp cs sk : List Byte)
    (hne : data ≠ []) (h0 : 0 ∉ data)
    (hparse : (sasl_scramsha_attrlist_parse data).1 = true)
    (hm : (sasl_scramsha_attrlist_parse data).2 (chr 'm') = none)
    (hc : (sasl_scramsha_attrlist_parse data).2 (chr 'c') = some c) (hcne : c ≠ [])
    (hp : (sasl_scramsha_attrlist_parse data).2 (chr 'p') = some p) (hpne : p ≠ [])
    (hr : (sasl_scramsha_attrlist_parse data).2 (chr 'r') = some r) (hrne : r ≠ [])
    (hxlo : NONCE_LENGTH < (s.cn ++ s.sn).length)
    (hxhi : (s.cn ++ s.sn).length < env.SASL_C2S_MAXLEN)
    (hnonce : r = s.cn ++ s.sn)
    (hwf : s.c_gs2_len = s.c_gs2_buf.length)
    (hdec : env.base64_decode c env.SASL_C2S_MAXLEN = some s.c_gs2_buf)
    (hcp : env.base64_decode p DIGEST_MDLEN_MAX = some cp)
    (hcpl : cp.length = s.db.dl)
    (halen : (auth_message s.c_msg_buf s.s_msg_buf c r).length < env.SASL_C2S_MAXLEN)
    (hcs : env.digest_oneshot_hmac s.db.alg (s.db.shk.take s.db.dl)
      (auth_message s.c_msg_buf s.s_msg_buf c r) = some cs)
    (hsk : env.digest_oneshot s.db.alg (xor_keys cp cs s.db.dl) = some sk)
    (hmis : sk.take s.db.dl ≠ s.db.shk.take s.db.dl) :
    mech_step_clientproof env s (some data) =
      { ret := ASASL_FAIL, s := { s with step := SCRAMSHA_STEP_FAILED }, out := none } := by
  rw [mech_step_clientproof_to_verify env s data c p r s.c_gs2_buf cp hne h0 hparse hm hc hcne
    hp hpne hr hrne hxlo hxhi hnonce.symm hdec hwf.symm (List.take_length _) hcp hcpl]
  rw [clientproof_verify_mismatch env s cp c r cs sk ?_ halen hcs hsk hmis]
  · rfl
  · rw [auth_message_length, hnonce]
    omega

set_option maxRecDepth 100000 in
theorem mech_step_clientproof_wrong_proof_witness :
    bytes "c=biws,r=abcAAAAAAAAAAAAAAAAAAAAAAAAAAAAAAAAAAAAAAAAAAAAAAAAAAAAAAAAAAAAAAAA,p=AAAA" ≠ [] ∧
    (0 : Nat) ∉ bytes "c=biws,r=abcAAAAAAAAAAAAAAAAAAAAAAAAAAAAAAAAAAAAAAAAAAAAAAAAAAAAAAAAAAAAAAAA,p=AAAA" ∧
    mech_step_clientproof sample_env (sample_session SCRAMSHA_STEP_CLIENTPROOF)
        (some (bytes "c=biws,r=abcAAAAAAAAAAAAAAAAAAAAAAAAAAAAAAAAAAAAAAAAAAAAAAAAAAAAAAAAAAAAAAAA,p=AAAA")) =
      { ret := ASASL_FAIL
        s := { sample_session SCRAMSHA_STEP_CLIENTPROOF with step := SCRAMSHA_STEP_FAILED }
        out := none } :=
  ⟨by decide, by decide,
    mech_step_clientproof_wrong_proof sample_env (sample_session SCRAMSHA_STEP_CLIENTPROOF)
      (bytes "c=biws,r=abcAAAAAAAAAAAAAAAAAAAAAAAAAAAAAAAAAAAAAAAAAAAAAAAAAAAAAAAAAAAAAAAA,p=AAAA")
      (bytes "biws") (bytes "AAAA") (bytes "abcAAAAAAAAAAAAAAAAAAAAAAAAAAAAAAAAAAAAAAAAAAAAAAAAAAAAAAAAAAAAAAAA") (bytes "AAAA") [5, 6, 7, 8] [4, 7, 6, 9]
      (by decide) (by decide) (by decide) (by decide) (by decide) (by decide) (by decide)
      (by decide) (by decide) (by decide) (by decide) (by decide) (by decide) (by decide)
      (by decide) (by decide) (by decide) (by decide) (by decide) (by decide) (by decide)⟩

/-- C12: for every non-empty NUL-free client-final-message that passes all the
checks of the step (attributes, nonce, channel-binding echo, proof length,
AuthMessage shorter than `SASL_C2S_MAXLEN`, digests computed, signature
encoded, response within its buffer) and for which H of the ClientProof XOR
HMAC (StoredKey, AuthMessage) is the stored StoredKey over its `dl` bytes, the
step returns More, the step of the session becomes Passed, and the output is
`v=` followed by the base64 text of HMAC (ServerKey, AuthMessage), where
AuthMessage is `c_msg , s_msg ,c= c ,r= r` with the `c` and `r` values as
received. -/
theorem mech_step_clientproof_right_proof (env : scram_env) (s : scramsha_session)
    (data c p r cp cs sk sig sig64 : List Byte)
    (hne : data ≠ []) (h0 : 0 ∉ data)
    (hparse : (sasl_scramsha_attrlist_parse data).1 = true)
    (hm : (sasl_scramsha_attrlist_parse data).2 (chr 'm') = none)
    (hc : (sasl_scramsha_attrlist_parse data).2 (chr 'c') = some c) (hcne : c ≠ [])
    (hp : (sasl_scramsha_attrlist_parse data).2 (chr 'p') = some p) (hpne : p ≠ [])
    (hr : (sasl_scramsha_attrlist_parse data).2 (chr 'r') = some r) (hrne : r ≠ [])
    (hxlo : NONCE_LENGTH < (s.cn ++ s.sn).length)
    (hxhi : (s.cn ++ s.sn).length < env.SASL_C2S_MAXLEN)
    (hnonce : r = s.cn ++ s.sn)
    (hwf : s.c_gs2_len = s.c_gs2_buf.length)
    (hdec : env.base64_decode c env.SASL_C2S_MAXLEN = some s.c_gs2_buf)
    (hcp : env.base64_decode p DIGEST_MDLEN_MAX = some cp)
    (hcpl : cp.length = s.db.dl)
    (halen : (s.c_msg_buf ++ bytes "," ++ s.s_msg_buf ++ bytes ",c=" ++ c ++ bytes ",r=" ++
      r).length < env.SASL_C2S_MAXLEN)
    (hcs : env.digest_oneshot_hmac s.db.alg (s.db.shk.take s.db.dl)
      (s.c_msg_buf ++ bytes "," ++ s.s_msg_buf ++ bytes ",c=" ++ c ++ bytes ",r=" ++ r) =
        some cs)
    (hsk : env.digest_oneshot s.db.alg (xor_keys cp cs s.db.dl) = some sk)
    (heq : sk.take s.db.dl = s.db.shk.take s.db.dl)
    (hsig : env.digest_oneshot_hmac s.db.alg (s.db.ssk.take s.db.dl)
      (s.c_msg_buf ++ bytes "," ++ s.s_msg_buf ++ bytes ",c=" ++ c ++ bytes ",r=" ++ r) =
        some sig)
    (h64 : env.base64_encode (sig.take s.db.dl) (DIGEST_MDLEN_MAX * 3) = some sig64)
    (holo : s.db.dl ≤ (bytes "v=" ++ sig64).length)
    (hohi : (bytes "v=" ++ sig64).length < DIGEST_MDLEN_MAX * 3) :
    mech_step_clientproof env s (some data) =
      { ret := ASASL_MORE, s := { s with step := SCRAMSHA_STEP_PASSED },
        out := some (bytes "v=" ++ sig64) } := by
  rw [mech_step_clientproof_to_verify env s data c p r s.c_gs2_buf cp hne h0 hparse hm hc hcne
    hp hpne hr hrne hxlo hxhi hnonce.symm hdec hwf.symm (List.take_length _) hcp hcpl]
  refine clientproof_verify_match env s cp c r cs sk sig sig64 ?_ halen hcs hsk heq hsig h64
    holo hohi
  rw [auth_message_length, hnonce]
  omega

set_option maxRecDepth 100000 in
theorem mech_step_clientproof_right_proof_witness :
    bytes "c=biws,r=abcAAAAAAAAAAAAAAAAAAAAAAAAAAAAAAAAAAAAAAAAAAAAAAAAAAAAAAAAAAAAAAAA,p=@@@@" ≠ [] ∧
    (0 : Nat) ∉ bytes "c=biws,r=abcAAAAAAAAAAAAAAAAAAAAAAAAAAAAAAAAAAAAAAAAAAAAAAAAAAAAAAAAAAAAAAAA,p=@@@@" ∧
    mech_step_clientproof sample_env (sample_session SCRAMSHA_STEP_CLIENTPROOF)
        (some (bytes "c=biws,r=abcAAAAAAAAAAAAAAAAAAAAAAAAAAAAAAAAAAAAAAAAAAAAAAAAAAAAAAAAAAAAAAAA,p=@@@@")) =
      { ret := ASASL_MORE
        s := { sample_session SCRAMSHA_STEP_CLIENTPROOF with step := SCRAMSHA_STEP_PASSED }
        out := some (bytes "v=" ++ [1, 2, 3, 4]) } :=
  ⟨by decide, by decide,
    mech_step_clientproof_right_proof sample_env (sample_session SCRAMSHA_STEP_CLIENTPROOF)
      (bytes "c=biws,r=abcAAAAAAAAAAAAAAAAAAAAAAAAAAAAAAAAAAAAAAAAAAAAAAAAAAAAAAAAAAAAAAAA,p=@@@@")
      (bytes "biws") (bytes "@@@@") (bytes "abcAAAAAAAAAAAAAAAAAAAAAAAAAAAAAAAAAAAAAAAAAAAAAAAAAAAAAAAAAAAAAAAA") (bytes "@@@@") [5, 6, 7, 8] [5, 6, 7, 8]
      [1, 2, 3, 4] [1, 2, 3, 4]
      (by decide) (by decide) (by decide) (by decide) (by decide) (by decide) (by decide)
      (by decide) (by decide) (by decide) (by decide) (by decide) (by decide) (by decide)
      (by decide) (by decide) (by decide) (by decide) (by decide) (by decide) (by decide)
      (by decide) (by decide) (by decide) (by decide)⟩

/-- C13: for every session and every non-empty NUL-free client-final-message
whose attribute list has an `m` attribute, or has no `c`, no `p` or no `r`,
or has one of them with the empty value, the client-proof step returns Error,
writes no output, and the step of the session becomes Errored. -/
theorem mech_step_clientproof_attrs_unacceptable (env : scram_env) (s : scramsha_session)
    (data : List Byte) (hne : data ≠ []) (h0 : 0 ∉ data)
    (hbad : ((sasl_scramsha_attrlist_parse data).2 (chr 'm')).isSome = true ∨
      (sasl_scramsha_attrlist_parse data).2 (chr 'c') = none ∨
      (sasl_scramsha_attrlist_parse data).2 (chr 'c') = some [] ∨
      (sasl_scramsha_attrlist_parse data).2 (chr 'p') = none ∨
      (sasl_scramsha_attrlist_parse data).2 (chr 'p') = some [] ∨
      (sasl_scramsha_attrlist_parse data).2 (chr 'r') = none ∨
      (sasl_scramsha_attrlist_parse data).2 (chr 'r') = some []) :
    (mech_step_clientproof env s (some data)).ret = ASASL_ERROR ∧
    (mech_step_clientproof env s (some data)).s.step = SCRAMSHA_STEP_ERRORED ∧
    (mech_step_clientproof env s (some data)).out = none ∧
    mech_step_clientproof env s (some data) = goto_error s := by
  have key : mech_step_clientproof env s (some data) = goto_error s := by
    rcases mech_step_clientproof_cases env s data hne h0 with
      h | ⟨c, p, r, _, h2, h3, h4, h5, h6, h7, h8, _⟩
    · exact h
    · exfalso
      rcases hbad with hb | hb | hb | hb | hb | hb | hb
      · simp [h2] at hb
      · simp [h3] at hb
      · rw [h3] at hb; exact h4 (Option.some.inj hb)
      · simp [h5] at hb
      · rw [h5] at hb; exact h6 (Option.some.inj hb)
      · simp [h7] at hb
      · rw [h7] at hb; exact h8 (Option.some.inj hb)
  rw [key]
  exact ⟨rfl, rfl, rfl, rfl⟩

set_option maxRecDepth 100000 in
theorem mech_step_clientproof_attrs_unacceptable_witness :
    bytes "c=biws,r=abc,p=" ≠ [] ∧ (0 : Nat) ∉ bytes "c=biws,r=abc,p=" ∧
    (sasl_scramsha_attrlist_parse (bytes "c=biws,r=abc,p=")).2 (chr 'p') = some [] ∧
    (mech_step_clientproof sample_env (sample_session SCRAMSHA_STEP_CLIENTPROOF)
      (some (bytes "c=biws,r=abc,p="))).ret = ASASL_ERROR ∧
    (mech_step_clientproof sample_env (sample_session SCRAMSHA_STEP_CLIENTPROOF)
      (some (bytes "c=biws,r=abc,p="))).s.step = SCRAMSHA_STEP_ERRORED :=
  ⟨by decide, by decide, by decide,
    (mech_step_clientproof_attrs_unacceptable sample_env
      (sample_session SCRAMSHA_STEP_CLIENTPROOF) (bytes "c=biws,r=abc,p=")
      (by decide) (by decide) (Or.inr (Or.inr (Or.inr (Or.inr (Or.inl (by decide))))))).1,
    (mech_step_clientproof_attrs_unacceptable sample_env
      (sample_session SCRAMSHA_STEP_CLIENTPROOF) (bytes "c=biws,r=abc,p=")
      (by decide) (by decide) (Or.inr (Or.inr (Or.inr (Or.inr (Or.inl (by decide))))))).2.1⟩

set_option maxRecDepth 100000 in
/-- C14, counterexample: with the verifier and the 30-character server nonce of
RFC 7677, the server-first-message the claim expects has 86 bytes, not more
than `NONCE_LENGTH + PBKDF2_SALTLEN_MIN + 16 = 88`, so the client-first step on
`n,,n=user,r=rOprNGfwEbeRWgbNEkqO` returns Error with no output and the step
Errored (line 301); and a session in ClientProof that holds the transcript of
the RFC gets Error on the client-final-message of the RFC, because the nonce
has 50 characters, not more than `NONCE_LENGTH` (line 352). -/
theorem rfc7677_vector_refused :
    rfc7677_env.random_string NONCE_LENGTH = bytes "%hvYDpWUa2RaTCAfuxFIlj)hNlF$k0" ∧
    server_first_message (bytes "rOprNGfwEbeRWgbNEkqO") (bytes "%hvYDpWUa2RaTCAfuxFIlj)hNlF$k0")
        rfc7677_db.salt64 rfc7677_db.c =
      bytes
        "r=rOprNGfwEbeRWgbNEkqO%hvYDpWUa2RaTCAfuxFIlj)hNlF$k0,s=W22ZaJ0SNY7soEsUEjb6gQ==,i=4096" ∧
    (bytes
        "r=rOprNGfwEbeRWgbNEkqO%hvYDpWUa2RaTCAfuxFIlj)hNlF$k0,s=W22ZaJ0SNY7soEsUEjb6gQ==,i=4096").length
      ≤ NONCE_LENGTH + rfc7677_env.PBKDF2_SALTLEN_MIN + 16 ∧
    (mech_step_clientfirst rfc7677_env sample_users mech_start
        (some (bytes "n,,n=user,r=rOprNGfwEbeRWgbNEkqO"))
        rfc7677_env.PBKDF2_PRF_SCRAM_SHA2_256_S64).map (fun r => (r.ret, r.s.step, r.out)) =
      some (ASASL_ERROR, SCRAMSHA_STEP_ERRORED, none) ∧
    (mech_step_clientproof rfc7677_env rfc7677_session (some (bytes
        "c=biws,r=rOprNGfwEbeRWgbNEkqO%hvYDpWUa2RaTCAfuxFIlj)hNlF$k0,p=dHzbZapWIk4jUhN+Ute9ytag9zjfMHgsqmmiz7AndVQ="))).ret =
      ASASL_ERROR ∧
    (mech_step_clientproof rfc7677_env rfc7677_session (some (bytes
        "c=biws,r=rOprNGfwEbeRWgbNEkqO%hvYDpWUa2RaTCAfuxFIlj)hNlF$k0,p=dHzbZapWIk4jUhN+Ute9ytag9zjfMHgsqmmiz7AndVQ="))).s.step =
      SCRAMSHA_STEP_ERRORED := by
  refine ⟨by decide, by decide, by decide, by decide, by decide, by decide⟩

/-- The server-first-message for the client nonce, the salt and the iteration
count of RFC 7677 and a server nonce `sn`. -/
theorem rfc7677_server_first_text (sn : List Byte) :
    server_first_message (bytes "rOprNGfwEbeRWgbNEkqO") sn (bytes "W22ZaJ0SNY7soEsUEjb6gQ==")
        4096 =
      bytes "r=rOprNGfwEbeRWgbNEkqO" ++ sn ++ bytes ",s=W22ZaJ0SNY7soEsUEjb6gQ==,i=4096" := by
  have h1 : bytes "r=" ++ bytes "rOprNGfwEbeRWgbNEkqO" = bytes "r=rOprNGfwEbeRWgbNEkqO" := by
    decide
  have h2 : bytes ",s=" ++ (bytes "W22ZaJ0SNY7soEsUEjb6gQ==" ++ (bytes ",i=" ++ decimal 4096)) =
      bytes ",s=W22ZaJ0SNY7soEsUEjb6gQ==,i=4096" := by decide
  simp only [server_first_message, List.append_assoc]
  rw [h2, ← List.append_assoc, h1]

theorem rfc7677_first_parse :
    sasl_scramsha_attrlist_parse (bytes "n=user,r=rOprNGfwEbeRWgbNEkqO") =
      (true, attrs_set (attrs_set attrs_empty (chr 'n') (bytes "user")) (chr 'r')
        (bytes "rOprNGfwEbeRWgbNEkqO")) := by
  have e : bytes "n=user,r=rOprNGfwEbeRWgbNEkqO" =
      render_attrs [(chr 'n', bytes "user"), (chr 'r', bytes "rOprNGfwEbeRWgbNEkqO")] := by
    decide
  rw [e, sasl_scramsha_attrlist_parse_render _ (by simp) (by decide)]
  rfl

/-- C14, amended: for a SCRAM-SHA-256 session whose user has a verifier with
salt64 `W22ZaJ0SNY7soEsUEjb6gQ==` and 4096 iterations, and whose server nonce
`sn` is the 64-character string `random_string (NONCE_LENGTH)` returns (with
`PBKDF2_SALTLEN_MIN = 8` and `SASL_C2S_MAXLEN = 8192`), the step on the
client-first-message `n,,n=user,r=rOprNGfwEbeRWgbNEkqO` returns More with the
output `r=rOprNGfwEbeRWgbNEkqO` sn `,s=W22ZaJ0SNY7soEsUEjb6gQ==,i=4096` and the
step ClientProof; and the step on the client-final-message
`c=biws,r=rOprNGfwEbeRWgbNEkqO` sn `,p=` proof, whose proof gives the stored
StoredKey, returns More with the output `v=` followed by the base64 text of
HMAC (ServerKey, AuthMessage), and leaves the session in Passed. -/
theorem rfc7677_exchange_with_own_nonce (env : scram_env) (users : user_store)
    (s : scramsha_session) (db : pbkdf2v2_dbentry) (u : user_ref)
    (sn authcid p64 cp cs sk sig sig64 : List Byte)
    (hsn : env.random_string NONCE_LENGTH = sn) (hsnlen : sn.length = 64)
    (hsn0 : (0 : Nat) ∉ sn) (hsnc : chr ',' ∉ sn)
    (hsalt : env.PBKDF2_SALTLEN_MIN = 8) (hmax : env.SASL_C2S_MAXLEN = 8192)
    (hnick : 4 < env.NICKLEN)
    (hnorm : env.normalize (bytes "user") env.NICKLEN = some authcid)
    (hlogin : env.authcid_can_login authcid = authcid_result.allowed u)
    (hcrypt : (users u).flags &&& env.MU_CRYPTPASS ≠ 0)
    (hnopass : (users u).flags &&& env.MU_NOPASSWORD = 0)
    (hex : env.dbextract (users u).pass s.db = (true, db))
    (hprf : db.a = env.PBKDF2_PRF_SCRAM_SHA2_256_S64)
    (hs64 : db.salt64 = bytes "W22ZaJ0SNY7soEsUEjb6gQ==") (hc : db.c = 4096)
    (hp64 : p64 ≠ []) (hp640 : (0 : Nat) ∉ p64) (hp64c : chr ',' ∉ p64)
    (hdec : env.base64_decode (bytes "biws") env.SASL_C2S_MAXLEN = some (bytes "n,,"))
    (hcp : env.base64_decode p64 DIGEST_MDLEN_MAX = some cp) (hcpl : cp.length = db.dl)
    (hcs : env.digest_oneshot_hmac db.alg (db.shk.take db.dl)
      (auth_message (bytes "n=user,r=rOprNGfwEbeRWgbNEkqO")
        (bytes "r=rOprNGfwEbeRWgbNEkqO" ++ sn ++ bytes ",s=W22ZaJ0SNY7soEsUEjb6gQ==,i=4096")
        (bytes "biws") (bytes "rOprNGfwEbeRWgbNEkqO" ++ sn)) = some cs)
    (hsk : env.digest_oneshot db.alg (xor_keys cp cs db.dl) = some sk)
    (heq : sk.take db.dl = db.shk.take db.dl)
    (hsig : env.digest_oneshot_hmac db.alg (db.ssk.take db.dl)
      (auth_message (bytes "n=user,r=rOprNGfwEbeRWgbNEkqO")
        (bytes "r=rOprNGfwEbeRWgbNEkqO" ++ sn ++ bytes ",s=W22ZaJ0SNY7soEsUEjb6gQ==,i=4096")
        (bytes "biws") (bytes "rOprNGfwEbeRWgbNEkqO" ++ sn)) = some sig)
    (h64 : env.base64_encode (sig.take db.dl) (DIGEST_MDLEN_MAX * 3) = some sig64)
    (holo : db.dl ≤ (bytes "v=" ++ sig64).length)
    (hohi : (bytes "v=" ++ sig64).length < DIGEST_MDLEN_MAX * 3) :
    ∃ r1, mech_step_clientfirst env users s (some (bytes "n,,n=user,r=rOprNGfwEbeRWgbNEkqO"))
        env.PBKDF2_PRF_SCRAM_SHA2_256_S64 = some r1 ∧
      r1.ret = ASASL_MORE ∧
      r1.out = some (bytes "r=rOprNGfwEbeRWgbNEkqO" ++ sn ++
        bytes ",s=W22ZaJ0SNY7soEsUEjb6gQ==,i=4096") ∧
      r1.s.step = SCRAMSHA_STEP_CLIENTPROOF ∧
      mech_step_clientproof env r1.s (some (render_attrs [(chr 'c', bytes "biws"),
          (chr 'r', bytes "rOprNGfwEbeRWgbNEkqO" ++ sn), (chr 'p', p64)])) =
        { ret := ASASL_MORE, s := { r1.s with step := SCRAMSHA_STEP_PASSED },
          out := some (bytes "v=" ++ sig64) } := by
  have hex1 : (env.dbextract (users u).pass s.db).1 = true := by rw [hex]
  have hex2 : (env.dbextract (users u).pass s.db).2 = db := by rw [hex]
  have hcnl : (bytes "rOprNGfwEbeRWgbNEkqO").length = 20 := rfl
  have htext := rfc7677_server_first_text sn
  have hslen : (server_first_message (bytes "rOprNGfwEbeRWgbNEkqO") sn
      (bytes "W22ZaJ0SNY7soEsUEjb6gQ==") 4096).length = 120 := by
    have h1 : (bytes "W22ZaJ0SNY7soEsUEjb6gQ==").length = 24 := rfl
    have h2 : (decimal 4096).length = 4 := rfl
    rw [server_first_message_length, hcnl, hsnlen, h1, h2]
  have hp := rfc7677_first_parse
  have hfirst := mech_step_clientfirst_success env users s
    (bytes "n,,n=user,r=rOprNGfwEbeRWgbNEkqO") (bytes "n=user,r=rOprNGfwEbeRWgbNEkqO")
    (bytes "user") (bytes "rOprNGfwEbeRWgbNEkqO") authcid u env.PBKDF2_PRF_SCRAM_SHA2_256_S64
    (by decide) (by decide) rfl (by rw [hp]) (by rw [hp]; rfl) (by rw [hp]; rfl) (by decide)
    (by rw [hp]; rfl) (by decide) (by show 4 < env.NICKLEN; exact hnick) hnorm hlogin hcrypt
    hnopass hex1 (by rw [hex2]; exact hprf)
    (by rw [hex2, hsn, hs64, hc, hslen, hsalt]; decide)
    (by rw [hex2, hsn, hs64, hc, hslen, hmax]; decide)
  rw [hex2, hsn, hs64, hc, htext] at hfirst
  refine ⟨_, hfirst, rfl, rfl, rfl, ?_⟩
  have hfinal0 : (0 : Nat) ∉ render_attrs [(chr 'c', bytes "biws"),
      (chr 'r', bytes "rOprNGfwEbeRWgbNEkqO" ++ sn), (chr 'p', p64)] := by
    have hb : (0 : Nat) ∉ bytes "biws" := by decide
    have hcn : (0 : Nat) ∉ bytes "rOprNGfwEbeRWgbNEkqO" := by decide
    simp only [render_attrs, render_attr, List.mem_cons, List.mem_append, not_or]
    exact ⟨⟨by decide, by decide, hb⟩, by decide, ⟨by decide, by decide, hcn, hsn0⟩,
      by decide, by decide, by decide, hp640⟩
  have hfp : sasl_scramsha_attrlist_parse (render_attrs [(chr 'c', bytes "biws"),
      (chr 'r', bytes "rOprNGfwEbeRWgbNEkqO" ++ sn), (chr 'p', p64)]) =
      (true, attrs_set (attrs_set (attrs_set attrs_empty (chr 'c') (bytes "biws")) (chr 'r')
        (bytes "rOprNGfwEbeRWgbNEkqO" ++ sn)) (chr 'p') p64) := by
    rw [sasl_scramsha_attrlist_parse_render _ (by simp)]
    · rfl
    · intro a ha
      simp only [List.mem_cons, List.mem_singleton, List.not_mem_nil, or_false] at ha
      rcases ha with e | e | e
      · subst e; exact ⟨by decide, by decide⟩
      · subst e
        refine ⟨(show invalid_attr_name (chr 'r') = false by decide), ?_⟩
        simp only [List.mem_append, not_or]
        exact ⟨by decide, hsnc⟩
      · subst e; exact ⟨(show invalid_attr_name (chr 'p') = false by decide), hp64c⟩
  have hxl : (bytes "rOprNGfwEbeRWgbNEkqO" ++ sn).length = 84 := by
    rw [List.length_append, hcnl, hsnlen]
  have hrne : bytes "rOprNGfwEbeRWgbNEkqO" ++ sn ≠ [] := by
    intro h
    have := congrArg List.length h
    rw [hxl] at this
    simp at this
  have hamlen : (auth_message (bytes "n=user,r=rOprNGfwEbeRWgbNEkqO")
      (bytes "r=rOprNGfwEbeRWgbNEkqO" ++ sn ++ bytes ",s=W22ZaJ0SNY7soEsUEjb6gQ==,i=4096")
      (bytes "biws") (bytes "rOprNGfwEbeRWgbNEkqO" ++ sn)).length = 244 := by
    have h1 : (bytes "n=user,r=rOprNGfwEbeRWgbNEkqO").length = 29 := rfl
    have h2 : (bytes "biws").length = 4 := rfl
    rw [auth_message_length, ← htext, hslen, hxl, h1, h2]
  rw [mech_step_clientproof_to_verify env _ _ (bytes "biws") p64
    (bytes "rOprNGfwEbeRWgbNEkqO" ++ sn) (bytes "n,,") cp ?_ hfinal0 (by rw [hfp])
    (by rw [hfp]; rfl) (by rw [hfp]; rfl) (by decide) (by rw [hfp]; rfl) hp64
    (by rw [hfp]; rfl) hrne ?_ ?_ rfl hdec ?_ ?_ hcp hcpl]
  · refine clientproof_verify_match env _ cp (bytes "biws")
      (bytes "rOprNGfwEbeRWgbNEkqO" ++ sn) cs sk sig sig64 ?_ ?_ hcs hsk heq hsig h64 holo hohi
    · show NONCE_LENGTH ≤ (auth_message (bytes "n=user,r=rOprNGfwEbeRWgbNEkqO")
        (bytes "r=rOprNGfwEbeRWgbNEkqO" ++ sn ++ bytes ",s=W22ZaJ0SNY7soEsUEjb6gQ==,i=4096")
        (bytes "biws") (bytes "rOprNGfwEbeRWgbNEkqO" ++ sn)).length
      rw [hamlen]; decide
    · show (auth_message (bytes "n=user,r=rOprNGfwEbeRWgbNEkqO")
        (bytes "r=rOprNGfwEbeRWgbNEkqO" ++ sn ++ bytes ",s=W22ZaJ0SNY7soEsUEjb6gQ==,i=4096")
        (bytes "biws") (bytes "rOprNGfwEbeRWgbNEkqO" ++ sn)).length < env.SASL_C2S_MAXLEN
      rw [hamlen, hmax]; decide
  · simp [render_attrs, render_attr]
  · show NONCE_LENGTH < (bytes "rOprNGfwEbeRWgbNEkqO" ++ sn).length
    rw [hxl]; decide
  · show (bytes "rOprNGfwEbeRWgbNEkqO" ++ sn).length < env.SASL_C2S_MAXLEN
    rw [hxl, hmax]; decide
  · show (bytes "n,,").length = (bytes "n,,n=user,r=rOprNGfwEbeRWgbNEkqO").length -
        (bytes "n=user,r=rOprNGfwEbeRWgbNEkqO").length
    decide
  · show List.take (bytes "n,,").length (List.take ((bytes "n,,n=user,r=rOprNGfwEbeRWgbNEkqO").length -
        (bytes "n=user,r=rOprNGfwEbeRWgbNEkqO").length)
        (bytes "n,,n=user,r=rOprNGfwEbeRWgbNEkqO")) = bytes "n,,"
    decide


set_option maxRecDepth 100000 in
theorem rfc7677_exchange_with_own_nonce_witness :
    sample_env.random_string NONCE_LENGTH = List.replicate 64 (chr 'A') ∧
    (List.replicate 64 (chr 'A')).length = 64 ∧
    sample_env.dbextract (sample_users 7).pass mech_start.db = (true, sample_db) ∧
    ∃ r1, mech_step_clientfirst sample_env sample_users mech_start
        (some (bytes "n,,n=user,r=rOprNGfwEbeRWgbNEkqO"))
        sample_env.PBKDF2_PRF_SCRAM_SHA2_256_S64 = some r1 ∧
      r1.ret = ASASL_MORE ∧
      r1.out = some (bytes "r=rOprNGfwEbeRWgbNEkqO" ++ List.replicate 64 (chr 'A') ++
        bytes ",s=W22ZaJ0SNY7soEsUEjb6gQ==,i=4096") ∧
      r1.s.step = SCRAMSHA_STEP_CLIENTPROOF ∧
      mech_step_clientproof sample_env r1.s (some (render_attrs [(chr 'c', bytes "biws"),
          (chr 'r', bytes "rOprNGfwEbeRWgbNEkqO" ++ List.replicate 64 (chr 'A')),
          (chr 'p', bytes "@@@@")])) =
        { ret := ASASL_MORE, s := { r1.s with step := SCRAMSHA_STEP_PASSED },
          out := some (bytes "v=" ++ [1, 2, 3, 4]) } :=
  ⟨by decide, by decide, by decide,
    rfc7677_exchange_with_own_nonce sample_env sample_users mech_start sample_db 7
      (List.replicate 64 (chr 'A')) (bytes "user") (bytes "@@@@") [64, 64, 64, 64]
      [5, 6, 7, 8] [5, 6, 7, 8] [1, 2, 3, 4] [1, 2, 3, 4]
      (by decide) (by decide) (by decide) (by decide) (by decide) (by decide) (by decide)
      (by decide) (by decide) (by decide) (by decide) (by decide) (by decide) (by decide)
      (by decide) (by decide) (by decide) (by decide) (by decide) (by decide) (by decide)
      (by decide) (by decide) (by decide) (by decide) (by decide) (by decide) (by decide)⟩


/-- C15: for every session past the client-first step (step ClientProof, Passed,
Failed or Errored; a session in Passed has a resolved user) and every input, a
step call returns and leaves in the session `c_gs2`, `c_msg`, `s_msg` and their
saved lengths, `cn`, `sn`, the reference to the user and the decoded verifier
as they were; and the client-proof step changes no field of the session other
than the step. -/
theorem mech_step_dispatch_transcript_frozen (env : scram_env) (users : user_store)
    (p : sasl_session) (s : scramsha_session) (inp : Option (List Byte)) (prf : Nat)
    (hp : p.mechdata = some s)
    (hs : s.step ≠ SCRAMSHA_STEP_CLIENTFIRST)
    (hmu : s.step = SCRAMSHA_STEP_PASSED → s.mu ≠ none) :
    (∃ r t, mech_step_dispatch env users (some p) inp prf = some r ∧
      r.p = some { p with mechdata := some t } ∧
      t.c_gs2_buf = s.c_gs2_buf ∧ t.c_gs2_len = s.c_gs2_len ∧
      t.c_msg_buf = s.c_msg_buf ∧ t.c_msg_len = s.c_msg_len ∧
      t.s_msg_buf = s.s_msg_buf ∧ t.s_msg_len = s.s_msg_len ∧
      t.cn = s.cn ∧ t.sn = s.sn ∧ t.mu = s.mu ∧ t.db = s.db) ∧
    (mech_step_clientproof env s inp).s =
      { s with step := (mech_step_clientproof env s inp).s.step } := by
  have hframe : (mech_step_clientproof env s inp).s =
      { s with step := (mech_step_clientproof env s inp).s.step } := by
    obtain ⟨st, hst⟩ := mech_step_clientproof_frame env s inp
    rw [hst]
  refine ⟨?_, hframe⟩
  have hpp : p = { p with mechdata := some s } := by
    cases p
    simp only at hp
    rw [hp]
  cases hstep : s.step with
  | SCRAMSHA_STEP_CLIENTFIRST => exact absurd hstep hs
  | SCRAMSHA_STEP_CLIENTPROOF =>
    refine ⟨{ ret := (mech_step_clientproof env s inp).ret,
              p := some { p with mechdata := some (mech_step_clientproof env s inp).s },
              users := users, out := (mech_step_clientproof env s inp).out },
      (mech_step_clientproof env s inp).s, ?_, rfl, ?_⟩
    · simp only [mech_step_dispatch, hp, hstep]
    · rw [hframe]
      exact ⟨rfl, rfl, rfl, rfl, rfl, rfl, rfl, rfl, rfl, rfl⟩
  | SCRAMSHA_STEP_PASSED =>
    obtain ⟨users1, hu⟩ := mech_step_success_done env users s (hmu hstep)
    refine ⟨{ ret := ASASL_DONE, p := some p, users := users1, out := none }, s, ?_, ?_,
      rfl, rfl, rfl, rfl, rfl, rfl, rfl, rfl, rfl, rfl⟩
    · simp [mech_step_dispatch, hp, hstep, hu]
    · exact congrArg some hpp
  | SCRAMSHA_STEP_FAILED =>
    refine ⟨{ ret := ASASL_FAIL, p := some p, users := users, out := none }, s, ?_, ?_,
      rfl, rfl, rfl, rfl, rfl, rfl, rfl, rfl, rfl, rfl⟩
    · simp [mech_step_dispatch, hp, hstep]
    · exact congrArg some hpp
  | SCRAMSHA_STEP_ERRORED =>
    refine ⟨{ ret := ASASL_ERROR, p := some p, users := users, out := none }, s, ?_, ?_,
      rfl, rfl, rfl, rfl, rfl, rfl, rfl, rfl, rfl, rfl⟩
    · simp [mech_step_dispatch, hp, hstep]
    · exact congrArg some hpp

set_option maxRecDepth 100000 in
theorem mech_step_dispatch_transcript_frozen_witness :
    (sample_session SCRAMSHA_STEP_CLIENTPROOF).step ≠ SCRAMSHA_STEP_CLIENTFIRST ∧
    (mech_step_clientproof sample_env (sample_session SCRAMSHA_STEP_CLIENTPROOF)
        (some (bytes "c=biws,r=abcAAAAAAAAAAAAAAAAAAAAAAAAAAAAAAAAAAAAAAAAAAAAAAAAAAAAAAAAAAAAAAAA,p=@@@@"))).s.step = SCRAMSHA_STEP_PASSED ∧
    (mech_step_clientproof sample_env (sample_session SCRAMSHA_STEP_CLIENTPROOF)
        (some (bytes "c=biws,r=abcAAAAAAAAAAAAAAAAAAAAAAAAAAAAAAAAAAAAAAAAAAAAAAAAAAAAAAAAAAAAAAAA,p=@@@@"))).s =
      { sample_session SCRAMSHA_STEP_CLIENTPROOF with
        step := (mech_step_clientproof sample_env (sample_session SCRAMSHA_STEP_CLIENTPROOF)
          (some (bytes "c=biws,r=abcAAAAAAAAAAAAAAAAAAAAAAAAAAAAAAAAAAAAAAAAAAAAAAAAAAAAAAAAAAAAAAAA,p=@@@@"))).s.step } :=
  ⟨by decide, by decide,
    (mech_step_dispatch_transcript_frozen sample_env sample_users
      { mechdata := some (sample_session SCRAMSHA_STEP_CLIENTPROOF) }
      (sample_session SCRAMSHA_STEP_CLIENTPROOF)
      (some (bytes "c=biws,r=abcAAAAAAAAAAAAAAAAAAAAAAAAAAAAAAAAAAAAAAAAAAAAAAAAAAAAAAAAAAAAAAAA,p=@@@@")) 25 rfl (by decide) (by decide)).2⟩

/-- The store after the same password is written twice to the same record. -/
theorem set_pass_idem (users : user_store) (mu : user_ref) (res : List Byte) :
    set_pass (set_pass users mu res) mu res = set_pass users mu res := by
  funext u
  simp only [set_pass]
  split_ifs <;> rfl

/-- C16: for every session in Passed whose decoded verifier has `scram` true,
the step returns Done and leaves the user store, and so the password field of
every user record, as it was. -/
theorem mech_step_success_scram (env : scram_env) (users : user_store) (p : sasl_session)
    (s : scramsha_session) (inp : Option (List Byte)) (prf : Nat)
    (hp : p.mechdata = some s) (hs : s.step = SCRAMSHA_STEP_PASSED)
    (hscram : s.db.scram = true) :
    mech_step_success env users s = some (ASASL_DONE, users) ∧
    ∃ r, mech_step_dispatch env users (some p) inp prf = some r ∧
      r.ret = ASASL_DONE ∧ r.users = users ∧ (∀ u, (r.users u).pass = (users u).pass) ∧
      r.p = some p ∧ r.out = none := by
  have h1 : mech_step_success env users s = some (ASASL_DONE, users) := by
    simp [mech_step_success, hscram]
  refine ⟨h1, { ret := ASASL_DONE, p := some p, users := users, out := none }, ?_, rfl, rfl,
    fun _ => rfl, rfl, rfl⟩
  simp [mech_step_dispatch, hp, hs, h1]

theorem mech_step_success_scram_witness :
    (sample_session SCRAMSHA_STEP_PASSED).db.scram = true ∧
    mech_step_success sample_env sample_users (sample_session SCRAMSHA_STEP_PASSED) =
      some (ASASL_DONE, sample_users) :=
  ⟨rfl, (mech_step_success_scram sample_env sample_users
    { mechdata := some (sample_session SCRAMSHA_STEP_PASSED) }
    (sample_session SCRAMSHA_STEP_PASSED) none 25 rfl rfl rfl).1⟩

/-- C17: for every session in Passed with a resolved user whose decoded verifier
is in the legacy form (`scram` false), the step returns Done in every case.
When both keys are encoded and the record `PBKDF2_FS_SAVEHASH` renders from the
PRF, the iteration count, salt64 and the base64 texts of ServerKey and
StoredKey is shorter than `PASSLEN` (and not shorter than the least length
line 513 asks for), the password field of the user is that record afterwards,
no other user record changes, and a second step call leaves the store as the
first left it. When an encoding fails or the record does not fit in `PASSLEN`
bytes, the user store is left as it was. -/
theorem mech_step_success_legacy (env : scram_env) (users : user_store)
    (s : scramsha_session) (mu : user_ref)
    (hlegacy : s.db.scram = false) (hmu : s.mu = some mu) :
    (∃ users1, mech_step_success env users s = some (ASASL_DONE, users1)) ∧
    (∀ ssk64 shk64 : List Byte,
      env.base64_encode (s.db.ssk.take s.db.dl) (DIGEST_MDLEN_MAX * 3) = some ssk64 →
      env.base64_encode (s.db.shk.take s.db.dl) (DIGEST_MDLEN_MAX * 3) = some shk64 →
      (env.PBKDF2_FS_SAVEHASH s.db.a s.db.c s.db.salt64 ssk64 shk64).length < env.PASSLEN →
      env.sizeof_PBKDF2_FS_SAVEHASH + env.PBKDF2_SALTLEN_MIN + 2 * s.db.dl ≤
        (env.PBKDF2_FS_SAVEHASH s.db.a s.db.c s.db.salt64 ssk64 shk64).length →
      ∃ users1, mech_step_success env users s = some (ASASL_DONE, users1) ∧
        (users1 mu).pass = env.PBKDF2_FS_SAVEHASH s.db.a s.db.c s.db.salt64 ssk64 shk64 ∧
        (users1 mu).flags = (users mu).flags ∧
        (∀ u, u ≠ mu → users1 u = users u) ∧
        mech_step_success env users1 s = some (ASASL_DONE, users1)) ∧
    ((env.base64_encode (s.db.ssk.take s.db.dl) (DIGEST_MDLEN_MAX * 3) = none ∨
      env.base64_encode (s.db.shk.take s.db.dl) (DIGEST_MDLEN_MAX * 3) = none ∨
      ∃ ssk64 shk64,
        env.base64_encode (s.db.ssk.take s.db.dl) (DIGEST_MDLEN_MAX * 3) = some ssk64 ∧
        env.base64_encode (s.db.shk.take s.db.dl) (DIGEST_MDLEN_MAX * 3) = some shk64 ∧
        env.PASSLEN ≤ (env.PBKDF2_FS_SAVEHASH s.db.a s.db.c s.db.salt64 ssk64 shk64).length) →
      mech_step_success env users s = some (ASASL_DONE, users)) := by
  refine ⟨mech_step_success_done env users s (by rw [hmu]; simp), ?_, ?_⟩
  · intro ssk64 shk64 h1 h2 h3 h4
    have h3' : ¬ (env.PBKDF2_FS_SAVEHASH s.db.a s.db.c s.db.salt64 ssk64 shk64).length ≥
        env.PASSLEN := by omega
    have h4' : ¬ (env.PBKDF2_FS_SAVEHASH s.db.a s.db.c s.db.salt64 ssk64 shk64).length <
        env.sizeof_PBKDF2_FS_SAVEHASH + env.PBKDF2_SALTLEN_MIN + 2 * s.db.dl := by omega
    have hstep : ∀ users0 : user_store, mech_step_success env users0 s =
        some (ASASL_DONE, set_pass users0 mu
          (env.PBKDF2_FS_SAVEHASH s.db.a s.db.c s.db.salt64 ssk64 shk64)) := by
      intro users0
      simp only [mech_step_success, hlegacy, Bool.false_eq_true, if_false, h1, h2, h3', h4', hmu]
    refine ⟨_, hstep users, ?_, ?_, ?_, ?_⟩
    · simp [set_pass]
    · simp [set_pass]
    · intro u hu
      simp [set_pass, hu]
    · rw [hstep, set_pass_idem]
  · intro h
    rcases h with h | h | ⟨ssk64, shk64, h1, h2, h3⟩
    · simp only [mech_step_success, hlegacy, Bool.false_eq_true, if_false, h]
    · cases h1 : env.base64_encode (s.db.ssk.take s.db.dl) (DIGEST_MDLEN_MAX * 3) with
      | none => simp only [mech_step_success, hlegacy, Bool.false_eq_true, if_false, h1]
      | some x => simp only [mech_step_success, hlegacy, Bool.false_eq_true, if_false, h1, h]
    · have h3' : (env.PBKDF2_FS_SAVEHASH s.db.a s.db.c s.db.salt64 ssk64 shk64).length ≥
          env.PASSLEN := h3
      simp only [mech_step_success, hlegacy, Bool.false_eq_true, if_false, h1, h2, h3', if_true]

set_option maxRecDepth 100000 in
theorem mech_step_success_legacy_witness :
    legacy_session.db.scram = false ∧ legacy_session.mu = some 7 ∧
    ∃ users1, mech_step_success legacy_env sample_users legacy_session =
        some (ASASL_DONE, users1) ∧
      (users1 7).pass =
        bytes "$25$4096$W22ZaJ0SNY7soEsUEjb6gQ==$" ++ [1, 2, 3, 4] ++ bytes "$" ++ [5, 6, 7, 8] ∧
      (users1 7).flags = (sample_users 7).flags ∧
      (∀ u, u ≠ 7 → users1 u = sample_users u) ∧
      mech_step_success legacy_env users1 legacy_session = some (ASASL_DONE, users1) :=
  ⟨rfl, rfl,
    (mech_step_success_legacy legacy_env sample_users legacy_session 7 rfl rfl).2.1
      [1, 2, 3, 4] [5, 6, 7, 8] (by decide) (by decide) (by decide) (by decide)⟩


/-- Every character `Nat.toDigitsCore 10` adds to the accumulator is a decimal
digit. -/
theorem toDigitsCore_digits (fuel : Nat) :
    ∀ (n : Nat) (acc : List Char),
      (∀ c ∈ acc, c.toNat ≠ 44) → ∀ c ∈ Nat.toDigitsCore 10 fuel n acc, c.toNat ≠ 44 := by
  induction fuel with
  | zero => intro n acc h; simpa [Nat.toDigitsCore] using h
  | succ k ih =>
    intro n acc h
    have hd : (Nat.digitChar (n % 10)).toNat ≠ 44 := by
      have hlt : n % 10 < 10 := Nat.mod_lt _ (by decide)
      generalize n % 10 = d at hlt
      interval_cases d <;> decide
    have hacc : ∀ c ∈ Nat.digitChar (n % 10) :: acc, c.toNat ≠ 44 := by
      intro c hc
      rcases List.mem_cons.mp hc with e | e
      · rw [e]; exact hd
      · exact h c e
    unfold Nat.toDigitsCore
    simp only
    split_ifs
    · exact hacc
    · exact ih _ _ hacc

/-- The decimal rendering of a number holds no comma. -/
theorem decimal_no_comma (n : Nat) : chr ',' ∉ decimal n := by
  intro h
  unfold decimal at h
  obtain ⟨c, hc, e⟩ := List.mem_map.mp h
  exact toDigitsCore_digits _ _ [] (by simp) c hc e

/-- A value the table holds after the assignments of a list was in the table
before or is the value of an attribute of the list. -/
theorem attrs_foldl_some (name : Byte) (v : List Byte) :
    ∀ (l : List (Byte × List Byte)) (attrs : scram_attr_list),
      (l.foldl (fun t a => attrs_set t a.1 a.2) attrs) name = some v →
      attrs name = some v ∨ ∃ a ∈ l, a.1 = name ∧ a.2 = v := by
  intro l
  induction l with
  | nil => intro attrs h; exact Or.inl h
  | cons b rest ih =>
    intro attrs h
    simp only [List.foldl_cons] at h
    rcases ih _ h with h1 | ⟨a, ha, hn, hv⟩
    · simp only [attrs_set] at h1
      split_ifs at h1 with hb
      · right
        exact ⟨b, List.mem_cons_self b rest, hb.symm, by simpa using h1⟩
      · exact Or.inl h1
    · exact Or.inr ⟨a, List.mem_cons_of_mem b ha, hn, hv⟩

/-- A value the parser has stored holds no comma. -/
theorem sasl_scramsha_attrlist_parse_value_no_comma (str : List Byte) (name : Byte)
    (v : List Byte) (hp : (sasl_scramsha_attrlist_parse str).1 = true)
    (hv : (sasl_scramsha_attrlist_parse str).2 name = some v) : chr ',' ∉ v := by
  unfold sasl_scramsha_attrlist_parse at hp hv
  cases hloop : attrlist_parse_loop (str.length + 1) str attrs_empty with
  | none => simp [hloop] at hp
  | some r =>
    simp only [hloop] at hp hv
    obtain ⟨ok, t⟩ := r
    simp only at hp hv
    subst hp
    obtain ⟨l, _, hok, _, ht⟩ := attrlist_parse_loop_grammar _ _ _ _ hloop
    rw [ht] at hv
    rcases attrs_foldl_some name v l attrs_empty hv with h | ⟨a, ha, _, hav⟩
    · simp [attrs_empty] at h
    · rw [← hav]; exact (hok a ha).2

/-- The server-first-message is the text of the three attributes `r`, `s` and
`i`. -/
theorem server_first_message_render (cn sn salt64 : List Byte) (c : Nat) :
    server_first_message cn sn salt64 c =
      render_attrs [(chr 'r', cn ++ sn), (chr 's', salt64), (chr 'i', decimal c)] := by
  simp [server_first_message, render_attrs, render_attr, bytes, chr]

/-- The parser on a server-first-message whose nonce and salt hold no comma
succeeds and leaves `r`, `s` and `i`, nothing else. -/
theorem server_first_message_parse (cn sn salt64 : List Byte) (c : Nat)
    (hcn : chr ',' ∉ cn) (hsn : chr ',' ∉ sn) (hsalt : chr ',' ∉ salt64) :
    (sasl_scramsha_attrlist_parse (server_first_message cn sn salt64 c)).1 = true ∧
    (sasl_scramsha_attrlist_parse (server_first_message cn sn salt64 c)).2 (chr 'r') =
      some (cn ++ sn) ∧
    (sasl_scramsha_attrlist_parse (server_first_message cn sn salt64 c)).2 (chr 's') =
      some salt64 ∧
    (sasl_scramsha_attrlist_parse (server_first_message cn sn salt64 c)).2 (chr 'i') =
      some (decimal c) ∧
    ∀ x : Nat, x ≠ chr 'r' → x ≠ chr 's' → x ≠ chr 'i' →
      (sasl_scramsha_attrlist_parse (server_first_message cn sn salt64 c)).2 x = none := by
  rw [server_first_message_render, sasl_scramsha_attrlist_parse_render _ (by simp)]
  · refine ⟨rfl, ?_, ?_, ?_, ?_⟩
    · simp [attrs_set, chr]
    · simp [attrs_set, chr]
    · simp [attrs_set, chr]
    · intro x hr hs hi
      simp only [List.foldl_cons, List.foldl_nil, attrs_set]
      rw [if_neg hi, if_neg hs, if_neg hr]
      rfl
  · intro a ha
    simp only [List.mem_cons, List.mem_singleton, List.not_mem_nil, or_false] at ha
    rcases ha with e | e | e
    · subst e
      exact ⟨(show invalid_attr_name (chr 'r') = false by decide), by
        simp only [List.mem_append, not_or]
        exact ⟨hcn, hsn⟩⟩
    · subst e; exact ⟨(show invalid_attr_name (chr 's') = false by decide), hsalt⟩
    · subst e
      exact ⟨(show invalid_attr_name (chr 'i') = false by decide), decimal_no_comma c⟩

/-- C21: round trip of the emitted list. On the server-first-message emitted by
a client-first step that returned More, `sasl_scramsha_attrlist_parse`
succeeds and yields exactly the mapping `r` to cn followed by sn, `s` to
salt64 and `i` to the decimal iteration count, every other name absent; the
server nonce drawn by `random_string` and the salt64 decoded by the database
helper are taken to hold no comma, as the alphabets of those two functions
have none. -/
theorem mech_step_clientfirst_round_trip (env : scram_env) (users : user_store)
    (s : scramsha_session) (inp : Option (List Byte)) (prf : Nat) (r : step_result)
    (h : mech_step_clientfirst env users s inp prf = some r) (hr : r.ret = ASASL_MORE)
    (hrand : chr ',' ∉ env.random_string NONCE_LENGTH)
    (hsalt : chr ',' ∉ r.s.db.salt64) :
    ∃ out, r.out = some out ∧
      (sasl_scramsha_attrlist_parse out).1 = true ∧
      (sasl_scramsha_attrlist_parse out).2 (chr 'r') = some (r.s.cn ++ r.s.sn) ∧
      (sasl_scramsha_attrlist_parse out).2 (chr 's') = some r.s.db.salt64 ∧
      (sasl_scramsha_attrlist_parse out).2 (chr 'i') = some (decimal r.s.db.c) ∧
      ∀ x : Nat, x ≠ chr 'r' → x ≠ chr 's' → x ≠ chr 'i' →
        (sasl_scramsha_attrlist_parse out).2 x = none := by
  obtain ⟨data, message, hdr, n, input_r, authcid, u, _, _, _, _, _, hparse, _, _, _, hir, _, _,
    _, _, _, _, _, _, _, _, hrec⟩ :=
    mech_step_clientfirst_more_full env users s inp prf r h hr
  have hcn : chr ',' ∉ input_r :=
    sasl_scramsha_attrlist_parse_value_no_comma message (chr 'r') input_r hparse hir
  rw [hrec] at hsalt ⊢
  exact ⟨_, rfl, server_first_message_parse input_r (env.random_string NONCE_LENGTH) _ _
    hcn hrand hsalt⟩

set_option maxRecDepth 100000 in
theorem mech_step_clientfirst_round_trip_witness :
    mech_step_clientfirst sample_env sample_users mech_start
        (some (bytes "n,,n=user,r=abc")) 25 =
      some (clientfirst_attrs sample_env sample_users mech_start
        (bytes "n,,n=user,r=abc") (bytes "n=user,r=abc") 25) ∧
    chr ',' ∉ sample_env.random_string NONCE_LENGTH ∧
    ∃ out, (clientfirst_attrs sample_env sample_users mech_start
        (bytes "n,,n=user,r=abc") (bytes "n=user,r=abc") 25).out = some out ∧
      (sasl_scramsha_attrlist_parse out).1 = true ∧
      (sasl_scramsha_attrlist_parse out).2 (chr 'i') = some (bytes "4096") :=
  ⟨by decide, by decide,
    (mech_step_clientfirst_round_trip sample_env sample_users mech_start
      (some (bytes "n,,n=user,r=abc")) 25 _ (by decide) (by decide) (by decide)
      (by decide)).imp
      (fun _ hx => ⟨hx.1, hx.2.1, hx.2.2.2.2.1⟩)⟩

/-- The C string at the start of a NUL-free list followed by a NUL is that
list. -/
theorem cstr_append (z rest : List Byte) (h0 : 0 ∉ z) :
    authcookie.cstr (z ++ 0 :: rest) = z := by
  induction z with
  | nil => simp [authcookie.cstr]
  | cons b t ih =>
    have hb : b ≠ 0 := fun e => h0 (by simp [e])
    have ht : 0 ∉ t := fun e => h0 (List.mem_cons_of_mem b e)
    have := ih ht
    simp only [authcookie.cstr] at this ⊢
    rw [List.cons_append, List.takeWhile_cons, this]
    simp [hb]

/-- The C string at the start of a NUL-free list is the list. -/
theorem cstr_self (z : List Byte) (h0 : 0 ∉ z) : authcookie.cstr z = z := by
  induction z with
  | nil => simp [authcookie.cstr]
  | cons b t ih =>
    have hb : b ≠ 0 := fun e => h0 (by simp [e])
    have ht : 0 ∉ t := fun e => h0 (List.mem_cons_of_mem b e)
    have := ih ht
    simp only [authcookie.cstr] at this ⊢
    rw [List.takeWhile_cons, this]
    simp [hb]

/-- A C string holds no NUL. -/
theorem cstr_no_nul (l : List Byte) : 0 ∉ authcookie.cstr l := by
  intro h
  have := List.mem_takeWhile_imp h
  simp at this

/-- The C string at a non-NUL byte is not empty. -/
theorem cstr_ne_nil (l : List Byte) (h : l.headD 0 ≠ 0) : authcookie.cstr l ≠ [] := by
  cases l with
  | nil => simp at h
  | cons b t =>
    have hb : b ≠ 0 := by simpa using h
    simp [authcookie.cstr, List.takeWhile, hb]

/-- A list longer than the C string at its start holds that string, a NUL, and
the bytes behind the NUL. -/
theorem cstr_split (l : List Byte) (h : (authcookie.cstr l).length < l.length) :
    l = authcookie.cstr l ++ 0 :: l.drop ((authcookie.cstr l).length + 1) := by
  induction l with
  | nil => simp at h
  | cons b t ih =>
    by_cases hb : b = 0
    · subst hb
      simp [authcookie.cstr, List.takeWhile]
    · have e : authcookie.cstr (b :: t) = b :: authcookie.cstr t := by
        simp [authcookie.cstr, List.takeWhile, hb]
      rw [e] at h ⊢
      simp only [List.length_cons, Nat.add_lt_add_iff_right] at h
      have := ih h
      simp only [List.length_cons, List.drop_succ_cons, List.cons_append, List.cons.injEq,
        true_and]
      exact this

/-- The verdict `ASASL_FAIL` of `mech_step` before any call into another
module. -/
theorem authcookie_mech_step_cases (e : authcookie.env) (data : List Byte) :
    authcookie.mech_step e (some data) =
        { ret := ASASL_FAIL, out := none, calls := [] } ∨
    ∃ z c k rest, data = z ++ 0 :: (c ++ 0 :: (k :: rest)) ∧
      z ≠ [] ∧ 0 ∉ z ∧ c ≠ [] ∧ 0 ∉ c ∧ k ≠ 0 ∧
      data.length < 2 * e.NICKLEN + e.AUTHCOOKIE_LENGTH + 3 ∧
      authcookie.mech_step e (some data) =
        authcookie.mech_step_logins e z c (authcookie.cstr (k :: rest)) := by
  unfold authcookie.mech_step
  simp only
  split_ifs with h1 h2 h3 h4 h5
  · exact Or.inl rfl
  · exact Or.inl rfl
  · exact Or.inl rfl
  · exact Or.inl rfl
  · exact Or.inl rfl
  · right
    simp only [not_or, not_le, ge_iff_le] at h2 h3 h4
    have hz := cstr_split data (by omega)
    have hlen1 : (data.drop ((authcookie.cstr data).length + 1)).length =
        data.length - ((authcookie.cstr data).length + 1) := List.length_drop _ _
    have hc := cstr_split (data.drop ((authcookie.cstr data).length + 1)) (by omega)
    rw [List.drop_drop] at hc
    have hk : ∃ k rest, data.drop ((authcookie.cstr data).length + 1 +
        ((authcookie.cstr (data.drop ((authcookie.cstr data).length + 1))).length + 1)) =
          k :: rest ∧ k ≠ 0 := by
      cases hd : data.drop ((authcookie.cstr data).length + 1 +
        ((authcookie.cstr (data.drop ((authcookie.cstr data).length + 1))).length + 1)) with
      | nil => rw [hd] at h5; simp at h5
      | cons k rest => rw [hd] at h5; exact ⟨k, rest, rfl, by simpa using h5⟩
    obtain ⟨k, rest, hkr, hk0⟩ := hk
    refine ⟨authcookie.cstr data,
      authcookie.cstr (data.drop ((authcookie.cstr data).length + 1)), k, rest, ?_,
      cstr_ne_nil _ h3.1, cstr_no_nul _, cstr_ne_nil _ h4.1, cstr_no_nul _, hk0, by omega, ?_⟩
    · rw [← hkr, ← hc]
      exact hz
    · rw [hkr]

/-- On an input of three segments within the bound of line 25, `mech_step`
comes to the login checks with the first two segments and the C string at the
third. -/
theorem authcookie_mech_step_segments (e : authcookie.env) (z c rest : List Byte) (k : Byte)
    (hz : z ≠ []) (hz0 : 0 ∉ z) (hc : c ≠ []) (hc0 : 0 ∉ c) (hk : k ≠ 0)
    (hlen : (z ++ 0 :: (c ++ 0 :: (k :: rest))).length <
      2 * e.NICKLEN + e.AUTHCOOKIE_LENGTH + 3) :
    authcookie.mech_step e (some (z ++ 0 :: (c ++ 0 :: (k :: rest)))) =
      authcookie.mech_step_logins e z c (authcookie.cstr (k :: rest)) := by
  have e1 : authcookie.cstr (z ++ 0 :: (c ++ 0 :: (k :: rest))) = z := cstr_append _ _ hz0
  have d1 : (z ++ 0 :: (c ++ 0 :: (k :: rest))).drop (z.length + 1) = c ++ 0 :: (k :: rest) := by
    rw [show z ++ 0 :: (c ++ 0 :: (k :: rest)) = (z ++ [0]) ++ (c ++ 0 :: (k :: rest)) by simp]
    exact List.drop_left' (by simp)
  have e2 : authcookie.cstr (c ++ 0 :: (k :: rest)) = c := cstr_append _ _ hc0
  have d2 : (z ++ 0 :: (c ++ 0 :: (k :: rest))).drop (z.length + 1 + (c.length + 1)) =
      k :: rest := by
    rw [← List.drop_drop, d1]
    rw [show c ++ 0 :: (k :: rest) = (c ++ [0]) ++ (k :: rest) by simp]
    exact List.drop_left' (by simp)
  have hzh : (z ++ 0 :: (c ++ 0 :: (k :: rest))).headD 0 ≠ 0 := by
    cases z with
    | nil => exact absurd rfl hz
    | cons b t => simpa using fun (e : b = 0) => hz0 (by simp [e])
  have hch : (c ++ 0 :: (k :: rest)).headD 0 ≠ 0 := by
    cases c with
    | nil => exact absurd rfl hc
    | cons b t => simpa using fun (e : b = 0) => hc0 (by simp [e])
  have hl : (z ++ 0 :: (c ++ 0 :: (k :: rest))).length = z.length + 1 + (c.length + 1) +
      (rest.length + 1) := by
    simp only [List.length_append, List.length_cons]
    omega
  unfold authcookie.mech_step
  simp only [e1, d1, e2, d2]
  rw [if_neg (by omega), if_neg (by omega), if_neg (by
    simp only [not_or]; exact ⟨hzh, by omega⟩), if_neg (by
    simp only [not_or]; exact ⟨hch, by omega⟩), if_neg (by simpa using hk)]

/-- The login checks return Done when all three succeed, else Fail, and write
no output frame. -/
theorem authcookie_mech_step_logins_done (e : authcookie.env) (z c k : List Byte) :
    ((authcookie.mech_step_logins e z c k).ret = ASASL_DONE ↔
      (e.authzid_can_login z = true ∧
        ∃ u, e.authcid_can_login c = authcid_result.allowed u ∧
          e.authcookie_find k u = true)) ∧
    ((authcookie.mech_step_logins e z c k).ret = ASASL_DONE ∨
      (authcookie.mech_step_logins e z c k).ret = ASASL_FAIL) ∧
    (authcookie.mech_step_logins e z c k).out = none := by
  unfold authcookie.mech_step_logins
  cases hz : e.authzid_can_login z with
  | false => simp
  | true =>
    cases hc : e.authcid_can_login c with
    | denied mu => simp
    | allowed u =>
      cases hk : e.authcookie_find k u with
      | false => simp [hk]
      | true => simp [hk]


/-- C22: on an AUTHCOOKIE input authzid 0x00 authcid 0x00 cookie of three
non-empty NUL-free segments and of total length below
2 * NICKLEN + AUTHCOOKIE_LENGTH + 3, `mech_step` returns Done if and only if
`authzid_can_login` accepts the authzid, `authcid_can_login` accepts the
authcid and yields a user, and `authcookie_find` finds the cookie for that
user; otherwise it returns Fail. On no input at all does it return More or
write an output frame. -/
theorem authcookie_mech_step_wellformed (e : authcookie.env)
    (authzid authcid cookie : List Byte)
    (hz : authzid ≠ []) (hz0 : 0 ∉ authzid) (hc : authcid ≠ []) (hc0 : 0 ∉ authcid)
    (hk : cookie ≠ []) (hk0 : 0 ∉ cookie)
    (hlen : (authzid ++ 0 :: (authcid ++ 0 :: cookie)).length <
      2 * e.NICKLEN + e.AUTHCOOKIE_LENGTH + 3) :
    ((authcookie.mech_step e (some (authzid ++ 0 :: (authcid ++ 0 :: cookie)))).ret = ASASL_DONE ↔
      (e.authzid_can_login authzid = true ∧
        ∃ u, e.authcid_can_login authcid = authcid_result.allowed u ∧
          e.authcookie_find cookie u = true)) ∧
    ((authcookie.mech_step e (some (authzid ++ 0 :: (authcid ++ 0 :: cookie)))).ret = ASASL_DONE ∨
      (authcookie.mech_step e (some (authzid ++ 0 :: (authcid ++ 0 :: cookie)))).ret =
        ASASL_FAIL) ∧
    (∀ inp : Option (List Byte), (authcookie.mech_step e inp).ret ≠ ASASL_MORE ∧
      (authcookie.mech_step e inp).out = none) := by
  refine ⟨?_, ?_, ?_⟩
  · match cookie, hk, hk0, hlen with
    | k :: rest, _, hk0, hlen =>
      have hk : k ≠ 0 := fun e => hk0 (by simp [e])
      rw [authcookie_mech_step_segments e authzid authcid rest k hz hz0 hc hc0 hk hlen,
        cstr_self _ hk0]
      exact (authcookie_mech_step_logins_done e authzid authcid (k :: rest)).1
  · match cookie, hk, hk0, hlen with
    | k :: rest, _, hk0, hlen =>
      have hk : k ≠ 0 := fun e => hk0 (by simp [e])
      rw [authcookie_mech_step_segments e authzid authcid rest k hz hz0 hc hc0 hk hlen]
      exact (authcookie_mech_step_logins_done e authzid authcid _).2.1
  · intro inp
    cases inp with
    | none => exact ⟨by simp [authcookie.mech_step], rfl⟩
    | some data =>
      rcases authcookie_mech_step_cases e data with h | ⟨z, c, k, rest, _, _, _, _, _, _, _, h⟩
      · rw [h]; exact ⟨by simp, rfl⟩
      · rw [h]
        have hl := authcookie_mech_step_logins_done e z c (authcookie.cstr (k :: rest))
        refine ⟨?_, hl.2.2⟩
        rcases hl.2.1 with h1 | h1 <;> rw [h1] <;> simp

set_option maxRecDepth 100000 in
theorem authcookie_mech_step_wellformed_witness :
    (authcookie.mech_step sample_authcookie_env
      (some (bytes "user" ++ 0 :: (bytes "user" ++ 0 :: bytes "abcdefghijklmnopqrst")))).ret =
        ASASL_DONE ∧
    (authcookie.mech_step sample_authcookie_env
      (some (bytes "user" ++ 0 :: (bytes "user" ++ 0 :: bytes "abcdefghijklmnopqrsu")))).ret =
        ASASL_FAIL :=
  ⟨(authcookie_mech_step_wellformed sample_authcookie_env (bytes "user") (bytes "user")
      (bytes "abcdefghijklmnopqrst") (by decide) (by decide) (by decide) (by decide) (by decide)
      (by decide) (by decide)).1.mpr ⟨by decide, 7, by decide, by decide⟩,
    by decide⟩

set_option maxRecDepth 100000 in
/-- C23, as the code behaves: an input with trailing data behind the cookie,
whose authzid, authcid and cookie are all valid and whose cookie is in the
store, returns Done. -/
theorem authcookie_mech_step_trailing_data_done :
    sample_authcookie_env.authzid_can_login (bytes "user") = true ∧
    sample_authcookie_env.authcid_can_login (bytes "user") = authcid_result.allowed 7 ∧
    sample_authcookie_env.authcookie_find (bytes "abcdefghijklmnopqrst") 7 = true ∧
    (bytes "user" ++ 0 :: (bytes "user" ++ 0 :: (bytes "abcdefghijklmnopqrst" ++
      0 :: bytes "extra"))).length <
        2 * sample_authcookie_env.NICKLEN + sample_authcookie_env.AUTHCOOKIE_LENGTH + 3 ∧
    (authcookie.mech_step sample_authcookie_env
      (some (bytes "user" ++ 0 :: (bytes "user" ++ 0 :: (bytes "abcdefghijklmnopqrst" ++
        0 :: bytes "extra"))))).ret = ASASL_DONE := by
  decide

/-- C23, amended: on an AUTHCOOKIE input with trailing data behind the cookie
(authzid 0x00 authcid 0x00 cookie 0x00 extra) of total length below
2 * NICKLEN + AUTHCOOKIE_LENGTH + 3, `mech_step` does not look at the
trailing data: it returns what it returns on authzid 0x00 authcid 0x00 cookie,
Done exactly when the authzid, the authcid and the cookie are all valid, else
Fail; an input whose total length reaches that bound returns Fail. -/
theorem authcookie_mech_step_trailing_data (e : authcookie.env)
    (authzid authcid cookie extra : List Byte)
    (hz : authzid ≠ []) (hz0 : 0 ∉ authzid) (hc : authcid ≠ []) (hc0 : 0 ∉ authcid)
    (hk : cookie ≠ []) (hk0 : 0 ∉ cookie) :
    ((authzid ++ 0 :: (authcid ++ 0 :: (cookie ++ 0 :: extra))).length <
        2 * e.NICKLEN + e.AUTHCOOKIE_LENGTH + 3 →
      authcookie.mech_step e (some (authzid ++ 0 :: (authcid ++ 0 :: (cookie ++ 0 :: extra)))) =
        authcookie.mech_step e (some (authzid ++ 0 :: (authcid ++ 0 :: cookie))) ∧
      ((authcookie.mech_step e
          (some (authzid ++ 0 :: (authcid ++ 0 :: (cookie ++ 0 :: extra))))).ret = ASASL_DONE ↔
        (e.authzid_can_login authzid = true ∧
          ∃ u, e.authcid_can_login authcid = authcid_result.allowed u ∧
            e.authcookie_find cookie u = true)) ∧
      ((authcookie.mech_step e
          (some (authzid ++ 0 :: (authcid ++ 0 :: (cookie ++ 0 :: extra))))).ret = ASASL_DONE ∨
        (authcookie.mech_step e
          (some (authzid ++ 0 :: (authcid ++ 0 :: (cookie ++ 0 :: extra))))).ret = ASASL_FAIL)) ∧
    (2 * e.NICKLEN + e.AUTHCOOKIE_LENGTH + 3 ≤
        (authzid ++ 0 :: (authcid ++ 0 :: (cookie ++ 0 :: extra))).length →
      (authcookie.mech_step e
        (some (authzid ++ 0 :: (authcid ++ 0 :: (cookie ++ 0 :: extra))))).ret = ASASL_FAIL) := by
  constructor
  · intro hlen
    match cookie, hk, hk0, hlen with
    | k :: rest, _, hk0, hlen =>
      have hk : k ≠ 0 := fun e => hk0 (by simp [e])
      have hshort : (authzid ++ 0 :: (authcid ++ 0 :: (k :: rest))).length <
          2 * e.NICKLEN + e.AUTHCOOKIE_LENGTH + 3 := by
        simp only [List.length_append, List.length_cons] at hlen ⊢
        omega
      have e1 := authcookie_mech_step_segments e authzid authcid (rest ++ 0 :: extra) k
        hz hz0 hc hc0 hk hlen
      have e2 := authcookie_mech_step_segments e authzid authcid rest k hz hz0 hc hc0 hk hshort
      have c1 : authcookie.cstr (k :: (rest ++ 0 :: extra)) = k :: rest :=
        cstr_append (k :: rest) extra hk0
      rw [c1] at e1
      rw [cstr_self _ hk0] at e2
      rw [List.cons_append, e1, e2]
      exact ⟨rfl, (authcookie_mech_step_logins_done e authzid authcid (k :: rest)).1,
        (authcookie_mech_step_logins_done e authzid authcid (k :: rest)).2.1⟩
  · intro hlen
    unfold authcookie.mech_step
    simp only
    rw [if_pos (show (authzid ++ 0 :: (authcid ++ 0 :: (cookie ++ 0 :: extra))).length ≥
      e.NICKLEN + 1 + e.NICKLEN + 1 + e.AUTHCOOKIE_LENGTH + 1 by omega)]
    split_ifs <;> rfl

set_option maxRecDepth 100000 in
theorem authcookie_mech_step_trailing_data_witness :
    (authcookie.mech_step sample_authcookie_env
      (some (bytes "user" ++ 0 :: (bytes "user" ++ 0 :: (bytes "abcdefghijklmnopqrst" ++
        0 :: bytes "extra"))))).ret = ASASL_DONE :=
  ((authcookie_mech_step_trailing_data sample_authcookie_env (bytes "user") (bytes "user")
      (bytes "abcdefghijklmnopqrst") (bytes "extra") (by decide) (by decide) (by decide)
      (by decide) (by decide) (by decide)).1 (by decide)).2.1.mpr
    ⟨by decide, 7, by decide, by decide⟩

/-- C24: on an AUTHCOOKIE input that is absent or empty, or whose length is
2 * NICKLEN + AUTHCOOKIE_LENGTH + 3 or more, or that is not an authzid, a NUL,
an authcid, a NUL and at least one non-NUL byte with both names non-empty (so
that the authzid, the authcid or the cookie is empty or missing), `mech_step`
returns Fail and has called neither `authzid_can_login` nor
`authcid_can_login` nor `authcookie_find`. -/
theorem authcookie_mech_step_malformed (e : authcookie.env) (inp : Option (List Byte))
    (h : inp = none ∨ inp = some [] ∨ ∃ data, inp = some data ∧
      (2 * e.NICKLEN + e.AUTHCOOKIE_LENGTH + 3 ≤ data.length ∨
        ¬ ∃ z c k rest, data = z ++ 0 :: (c ++ 0 :: (k :: rest)) ∧
          z ≠ [] ∧ 0 ∉ z ∧ c ≠ [] ∧ 0 ∉ c ∧ k ≠ 0)) :
    (authcookie.mech_step e inp).ret = ASASL_FAIL ∧
    (authcookie.mech_step e inp).out = none ∧
    (authcookie.mech_step e inp).calls = [] := by
  rcases h with h | h | ⟨data, h, hd⟩
  · subst h; exact ⟨rfl, rfl, rfl⟩
  · subst h; exact ⟨rfl, rfl, rfl⟩
  · subst h
    rcases authcookie_mech_step_cases e data with
      hf | ⟨z, c, k, rest, hdata, hz, hz0, hc, hc0, hk, hlen, _⟩
    · rw [hf]; exact ⟨rfl, rfl, rfl⟩
    · rcases hd with hd | hd
      · omega
      · exact absurd ⟨z, c, k, rest, hdata, hz, hz0, hc, hc0, hk⟩ hd

set_option maxRecDepth 100000 in
theorem authcookie_mech_step_malformed_witness :
    (authcookie.mech_step sample_authcookie_env
      (some (bytes "user" ++ 0 :: 0 :: bytes "abcdefghijklmnopqrst"))).ret = ASASL_FAIL ∧
    (authcookie.mech_step sample_authcookie_env
      (some (bytes "user" ++ 0 :: 0 :: bytes "abcdefghijklmnopqrst"))).calls = [] :=
  have h := authcookie_mech_step_malformed sample_authcookie_env
    (some (bytes "user" ++ 0 :: 0 :: bytes "abcdefghijklmnopqrst"))
    (Or.inr (Or.inr ⟨_, rfl, Or.inr (by
      rintro ⟨z, c, k, rest, hdata, _, hz0, hc, hc0, _⟩
      have hcs := cstr_append z (c ++ 0 :: (k :: rest)) hz0
      rw [← hdata] at hcs
      have hz : z = bytes "user" := by rw [← hcs]; decide
      subst hz
      have hrest : (0 : Byte) :: bytes "abcdefghijklmnopqrst" = c ++ 0 :: (k :: rest) := by
        have := List.append_cancel_left hdata
        simpa using this
      cases c with
      | nil => exact hc rfl
      | cons b t =>
        have hb : b = 0 := by
          have := congrArg List.head? hrest
          simpa using this.symm
        exact hc0 (by simp [hb]))⟩))
  ⟨h.1, h.2.2⟩

/-- C25: whatever the registry held before and whatever the configuration,
after `sasl_scramsha_pbkdf2v2_confhook` the registered SCRAM mechanisms are
SCRAM-SHA-1 alone when `prf` is the SCRAM-SHA-1 PRF, SCRAM-SHA-256 alone when
it is the SCRAM-SHA-256 PRF, and none for every other `prf`; the two are never
registered together, and no other mechanism is touched. The two PRF
constants are distinct, being `case` labels of one `switch`. -/
theorem sasl_scramsha_pbkdf2v2_confhook_registry (env : scram_env) (reg : mech_registry)
    (prf iter saltlen : Nat)
    (hcase : env.PBKDF2_PRF_SCRAM_SHA1_S64 ≠ env.PBKDF2_PRF_SCRAM_SHA2_256_S64) :
    (prf = env.PBKDF2_PRF_SCRAM_SHA1_S64 →
      sasl_scramsha_pbkdf2v2_confhook env reg prf iter saltlen sasl_scramsha_mech_sha1 = true ∧
      sasl_scramsha_pbkdf2v2_confhook env reg prf iter saltlen sasl_scramsha_mech_sha2_256 =
        false) ∧
    (prf = env.PBKDF2_PRF_SCRAM_SHA2_256_S64 →
      sasl_scramsha_pbkdf2v2_confhook env reg prf iter saltlen sasl_scramsha_mech_sha1 = false ∧
      sasl_scramsha_pbkdf2v2_confhook env reg prf iter saltlen sasl_scramsha_mech_sha2_256 =
        true) ∧
    (prf ≠ env.PBKDF2_PRF_SCRAM_SHA1_S64 → prf ≠ env.PBKDF2_PRF_SCRAM_SHA2_256_S64 →
      sasl_scramsha_pbkdf2v2_confhook env reg prf iter saltlen sasl_scramsha_mech_sha1 = false ∧
      sasl_scramsha_pbkdf2v2_confhook env reg prf iter saltlen sasl_scramsha_mech_sha2_256 =
        false) ∧
    ¬ (sasl_scramsha_pbkdf2v2_confhook env reg prf iter saltlen sasl_scramsha_mech_sha1 = true ∧
      sasl_scramsha_pbkdf2v2_confhook env reg prf iter saltlen sasl_scramsha_mech_sha2_256 =
        true) ∧
    (∀ m : sasl_mechanism, m ≠ sasl_scramsha_mech_sha1 → m ≠ sasl_scramsha_mech_sha2_256 →
      sasl_scramsha_pbkdf2v2_confhook env reg prf iter saltlen m = reg m) := by
  have hne : sasl_scramsha_mech_sha1 ≠ sasl_scramsha_mech_sha2_256 := by decide
  have hne2 : sasl_scramsha_mech_sha2_256 ≠ sasl_scramsha_mech_sha1 := by decide
  refine ⟨?_, ?_, ?_, ?_, ?_⟩
  · intro h
    simp [sasl_scramsha_pbkdf2v2_confhook, sasl_scramsha_mechs_unregister, mech_register,
      mech_unregister, h, hne2]
  · intro h
    have h2 : ¬ env.PBKDF2_PRF_SCRAM_SHA2_256_S64 = env.PBKDF2_PRF_SCRAM_SHA1_S64 :=
      fun e => hcase e.symm
    simp [sasl_scramsha_pbkdf2v2_confhook, sasl_scramsha_mechs_unregister, mech_register,
      mech_unregister, h, h2, hne]
  · intro h1 h2
    simp [sasl_scramsha_pbkdf2v2_confhook, sasl_scramsha_mechs_unregister, mech_register,
      mech_unregister, h1, h2, hne]
  · unfold sasl_scramsha_pbkdf2v2_confhook
    split_ifs <;>
      simp [sasl_scramsha_mechs_unregister, mech_register, mech_unregister, hne, hne2]
  · intro m h1 h2
    unfold sasl_scramsha_pbkdf2v2_confhook
    split_ifs <;>
      simp [sasl_scramsha_mechs_unregister, mech_register, mech_unregister, h1, h2]

theorem sasl_scramsha_pbkdf2v2_confhook_registry_witness :
    sample_registry sasl_scramsha_mech_sha1 = true ∧
    sample_registry sasl_scramsha_mech_sha2_256 = true ∧
    sasl_scramsha_pbkdf2v2_confhook sample_env sample_registry 25 4096 16
      sasl_scramsha_mech_sha1 = false ∧
    sasl_scramsha_pbkdf2v2_confhook sample_env sample_registry 25 4096 16
      sasl_scramsha_mech_sha2_256 = true :=
  ⟨by decide, by decide,
    (sasl_scramsha_pbkdf2v2_confhook_registry sample_env sample_registry 25 4096 16
      (by decide)).2.1 rfl⟩

/-- In the mbedTLS frontend the updates of a caller that streams the segments
of a byte string succeed when the one update with the whole string succeeds,
and then leave the same context, for a library whose update functions take a
string in two parts as they take it whole. -/
theorem mbedtls_digest_updates_flatten {σ : Type} (lib : digest_fe_mbedtls.mbedtls σ)
    (hu : ∀ (st : σ) (a b : List Byte), a ≠ [] → b ≠ [] →
      lib.mbedtls_md_update st (a ++ b) =
        (lib.mbedtls_md_update st a).bind (fun s => lib.mbedtls_md_update s b))
    (hh : ∀ (st : σ) (a b : List Byte), a ≠ [] → b ≠ [] →
      lib.mbedtls_md_hmac_update st (a ++ b) =
        (lib.mbedtls_md_hmac_update st a).bind (fun s => lib.mbedtls_md_hmac_update s b)) :
    ∀ (segs : List (List Byte)) (ctx : digest_fe_mbedtls.digest_context σ),
      (digest_fe_mbedtls.digest_updates lib (some ctx) segs).1 =
        (digest_fe_mbedtls.digest_update lib (some ctx) (some segs.flatten)).1 ∧
      ((digest_fe_mbedtls.digest_updates lib (some ctx) segs).1 = true →
        (digest_fe_mbedtls.digest_updates lib (some ctx) segs).2 =
          (digest_fe_mbedtls.digest_update lib (some ctx) (some segs.flatten)).2) := by
  have hf : ∀ (hmac : Bool) (st : σ) (a b : List Byte), a ≠ [] → b ≠ [] →
      (if hmac then lib.mbedtls_md_hmac_update st (a ++ b)
        else lib.mbedtls_md_update st (a ++ b)) =
      (if hmac then lib.mbedtls_md_hmac_update st a else lib.mbedtls_md_update st a).bind
        (fun s => if hmac then lib.mbedtls_md_hmac_update s b
          else lib.mbedtls_md_update s b) := by
    intro hmac st a b ha hb
    cases hmac
    · simpa using hu st a b ha hb
    · simpa using hh st a b ha hb
  have hnil : ∀ ctx : digest_fe_mbedtls.digest_context σ,
      digest_fe_mbedtls.digest_update lib (some ctx) (some []) = (true, some ctx) := by
    intro ctx; rfl
  have hcons : ∀ (ctx : digest_fe_mbedtls.digest_context σ) (d : List Byte), d ≠ [] →
      digest_fe_mbedtls.digest_update lib (some ctx) (some d) =
        match (if ctx.hmac then lib.mbedtls_md_hmac_update ctx.state d
          else lib.mbedtls_md_update ctx.state d) with
        | none => (false, some ctx)
        | some st => (true, some { ctx with state := st }) := by
    intro ctx d hd
    have hl : ¬ d.length = 0 := fun e => hd (List.length_eq_zero.mp e)
    simp only [digest_fe_mbedtls.digest_update, hl, if_false]
  intro segs
  induction segs with
  | nil =>
    intro ctx
    exact ⟨rfl, fun _ => rfl⟩
  | cons a rest ih =>
    intro ctx
    by_cases ha : a = []
    · subst ha
      simp only [digest_fe_mbedtls.digest_updates, hnil, List.flatten_cons, List.nil_append,
        Bool.not_true, Bool.false_eq_true, if_false]
      exact ih ctx
    · simp only [digest_fe_mbedtls.digest_updates, List.flatten_cons]
      by_cases hj : rest.flatten = []
      · have hrest : ∀ c : digest_fe_mbedtls.digest_context σ,
            digest_fe_mbedtls.digest_updates lib (some c) rest = (true, some c) := by
          intro c
          have h := ih c
          rw [hj, hnil] at h
          exact Prod.ext h.1 (h.2 h.1)
        rw [hj, List.append_nil, hcons ctx a ha]
        cases hfeed : (if ctx.hmac then lib.mbedtls_md_hmac_update ctx.state a
            else lib.mbedtls_md_update ctx.state a) with
        | none => simp
        | some st => simp [hrest]
      · have hja : a ++ rest.flatten ≠ [] := by simp [ha]
        rw [hcons ctx a ha, hcons ctx _ hja, hf ctx.hmac ctx.state a _ ha hj]
        cases hfeed : (if ctx.hmac then lib.mbedtls_md_hmac_update ctx.state a
            else lib.mbedtls_md_update ctx.state a) with
        | none => simp
        | some st =>
          have h := ih { ctx with state := st }
          rw [hcons _ _ hj] at h
          simp only [Option.some_bind, Bool.not_true, Bool.false_eq_true, if_false]
          cases hfeed2 : (if ctx.hmac then lib.mbedtls_md_hmac_update st rest.flatten
              else lib.mbedtls_md_update st rest.flatten) with
          | none =>
            simp only [hfeed2] at h
            exact ⟨h.1, fun e => absurd (h.1 ▸ e) (by simp)⟩
          | some st2 =>
            simp only [hfeed2] at h
            exact h

/-- In the mbedTLS frontend the calls behind the initialisation are the same
for a caller that streams the segments and for one that passes the whole
string at once. -/
theorem mbedtls_digest_stream_core {σ : Type} (lib : digest_fe_mbedtls.mbedtls σ)
    (hu : ∀ (st : σ) (a b : List Byte), a ≠ [] → b ≠ [] →
      lib.mbedtls_md_update st (a ++ b) =
        (lib.mbedtls_md_update st a).bind (fun s => lib.mbedtls_md_update s b))
    (hh : ∀ (st : σ) (a b : List Byte), a ≠ [] → b ≠ [] →
      lib.mbedtls_md_hmac_update st (a ++ b) =
        (lib.mbedtls_md_hmac_update st a).bind (fun s => lib.mbedtls_md_hmac_update s b))
    (segs : List (List Byte)) (ctx : digest_fe_mbedtls.digest_context σ)
    (out : Option (List Byte)) (outLen : Option Nat) :
    (if ! (digest_fe_mbedtls.digest_updates lib (some ctx) segs).1 then
        ({ ret := false, out := out, outLen := outLen } : digest_result)
      else
        { ret := (digest_fe_mbedtls.digest_final lib
            (digest_fe_mbedtls.digest_updates lib (some ctx) segs).2 out outLen).ret
          out := (digest_fe_mbedtls.digest_final lib
            (digest_fe_mbedtls.digest_updates lib (some ctx) segs).2 out outLen).out
          outLen := (digest_fe_mbedtls.digest_final lib
            (digest_fe_mbedtls.digest_updates lib (some ctx) segs).2 out outLen).outLen }) =
    (if ! (digest_fe_mbedtls.digest_update lib (some ctx) (some segs.flatten)).1 then
        ({ ret := false, out := out, outLen := outLen } : digest_result)
      else
        { ret := (digest_fe_mbedtls.digest_final lib
            (digest_fe_mbedtls.digest_update lib (some ctx) (some segs.flatten)).2 out outLen).ret
          out := (digest_fe_mbedtls.digest_final lib
            (digest_fe_mbedtls.digest_update lib (some ctx) (some segs.flatten)).2 out outLen).out
          outLen := (digest_fe_mbedtls.digest_final lib
            (digest_fe_mbedtls.digest_update lib (some ctx) (some segs.flatten)).2 out
              outLen).outLen }) := by
  obtain ⟨h1, h2⟩ := mbedtls_digest_updates_flatten lib hu hh segs ctx
  cases hb : (digest_fe_mbedtls.digest_updates lib (some ctx) segs).1 with
  | false =>
    rw [hb] at h1
    simp [← h1]
  | true =>
    rw [hb] at h1
    rw [← h2 hb]
    simp [← h1]

/-- What `digest_init` of the mbedTLS frontend returns with `true` is a
context. -/
theorem mbedtls_digest_init_some {σ : Type} (lib : digest_fe_mbedtls.mbedtls σ) (alg : Nat) :
    ∃ ctx, (digest_fe_mbedtls.digest_init lib (some ()) alg).2 = some ctx := by
  unfold digest_fe_mbedtls.digest_init
  simp only
  split
  · exact ⟨_, rfl⟩
  · split
    · exact ⟨_, rfl⟩
    · split
      · exact ⟨_, rfl⟩
      · exact ⟨_, rfl⟩

/-- What `digest_init_hmac` of the mbedTLS frontend returns with `true` is a
context. -/
theorem mbedtls_digest_init_hmac_some {σ : Type} (lib : digest_fe_mbedtls.mbedtls σ)
    (alg : Nat) (key : List Byte) :
    ∃ ctx, (digest_fe_mbedtls.digest_init_hmac lib (some ()) alg key).2 = some ctx := by
  unfold digest_fe_mbedtls.digest_init_hmac
  simp only
  split
  · exact ⟨_, rfl⟩
  · split
    · exact ⟨_, rfl⟩
    · split
      · exact ⟨_, rfl⟩
      · exact ⟨_, rfl⟩

/-- With a null `out` a caller that streams ends with `false`, as
`digest_oneshot` does. -/
theorem mbedtls_digest_final_null_out {σ : Type} (lib : digest_fe_mbedtls.mbedtls σ)
    (ctx : Option (digest_fe_mbedtls.digest_context σ)) (outLen : Option Nat) :
    (digest_fe_mbedtls.digest_final lib ctx none outLen).ret = false ∧
    (digest_fe_mbedtls.digest_final lib ctx none outLen).out = none ∧
    (digest_fe_mbedtls.digest_final lib ctx none outLen).outLen = outLen := by
  cases ctx <;> exact ⟨rfl, rfl, rfl⟩

/-- Streaming equivalence in the mbedTLS frontend, hash mode. -/
theorem mbedtls_digest_stream_eq {σ : Type} (lib : digest_fe_mbedtls.mbedtls σ)
    (hu : ∀ (st : σ) (a b : List Byte), a ≠ [] → b ≠ [] →
      lib.mbedtls_md_update st (a ++ b) =
        (lib.mbedtls_md_update st a).bind (fun s => lib.mbedtls_md_update s b))
    (hh : ∀ (st : σ) (a b : List Byte), a ≠ [] → b ≠ [] →
      lib.mbedtls_md_hmac_update st (a ++ b) =
        (lib.mbedtls_md_hmac_update st a).bind (fun s => lib.mbedtls_md_hmac_update s b))
    (alg : Nat) (segs : List (List Byte)) (out : Option (List Byte)) (outLen : Option Nat) :
    digest_fe_mbedtls.digest_stream lib alg segs out outLen =
      digest_fe_mbedtls.digest_oneshot lib alg (some segs.flatten) out outLen := by
  obtain ⟨ctx, hctx⟩ := mbedtls_digest_init_some lib alg
  unfold digest_fe_mbedtls.digest_stream digest_fe_mbedtls.digest_oneshot
  simp only [hctx]
  cases out with
  | none =>
    obtain ⟨f1, f2, f3⟩ := mbedtls_digest_final_null_out lib
      (digest_fe_mbedtls.digest_updates lib (some ctx) segs).2 outLen
    simp only [f1, f2, f3]
    split_ifs <;> rfl
  | some buf =>
    simp only
    cases hi : (digest_fe_mbedtls.digest_init lib (some ()) alg).1 with
    | false => rfl
    | true =>
      simp only [Bool.not_true, Bool.false_eq_true, if_false]
      exact mbedtls_digest_stream_core lib hu hh segs ctx (some buf) outLen

/-- Streaming equivalence in the mbedTLS frontend, HMAC mode. -/
theorem mbedtls_digest_stream_hmac_eq {σ : Type} (lib : digest_fe_mbedtls.mbedtls σ)
    (hu : ∀ (st : σ) (a b : List Byte), a ≠ [] → b ≠ [] →
      lib.mbedtls_md_update st (a ++ b) =
        (lib.mbedtls_md_update st a).bind (fun s => lib.mbedtls_md_update s b))
    (hh : ∀ (st : σ) (a b : List Byte), a ≠ [] → b ≠ [] →
      lib.mbedtls_md_hmac_update st (a ++ b) =
        (lib.mbedtls_md_hmac_update st a).bind (fun s => lib.mbedtls_md_hmac_update s b))
    (alg : Nat) (key : List Byte) (segs : List (List Byte)) (out : Option (List Byte))
    (outLen : Option Nat) :
    digest_fe_mbedtls.digest_stream_hmac lib alg key segs out outLen =
      digest_fe_mbedtls.digest_oneshot_hmac lib alg key (some segs.flatten) out outLen := by
  obtain ⟨ctx, hctx⟩ := mbedtls_digest_init_hmac_some lib alg key
  unfold digest_fe_mbedtls.digest_stream_hmac digest_fe_mbedtls.digest_oneshot_hmac
  simp only [hctx]
  cases out with
  | none =>
    obtain ⟨f1, f2, f3⟩ := mbedtls_digest_final_null_out lib
      (digest_fe_mbedtls.digest_updates lib (some ctx) segs).2 outLen
    simp only [f1, f2, f3]
    split_ifs <;> rfl
  | some buf =>
    simp only
    cases hi : (digest_fe_mbedtls.digest_init_hmac lib (some ()) alg key).1 with
    | false => rfl
    | true =>
      simp only [Bool.not_true, Bool.false_eq_true, if_false]
      exact mbedtls_digest_stream_core lib hu hh segs ctx (some buf) outLen


/-- In the OpenSSL frontend the updates of a caller that streams the segments
of a byte string succeed when the one update with the whole string succeeds,
and then leave the same context, for a library whose update functions take a
string in two parts as they take it whole. -/
theorem openssl_digest_updates_flatten {σ : Type} (lib : digest_fe_openssl.openssl σ)
    (hu : ∀ (st : σ) (a b : List Byte), a ≠ [] → b ≠ [] →
      lib.EVP_DigestUpdate st (a ++ b) =
        (lib.EVP_DigestUpdate st a).bind (fun s => lib.EVP_DigestUpdate s b))
    (hh : ∀ (st : σ) (a b : List Byte), a ≠ [] → b ≠ [] →
      lib.HMAC_Update st (a ++ b) =
        (lib.HMAC_Update st a).bind (fun s => lib.HMAC_Update s b)) :
    ∀ (segs : List (List Byte)) (ctx : digest_fe_openssl.digest_context σ),
      (digest_fe_openssl.digest_updates lib (some ctx) segs).1 =
        (digest_fe_openssl.digest_update lib (some ctx) (some segs.flatten)).1 ∧
      ((digest_fe_openssl.digest_updates lib (some ctx) segs).1 = true →
        (digest_fe_openssl.digest_updates lib (some ctx) segs).2 =
          (digest_fe_openssl.digest_update lib (some ctx) (some segs.flatten)).2) := by
  have hf : ∀ (hmac : Bool) (st : σ) (a b : List Byte), a ≠ [] → b ≠ [] →
      (if hmac then lib.HMAC_Update st (a ++ b)
        else lib.EVP_DigestUpdate st (a ++ b)) =
      (if hmac then lib.HMAC_Update st a else lib.EVP_DigestUpdate st a).bind
        (fun s => if hmac then lib.HMAC_Update s b
          else lib.EVP_DigestUpdate s b) := by
    intro hmac st a b ha hb
    cases hmac
    · simpa using hu st a b ha hb
    · simpa using hh st a b ha hb
  have hnil : ∀ ctx : digest_fe_openssl.digest_context σ,
      digest_fe_openssl.digest_update lib (some ctx) (some []) = (true, some ctx) := by
    intro ctx; rfl
  have hcons : ∀ (ctx : digest_fe_openssl.digest_context σ) (d : List Byte), d ≠ [] →
      digest_fe_openssl.digest_update lib (some ctx) (some d) =
        match (if ctx.hmac then lib.HMAC_Update ctx.state d
          else lib.EVP_DigestUpdate ctx.state d) with
        | none => (false, some ctx)
        | some st => (true, some { ctx with state := st }) := by
    intro ctx d hd
    have hl : ¬ d.length = 0 := fun e => hd (List.length_eq_zero.mp e)
    simp only [digest_fe_openssl.digest_update, hl, if_false]
  intro segs
  induction segs with
  | nil =>
    intro ctx
    exact ⟨rfl, fun _ => rfl⟩
  | cons a rest ih =>
    intro ctx
    by_cases ha : a = []
    · subst ha
      simp only [digest_fe_openssl.digest_updates, hnil, List.flatten_cons, List.nil_append,
        Bool.not_true, Bool.false_eq_true, if_false]
      exact ih ctx
    · simp only [digest_fe_openssl.digest_updates, List.flatten_cons]
      by_cases hj : rest.flatten = []
      · have hrest : ∀ c : digest_fe_openssl.digest_context σ,
            digest_fe_openssl.digest_updates lib (some c) rest = (true, some c) := by
          intro c
          have h := ih c
          rw [hj, hnil] at h
          exact Prod.ext h.1 (h.2 h.1)
        rw [hj, List.append_nil, hcons ctx a ha]
        cases hfeed : (if ctx.hmac then lib.HMAC_Update ctx.state a
            else lib.EVP_DigestUpdate ctx.state a) with
        | none => simp
        | some st => simp [hrest]
      · have hja : a ++ rest.flatten ≠ [] := by simp [ha]
        rw [hcons ctx a ha, hcons ctx _ hja, hf ctx.hmac ctx.state a _ ha hj]
        cases hfeed : (if ctx.hmac then lib.HMAC_Update ctx.state a
            else lib.EVP_DigestUpdate ctx.state a) with
        | none => simp
        | some st =>
          have h := ih { ctx with state := st }
          rw [hcons _ _ hj] at h
          simp only [Option.some_bind, Bool.not_true, Bool.false_eq_true, if_false]
          cases hfeed2 : (if ctx.hmac then lib.HMAC_Update st rest.flatten
              else lib.EVP_DigestUpdate st rest.flatten) with
          | none =>
            simp only [hfeed2] at h
            exact ⟨h.1, fun e => absurd (h.1 ▸ e) (by simp)⟩
          | some st2 =>
            simp only [hfeed2] at h
            exact h

/-- In the OpenSSL frontend the calls behind the initialisation are the same
for a caller that streams the segments and for one that passes the whole
string at once. -/
theorem openssl_digest_stream_core {σ : Type} (lib : digest_fe_openssl.openssl σ)
    (hu : ∀ (st : σ) (a b : List Byte), a ≠ [] → b ≠ [] →
      lib.EVP_DigestUpdate st (a ++ b) =
        (lib.EVP_DigestUpdate st a).bind (fun s => lib.EVP_DigestUpdate s b))
    (hh : ∀ (st : σ) (a b : List Byte), a ≠ [] → b ≠ [] →
      lib.HMAC_Update st (a ++ b) =
        (lib.HMAC_Update st a).bind (fun s => lib.HMAC_Update s b))
    (segs : List (List Byte)) (ctx : digest_fe_openssl.digest_context σ)
    (out : Option (List Byte)) (outLen : Option Nat) :
    (if ! (digest_fe_openssl.digest_updates lib (some ctx) segs).1 then
        ({ ret := false, out := out, outLen := outLen } : digest_result)
      else
        { ret := (digest_fe_openssl.digest_final lib
            (digest_fe_openssl.digest_updates lib (some ctx) segs).2 out outLen).ret
          out := (digest_fe_openssl.digest_final lib
            (digest_fe_openssl.digest_updates lib (some ctx) segs).2 out outLen).out
          outLen := (digest_fe_openssl.digest_final lib
            (digest_fe_openssl.digest_updates lib (some ctx) segs).2 out outLen).outLen }) =
    (if ! (digest_fe_openssl.digest_update lib (some ctx) (some segs.flatten)).1 then
        ({ ret := false, out := out, outLen := outLen } : digest_result)
      else
        { ret := (digest_fe_openssl.digest_final lib
            (digest_fe_openssl.digest_update lib (some ctx) (some segs.flatten)).2 out outLen).ret
          out := (digest_fe_openssl.digest_final lib
            (digest_fe_openssl.digest_update lib (some ctx) (some segs.flatten)).2 out outLen).out
          outLen := (digest_fe_openssl.digest_final lib
            (digest_fe_openssl.digest_update lib (some ctx) (some segs.flatten)).2 out
              outLen).outLen }) := by
  obtain ⟨h1, h2⟩ := openssl_digest_updates_flatten lib hu hh segs ctx
  cases hb : (digest_fe_openssl.digest_updates lib (some ctx) segs).1 with
  | false =>
    rw [hb] at h1
    simp [← h1]
  | true =>
    rw [hb] at h1
    rw [← h2 hb]
    simp [← h1]

/-- What `digest_init` of the OpenSSL frontend returns with `true` is a
context. -/
theorem openssl_digest_init_some {σ : Type} (lib : digest_fe_openssl.openssl σ) (alg : Nat) :
    ∃ ctx, (digest_fe_openssl.digest_init lib (some ()) alg).2 = some ctx := by
  unfold digest_fe_openssl.digest_init
  simp only
  split
  · exact ⟨_, rfl⟩
  · split
    · exact ⟨_, rfl⟩
    · exact ⟨_, rfl⟩

/-- What `digest_init_hmac` of the OpenSSL frontend returns with `true` is a
context. -/
theorem openssl_digest_init_hmac_some {σ : Type} (lib : digest_fe_openssl.openssl σ)
    (alg : Nat) (key : List Byte) :
    ∃ ctx, (digest_fe_openssl.digest_init_hmac lib (some ()) alg key).2 = some ctx := by
  unfold digest_fe_openssl.digest_init_hmac
  simp only
  split
  · exact ⟨_, rfl⟩
  · split
    · exact ⟨_, rfl⟩
    · exact ⟨_, rfl⟩

/-- With a null `out` a caller that streams ends with `false`, as
`digest_oneshot` does. -/
theorem openssl_digest_final_null_out {σ : Type} (lib : digest_fe_openssl.openssl σ)
    (ctx : Option (digest_fe_openssl.digest_context σ)) (outLen : Option Nat) :
    (digest_fe_openssl.digest_final lib ctx none outLen).ret = false ∧
    (digest_fe_openssl.digest_final lib ctx none outLen).out = none ∧
    (digest_fe_openssl.digest_final lib ctx none outLen).outLen = outLen := by
  cases ctx <;> exact ⟨rfl, rfl, rfl⟩

/-- Streaming equivalence in the OpenSSL frontend, hash mode. -/
theorem openssl_digest_stream_eq {σ : Type} (lib : digest_fe_openssl.openssl σ)
    (hu : ∀ (st : σ) (a b : List Byte), a ≠ [] → b ≠ [] →
      lib.EVP_DigestUpdate st (a ++ b) =
        (lib.EVP_DigestUpdate st a).bind (fun s => lib.EVP_DigestUpdate s b))
    (hh : ∀ (st : σ) (a b : List Byte), a ≠ [] → b ≠ [] →
      lib.HMAC_Update st (a ++ b) =
        (lib.HMAC_Update st a).bind (fun s => lib.HMAC_Update s b))
    (alg : Nat) (segs : List (List Byte)) (out : Option (List Byte)) (outLen : Option Nat) :
    digest_fe_openssl.digest_stream lib alg segs out outLen =
      digest_fe_openssl.digest_oneshot lib alg (some segs.flatten) out outLen := by
  obtain ⟨ctx, hctx⟩ := openssl_digest_init_some lib alg
  unfold digest_fe_openssl.digest_stream digest_fe_openssl.digest_oneshot
  simp only [hctx]
  cases out with
  | none =>
    obtain ⟨f1, f2, f3⟩ := openssl_digest_final_null_out lib
      (digest_fe_openssl.digest_updates lib (some ctx) segs).2 outLen
    simp only [f1, f2, f3]
    split_ifs <;> rfl
  | some buf =>
    simp only
    cases hi : (digest_fe_openssl.digest_init lib (some ()) alg).1 with
    | false => rfl
    | true =>
      simp only [Bool.not_true, Bool.false_eq_true, if_false]
      exact openssl_digest_stream_core lib hu hh segs ctx (some buf) outLen

/-- Streaming equivalence in the OpenSSL frontend, HMAC mode. -/
theorem openssl_digest_stream_hmac_eq {σ : Type} (lib : digest_fe_openssl.openssl σ)
    (hu : ∀ (st : σ) (a b : List Byte), a ≠ [] → b ≠ [] →
      lib.EVP_DigestUpdate st (a ++ b) =
        (lib.EVP_DigestUpdate st a).bind (fun s => lib.EVP_DigestUpdate s b))
    (hh : ∀ (st : σ) (a b : List Byte), a ≠ [] → b ≠ [] →
      lib.HMAC_Update st (a ++ b) =
        (lib.HMAC_Update st a).bind (fun s => lib.HMAC_Update s b))
    (alg : Nat) (key : List Byte) (segs : List (List Byte)) (out : Option (List Byte))
    (outLen : Option Nat) :
    digest_fe_openssl.digest_stream_hmac lib alg key segs out outLen =
      digest_fe_openssl.digest_oneshot_hmac lib alg key (some segs.flatten) out outLen := by
  obtain ⟨ctx, hctx⟩ := openssl_digest_init_hmac_some lib alg key
  unfold digest_fe_openssl.digest_stream_hmac digest_fe_openssl.digest_oneshot_hmac
  simp only [hctx]
  cases out with
  | none =>
    obtain ⟨f1, f2, f3⟩ := openssl_digest_final_null_out lib
      (digest_fe_openssl.digest_updates lib (some ctx) segs).2 outLen
    simp only [f1, f2, f3]
    split_ifs <;> rfl
  | some buf =>
    simp only
    cases hi : (digest_fe_openssl.digest_init_hmac lib (some ()) alg key).1 with
    | false => rfl
    | true =>
      simp only [Bool.not_true, Bool.false_eq_true, if_false]
      exact openssl_digest_stream_core lib hu hh segs ctx (some buf) outLen


/-- C26: in both frontends, on every context, in hash mode or in HMAC mode,
`digest_update` with a null data pointer or with the length 0 returns `true`
and leaves the context as it was, so that `digest_final` behind it gives what
it gives without that call. -/
theorem digest_update_zero_length {σ τ : Type} (mbed : digest_fe_mbedtls.mbedtls σ)
    (ossl : digest_fe_openssl.openssl τ) (ctx₁ : digest_fe_mbedtls.digest_context σ)
    (ctx₂ : digest_fe_openssl.digest_context τ) (out : Option (List Byte))
    (outLen : Option Nat) :
    digest_fe_mbedtls.digest_update mbed (some ctx₁) none = (true, some ctx₁) ∧
    digest_fe_mbedtls.digest_update mbed (some ctx₁) (some []) = (true, some ctx₁) ∧
    digest_fe_mbedtls.digest_final mbed
        (digest_fe_mbedtls.digest_update mbed (some ctx₁) none).2 out outLen =
      digest_fe_mbedtls.digest_final mbed (some ctx₁) out outLen ∧
    digest_fe_mbedtls.digest_final mbed
        (digest_fe_mbedtls.digest_update mbed (some ctx₁) (some [])).2 out outLen =
      digest_fe_mbedtls.digest_final mbed (some ctx₁) out outLen ∧
    digest_fe_openssl.digest_update ossl (some ctx₂) none = (true, some ctx₂) ∧
    digest_fe_openssl.digest_update ossl (some ctx₂) (some []) = (true, some ctx₂) ∧
    digest_fe_openssl.digest_final ossl
        (digest_fe_openssl.digest_update ossl (some ctx₂) none).2 out outLen =
      digest_fe_openssl.digest_final ossl (some ctx₂) out outLen ∧
    digest_fe_openssl.digest_final ossl
        (digest_fe_openssl.digest_update ossl (some ctx₂) (some [])).2 out outLen =
      digest_fe_openssl.digest_final ossl (some ctx₂) out outLen :=
  ⟨rfl, rfl, rfl, rfl, rfl, rfl, rfl, rfl⟩

/-- C27, as the code behaves: in both frontends `digest_final` with `*outLen`
below the output length of the algorithm returns `false` and writes neither
`out` nor `*outLen`, and it leaves the context as it was: the `return false`
stands before `mbedtls_md_free` (before `HMAC_CTX_cleanup` and
`EVP_MD_CTX_cleanup` in the OpenSSL frontend), which only the successful path
reaches. -/
theorem digest_final_short_buffer {σ τ : Type} (mbed : digest_fe_mbedtls.mbedtls σ)
    (ossl : digest_fe_openssl.openssl τ) (ctx₁ : digest_fe_mbedtls.digest_context σ)
    (ctx₂ : digest_fe_openssl.digest_context τ) (buf : List Byte) (n : Nat)
    (h₁ : n < mbed.mbedtls_md_get_size ctx₁.md) (h₂ : n < ossl.EVP_MD_size ctx₂.md) :
    digest_fe_mbedtls.digest_final mbed (some ctx₁) (some buf) (some n) =
      { ret := false, ctx := some ctx₁, out := some buf, outLen := some n } ∧
    digest_fe_openssl.digest_final ossl (some ctx₂) (some buf) (some n) =
      { ret := false, ctx := some ctx₂, out := some buf, outLen := some n } := by
  constructor
  · simp [digest_fe_mbedtls.digest_final, h₁]
  · simp [digest_fe_openssl.digest_final, h₂]

set_option maxRecDepth 100000 in
theorem digest_final_short_buffer_witness :
    (digest_fe_mbedtls.digest_final sample_mbedtls
      (some { md := some 0x20, state := 0x20 :: bytes "abc", hmac := false })
      (some (List.replicate 0x20 0)) (some 0x10)).ctx =
        some { md := some 0x20, state := 0x20 :: bytes "abc", hmac := false } ∧
    (digest_fe_mbedtls.digest_final sample_mbedtls
      (some { md := some 0x20, state := 0x20 :: bytes "abc", hmac := false })
      (some (List.replicate 0x20 0)) (some 0x20)).ctx =
        some { md := some 0x20, state := [], hmac := false } ∧
    (digest_fe_openssl.digest_final sample_openssl
      (some { md := some 0x20, state := 0x20 :: bytes "abc", hmac := false })
      (some (List.replicate 0x20 0)) (some 0x10)).ctx =
        some { md := some 0x20, state := 0x20 :: bytes "abc", hmac := false } ∧
    (digest_fe_openssl.digest_final sample_openssl
      (some { md := some 0x20, state := 0x20 :: bytes "abc", hmac := false })
      (some (List.replicate 0x20 0)) (some 0x20)).ctx =
        some { md := some 0x20, state := [], hmac := false } :=
  have h := digest_final_short_buffer sample_mbedtls sample_openssl
    { md := some 0x20, state := 0x20 :: bytes "abc", hmac := false }
    { md := some 0x20, state := 0x20 :: bytes "abc", hmac := false }
    (List.replicate 0x20 0) 0x10 (by decide) (by decide)
  ⟨congrArg digest_final_result.ctx h.1, by decide,
    congrArg digest_final_result.ctx h.2, by decide⟩

/-- C28: in both frontends `digest_pbkdf2_hmac` returns `false`, has called no
function of the library and has written no byte of `dk`, whenever the
iteration count `c` is 0, or `dkLen` is 0, or the algorithm tag is none of
MD5 = 1, SHA-1 = 2, SHA-256 = 3 and SHA-512 = 4; and `digest_init` and
`digest_init_hmac` return `false` for every algorithm tag outside 1 to 4. -/
theorem digest_pbkdf2_hmac_guards {σ τ : Type} (mbed : digest_fe_mbedtls.mbedtls σ)
    (ossl : digest_fe_openssl.openssl τ) (alg : Nat) (pass salt : List Byte) (c : Nat)
    (dk : Option (List Byte)) (dkLen : Nat) (ctx : Option Unit) (key : List Byte)
    (h : c = 0 ∨ dkLen = 0 ∨ ¬ (alg = 1 ∨ alg = 2 ∨ alg = 3 ∨ alg = 4)) :
    digest_fe_mbedtls.digest_pbkdf2_hmac mbed alg pass salt c dk dkLen =
      { ret := false, dk := dk, calls := [] } ∧
    digest_fe_openssl.digest_pbkdf2_hmac ossl alg pass salt c dk dkLen =
      { ret := false, dk := dk, calls := [] } ∧
    (¬ (alg = 1 ∨ alg = 2 ∨ alg = 3 ∨ alg = 4) →
      (digest_fe_mbedtls.digest_init mbed ctx alg).1 = false ∧
      (digest_fe_mbedtls.digest_init_hmac mbed ctx alg key).1 = false ∧
      (digest_fe_openssl.digest_init ossl ctx alg).1 = false ∧
      (digest_fe_openssl.digest_init_hmac ossl ctx alg key).1 = false) := by
  have hm : ¬ (alg = 1 ∨ alg = 2 ∨ alg = 3 ∨ alg = 4) →
      digest_fe_mbedtls.digest_decide_md_type alg = none := by
    intro ha
    simp only [not_or] at ha
    simp [digest_fe_mbedtls.digest_decide_md_type, DIGALG_MD5, DIGALG_SHA1, DIGALG_SHA2_256,
      DIGALG_SHA2_512, ha.1, ha.2.1, ha.2.2.1, ha.2.2.2]
  have ho : ¬ (alg = 1 ∨ alg = 2 ∨ alg = 3 ∨ alg = 4) →
      digest_fe_openssl.digest_decide_md ossl alg = none := by
    intro ha
    simp only [not_or] at ha
    simp [digest_fe_openssl.digest_decide_md, DIGALG_MD5, DIGALG_SHA1, DIGALG_SHA2_256,
      DIGALG_SHA2_512, ha.1, ha.2.1, ha.2.2.1, ha.2.2.2]
  refine ⟨?_, ?_, ?_⟩
  · unfold digest_fe_mbedtls.digest_pbkdf2_hmac
    by_cases hc : c = 0
    · rw [if_pos hc]
    · rw [if_neg hc]
      cases dk with
      | none => rfl
      | some buf =>
        simp only
        by_cases hd : dkLen = 0
        · rw [if_pos hd]
        · rw [if_neg hd]
          rcases h with h | h | h
          · exact absurd h hc
          · exact absurd h hd
          · rw [hm h]
  · unfold digest_fe_openssl.digest_pbkdf2_hmac
    by_cases hc : c = 0
    · rw [if_pos hc]
    · rw [if_neg hc]
      cases dk with
      | none => rfl
      | some buf =>
        simp only
        by_cases hd : dkLen = 0
        · rw [if_pos hd]
        · rw [if_neg hd]
          rcases h with h | h | h
          · exact absurd h hc
          · exact absurd h hd
          · rw [ho h]
  · intro ha
    cases ctx with
    | none => exact ⟨rfl, rfl, rfl, rfl⟩
    | some u =>
      refine ⟨?_, ?_, ?_, ?_⟩
      · simp [digest_fe_mbedtls.digest_init, digest_fe_mbedtls.digest_decide_md, hm ha]
      · simp [digest_fe_mbedtls.digest_init_hmac, digest_fe_mbedtls.digest_decide_md, hm ha]
      · simp [digest_fe_openssl.digest_init, ho ha]
      · simp [digest_fe_openssl.digest_init_hmac, ho ha]

set_option maxRecDepth 100000 in
theorem digest_pbkdf2_hmac_guards_witness :
    (digest_fe_mbedtls.digest_pbkdf2_hmac sample_mbedtls 3 (bytes "pencil") (bytes "salt") 4096
      (some (List.replicate 0x20 0)) 0x20).ret = true ∧
    (digest_fe_openssl.digest_pbkdf2_hmac sample_openssl 3 (bytes "pencil") (bytes "salt") 4096
      (some (List.replicate 0x20 0)) 0x20).ret = true ∧
    digest_fe_mbedtls.digest_pbkdf2_hmac sample_mbedtls 3 (bytes "pencil") (bytes "salt") 0
        (some (List.replicate 0x20 0)) 0x20 =
      { ret := false, dk := some (List.replicate 0x20 0), calls := [] } ∧
    digest_fe_openssl.digest_pbkdf2_hmac sample_openssl 5 (bytes "pencil") (bytes "salt") 4096
        (some (List.replicate 0x20 0)) 0x20 =
      { ret := false, dk := some (List.replicate 0x20 0), calls := [] } :=
  ⟨by decide, by decide,
    (digest_pbkdf2_hmac_guards sample_mbedtls sample_openssl 3 (bytes "pencil") (bytes "salt") 0
      (some (List.replicate 0x20 0)) 0x20 (some ()) [] (Or.inl rfl)).1,
    (digest_pbkdf2_hmac_guards sample_mbedtls sample_openssl 5 (bytes "pencil") (bytes "salt")
      4096 (some (List.replicate 0x20 0)) 0x20 (some ()) [] (Or.inr (Or.inr (by decide)))).2.1⟩

/-- C29: streaming equivalence. In both frontends, for every algorithm tag,
every list of segments (empty ones allowed at any place), every `out` and
`outLen`, the calls `digest_init`, `digest_update` on each segment in turn and
`digest_final` leave the same returned boolean, the same output and the same
length as `digest_oneshot` on the concatenation of the segments, and in HMAC
mode the same holds for every key against `digest_oneshot_hmac`; the update
functions of the library are taken to accept a string in two parts as they
accept it whole. -/
theorem digest_stream_eq_oneshot {σ τ : Type} (mbed : digest_fe_mbedtls.mbedtls σ)
    (ossl : digest_fe_openssl.openssl τ)
    (hmu : ∀ (st : σ) (a b : List Byte), a ≠ [] → b ≠ [] →
      mbed.mbedtls_md_update st (a ++ b) =
        (mbed.mbedtls_md_update st a).bind (fun s => mbed.mbedtls_md_update s b))
    (hmh : ∀ (st : σ) (a b : List Byte), a ≠ [] → b ≠ [] →
      mbed.mbedtls_md_hmac_update st (a ++ b) =
        (mbed.mbedtls_md_hmac_update st a).bind (fun s => mbed.mbedtls_md_hmac_update s b))
    (hou : ∀ (st : τ) (a b : List Byte), a ≠ [] → b ≠ [] →
      ossl.EVP_DigestUpdate st (a ++ b) =
        (ossl.EVP_DigestUpdate st a).bind (fun s => ossl.EVP_DigestUpdate s b))
    (hoh : ∀ (st : τ) (a b : List Byte), a ≠ [] → b ≠ [] →
      ossl.HMAC_Update st (a ++ b) =
        (ossl.HMAC_Update st a).bind (fun s => ossl.HMAC_Update s b))
    (alg : Nat) (key : List Byte) (segs : List (List Byte)) (out : Option (List Byte))
    (outLen : Option Nat) :
    digest_fe_mbedtls.digest_stream mbed alg segs out outLen =
      digest_fe_mbedtls.digest_oneshot mbed alg (some segs.flatten) out outLen ∧
    digest_fe_mbedtls.digest_stream_hmac mbed alg key segs out outLen =
      digest_fe_mbedtls.digest_oneshot_hmac mbed alg key (some segs.flatten) out outLen ∧
    digest_fe_openssl.digest_stream ossl alg segs out outLen =
      digest_fe_openssl.digest_oneshot ossl alg (some segs.flatten) out outLen ∧
    digest_fe_openssl.digest_stream_hmac ossl alg key segs out outLen =
      digest_fe_openssl.digest_oneshot_hmac ossl alg key (some segs.flatten) out outLen :=
  ⟨mbedtls_digest_stream_eq mbed hmu hmh alg segs out outLen,
    mbedtls_digest_stream_hmac_eq mbed hmu hmh alg key segs out outLen,
    openssl_digest_stream_eq ossl hou hoh alg segs out outLen,
    openssl_digest_stream_hmac_eq ossl hou hoh alg key segs out outLen⟩

set_option maxRecDepth 100000 in
theorem digest_stream_eq_oneshot_witness :
    (digest_fe_mbedtls.digest_oneshot sample_mbedtls 2 (some (bytes "abcdef"))
      (some (List.replicate 0x14 0)) (some 0x14)).ret = true ∧
    digest_fe_mbedtls.digest_stream sample_mbedtls 2 [bytes "ab", [], bytes "cdef"]
        (some (List.replicate 0x14 0)) (some 0x14) =
      digest_fe_mbedtls.digest_oneshot sample_mbedtls 2 (some (bytes "abcdef"))
        (some (List.replicate 0x14 0)) (some 0x14) ∧
    digest_fe_openssl.digest_stream_hmac sample_openssl 2 (bytes "key")
        [bytes "ab", [], bytes "cdef"] (some (List.replicate 0x14 0)) (some 0x14) =
      digest_fe_openssl.digest_oneshot_hmac sample_openssl 2 (bytes "key") (some (bytes "abcdef"))
        (some (List.replicate 0x14 0)) (some 0x14) :=
  have h := digest_stream_eq_oneshot sample_mbedtls sample_openssl
    (fun st a b _ _ => congrArg some (List.append_assoc st a b).symm)
    (fun st a b _ _ => congrArg some (List.append_assoc st a b).symm)
    (fun st a b _ _ => congrArg some (List.append_assoc st a b).symm)
    (fun st a b _ _ => congrArg some (List.append_assoc st a b).symm)
    2 (bytes "key") [bytes "ab", [], bytes "cdef"] (some (List.replicate 0x14 0)) (some 0x14)
  ⟨by decide, h.1, h.2.2.2⟩

/-- On the memory of a NUL-free string and its terminator `strchr` stays in
the string and finds what it finds in the string. -/
theorem strchr_mem_eq (c : Byte) (hc : c ≠ 0) :
    ∀ str : List Byte, 0 ∉ str → strchr_mem (str ++ [0]) c = access.ok (strchr str c) := by
  intro str
  induction str with
  | nil =>
    intro _
    have h0 : ¬ (0 : Byte) = c := fun e => hc e.symm
    simp [strchr_mem, strchr, h0]
  | cons b rest ih =>
    intro h0
    have hb : b ≠ 0 := fun e => h0 (by simp [e])
    have hr : 0 ∉ rest := fun e => h0 (List.mem_cons_of_mem b e)
    by_cases hbc : b = c
    · simp [strchr_mem, strchr, hbc]
    · simp [strchr_mem, strchr, hbc, hb, ih hr]

/-- On the memory of a NUL-free string and its terminator `sstrdup` copies
the string. -/
theorem sstrdup_mem_eq :
    ∀ str : List Byte, 0 ∉ str → sstrdup_mem (str ++ [0]) = access.ok str := by
  intro str
  induction str with
  | nil => intro _; simp [sstrdup_mem]
  | cons b rest ih =>
    intro h0
    have hb : b ≠ 0 := fun e => h0 (by simp [e])
    have hr : 0 ∉ rest := fun e => h0 (List.mem_cons_of_mem b e)
    simp [sstrdup_mem, hb, ih hr]

/-- The offset `strchr` returns lies in the string. -/
theorem strchr_lt (c : Byte) (str : List Byte) (k : Nat) (h : strchr str c = some k) :
    k < str.length := by
  obtain ⟨h1, _⟩ := strchr_split c str k h
  have := congrArg List.length h1
  simp only [List.length_append, List.length_cons, List.length_take, List.length_drop] at this
  omega

/-- On the memory of a NUL-free string and its terminator the loop of the
parser never reads outside, and does what the loop on the string does. -/
theorem attrlist_parse_mem_loop_eq (fuel : Nat) :
    ∀ (str : List Byte) (attrs : scram_attr_list), 0 ∉ str →
      attrlist_parse_mem_loop fuel (str ++ [0]) attrs =
        (attrlist_parse_loop fuel str attrs).map access.ok := by
  induction fuel with
  | zero => intro str attrs _; rfl
  | succ n ih =>
    intro str attrs h0
    match str, h0 with
    | [], _ =>
      simp [attrlist_parse_mem_loop, attrlist_parse_loop,
        (show invalid_attr_name 0 = true by decide)]
    | [name], _ =>
      have he : ¬ (0 : Byte) = chr '=' := by decide
      by_cases hn : invalid_attr_name name = true
      · simp [attrlist_parse_mem_loop, attrlist_parse_loop, hn]
      · simp [attrlist_parse_mem_loop, attrlist_parse_loop, hn, he]
    | name :: eq :: str2, h0 =>
      have h2 : 0 ∉ str2 := fun e => h0 (List.mem_cons_of_mem _ (List.mem_cons_of_mem _ e))
      by_cases hn : invalid_attr_name name = true
      · simp [attrlist_parse_mem_loop, attrlist_parse_loop, hn]
      · by_cases he : eq = chr '='
        · simp only [attrlist_parse_mem_loop, attrlist_parse_loop, List.cons_append, hn,
            Bool.false_eq_true, if_false, he, if_true,
            strchr_mem_eq (chr ',') (by decide) str2 h2]
          cases hs : strchr str2 (chr ',') with
          | none =>
            simp only [sstrdup_mem_eq str2 h2]
            rfl
          | some pos =>
            simp only
            have hlt := strchr_lt _ _ _ hs
            have hd : (str2 ++ [0]).drop (pos + 1) = str2.drop (pos + 1) ++ [0] :=
              List.drop_append_of_le_length (by omega)
            have ht : (str2 ++ [0]).take pos = str2.take pos :=
              List.take_append_of_le_length (by omega)
            rw [hd, ht]
            exact ih _ _ (fun e => h2 (List.mem_of_mem_drop e))
        · simp [attrlist_parse_mem_loop, attrlist_parse_loop, hn, he]

/-- More fuel does not change what the loop of the parser returns. -/
theorem attrlist_parse_loop_mono (fuel : Nat) :
    ∀ (str : List Byte) (attrs : scram_attr_list) (r : Bool × scram_attr_list),
      attrlist_parse_loop fuel str attrs = some r →
      attrlist_parse_loop (fuel + 1) str attrs = some r := by
  induction fuel with
  | zero => intro str attrs r h; simp [attrlist_parse_loop] at h
  | succ n ih =>
    intro str attrs r h
    unfold attrlist_parse_loop at h ⊢
    match str, h with
    | [], h => exact h
    | [name], h => exact h
    | name :: eq :: str2, h =>
      simp only at h ⊢
      split_ifs at h ⊢ with hn he
      · exact h
      · cases hs : strchr str2 (chr ',') with
        | none => simpa [hs] using h
        | some pos =>
          simp only [hs] at h ⊢
          exact ih _ _ _ h
      · exact h

/-- Every iteration of the loop that does not return consumes at least two
bytes: half the length of the string, and one more, is fuel enough. -/
theorem attrlist_parse_loop_fuel_half (fuel : Nat) :
    ∀ (str : List Byte) (attrs : scram_attr_list), str.length < 2 * fuel →
      (attrlist_parse_loop fuel str attrs).isSome = true := by
  induction fuel with
  | zero => intro str attrs h; omega
  | succ n ih =>
    intro str attrs h
    unfold attrlist_parse_loop
    match str, h with
    | [], _ => simp
    | [name], _ => by_cases hn : invalid_attr_name name = true <;> simp [hn]
    | name :: eq :: str2, h =>
      simp only
      split_ifs with hn he
      · rfl
      · cases hs : strchr str2 (chr ',') with
        | none => rfl
        | some pos =>
          simp only
          apply ih
          have hlt := strchr_lt _ _ _ hs
          simp only [List.length_cons, List.length_drop] at h ⊢
          omega
      · rfl

/-- The loop of the parser writes the table only at indices that are
letters. -/
theorem attrlist_parse_loop_writes (fuel : Nat) :
    ∀ (str : List Byte) (attrs : scram_attr_list) (r : Bool × scram_attr_list),
      attrlist_parse_loop fuel str attrs = some r →
      ∀ x : Nat, r.2 x ≠ attrs x → invalid_attr_name x = false := by
  induction fuel with
  | zero => intro str attrs r h; simp [attrlist_parse_loop] at h
  | succ n ih =>
    intro str attrs r h x hx
    unfold attrlist_parse_loop at h
    match str, h with
    | [], h =>
      simp only [Option.some.injEq] at h
      subst h
      exact absurd rfl hx
    | [name], h =>
      simp only at h
      split_ifs at h <;>
        (simp only [Option.some.injEq] at h; subst h; exact absurd rfl hx)
    | name :: eq :: str2, h =>
      simp only at h
      split_ifs at h with hn he
      · simp only [Option.some.injEq] at h; subst h; exact absurd rfl hx
      · have hname : invalid_attr_name name = false := by simpa using hn
        cases hs : strchr str2 (chr ',') with
        | none =>
          simp only [hs, Option.some.injEq] at h
          subst h
          by_cases hxn : x = name
          · rw [hxn]; exact hname
          · exact absurd (by simp [attrs_set, hxn]) hx
        | some pos =>
          simp only [hs] at h
          by_cases hxn : x = name
          · rw [hxn]; exact hname
          · apply ih _ _ _ h x
            simpa [attrs_set, hxn] using hx
      · simp only [Option.some.injEq] at h; subst h; exact absurd rfl hx

/-- What the parser returns is what its loop returns with the fuel it is
given. -/
theorem sasl_scramsha_attrlist_parse_loop (str : List Byte) :
    attrlist_parse_loop (str.length + 1) str attrs_empty =
      some (sasl_scramsha_attrlist_parse str) := by
  have h := attrlist_parse_loop_fuel (str.length + 1) str attrs_empty (by omega)
  unfold sasl_scramsha_attrlist_parse
  cases hl : attrlist_parse_loop (str.length + 1) str attrs_empty with
  | none => rw [hl] at h; simp at h
  | some r => rfl

/-- C34: `sasl_scramsha_attrlist_parse` is total on NUL-terminated strings. On
the memory of a NUL-free string and its terminator it returns, reads no byte
behind the terminator, and returns the boolean and the table of the parser on
the string; every iteration that does not return consumes at least two bytes,
so that half the length of the string and one more iteration are enough; an
empty string, a string that ends behind a name letter and one that ends behind
`=` are read up to the terminator only; and the table is written only at
indices `A` to `Z` and `a` to `z`, all below 128. -/
theorem sasl_scramsha_attrlist_parse_total (str : List Byte) (h0 : 0 ∉ str) :
    sasl_scramsha_attrlist_parse_mem (str ++ [0]) =
      some (access.ok (sasl_scramsha_attrlist_parse str)) ∧
    attrlist_parse_mem_loop (str.length / 2 + 1) (str ++ [0]) attrs_empty =
      some (access.ok (sasl_scramsha_attrlist_parse str)) ∧
    (∀ x : Nat, (sasl_scramsha_attrlist_parse str).2 x ≠ none →
      ((chr 'A' ≤ x ∧ x ≤ chr 'Z') ∨ (chr 'a' ≤ x ∧ x ≤ chr 'z')) ∧ x < 128) := by
  have hl := sasl_scramsha_attrlist_parse_loop str
  refine ⟨?_, ?_, ?_⟩
  · unfold sasl_scramsha_attrlist_parse_mem
    rw [attrlist_parse_mem_loop_eq _ str attrs_empty h0]
    have e : (str ++ [0]).length + 1 = (str.length + 1) + 1 := by simp
    rw [e, attrlist_parse_loop_mono _ _ _ _ hl]
    rfl
  · rw [attrlist_parse_mem_loop_eq _ str attrs_empty h0]
    have hs := attrlist_parse_loop_fuel_half (str.length / 2 + 1) str attrs_empty (by omega)
    cases hh : attrlist_parse_loop (str.length / 2 + 1) str attrs_empty with
    | none => rw [hh] at hs; simp at hs
    | some r =>
      have hmono : ∀ k, attrlist_parse_loop (str.length / 2 + 1 + k) str attrs_empty = some r := by
        intro k
        induction k with
        | zero => exact hh
        | succ j ihj => exact attrlist_parse_loop_mono _ _ _ _ ihj
      have hk := hmono (str.length - str.length / 2)
      have e : str.length / 2 + 1 + (str.length - str.length / 2) = str.length + 1 := by omega
      rw [e, hl] at hk
      rw [Option.some.inj hk]
      rfl
  · intro x hx
    have hw := attrlist_parse_loop_writes _ _ _ _ hl x (by simpa [attrs_empty] using hx)
    have hletter := (invalid_attr_name_false_iff x).mp hw
    refine ⟨hletter, ?_⟩
    have hZ : chr 'Z' = 90 := rfl
    have hz : chr 'z' = 122 := rfl
    rw [hZ, hz] at hletter
    rcases hletter with h | h
    · exact Nat.lt_of_le_of_lt h.2 (by decide)
    · exact Nat.lt_of_le_of_lt h.2 (by decide)

set_option maxRecDepth 100000 in
theorem sasl_scramsha_attrlist_parse_total_witness :
    sasl_scramsha_attrlist_parse_mem (bytes "n" ++ [0]) =
      some (access.ok (sasl_scramsha_attrlist_parse (bytes "n"))) ∧
    (sasl_scramsha_attrlist_parse (bytes "n")).1 = false ∧
    sasl_scramsha_attrlist_parse_mem (bytes "n=" ++ [0]) =
      some (access.ok (sasl_scramsha_attrlist_parse (bytes "n="))) ∧
    (sasl_scramsha_attrlist_parse (bytes "n=")).1 = true ∧
    (sasl_scramsha_attrlist_parse (bytes "n=")).2 (chr 'n') = some [] ∧
    sasl_scramsha_attrlist_parse_mem (bytes "n=user,r=abc" ++ [0]) =
      some (access.ok (sasl_scramsha_attrlist_parse (bytes "n=user,r=abc"))) :=
  ⟨(sasl_scramsha_attrlist_parse_total (bytes "n") (by decide)).1, by decide,
    (sasl_scramsha_attrlist_parse_total (bytes "n=") (by decide)).1, by decide, by decide,
    (sasl_scramsha_attrlist_parse_total (bytes "n=user,r=abc") (by decide)).1⟩

/-- The authzid section on the memory of a NUL-free string and its terminator
reads outside exactly when the section on the string does, and else does what
the section on the string does. -/
theorem gs2_authzid_mem_eq (env : scram_env) (m : List Byte) (h0 : 0 ∉ m) :
    gs2_authzid_mem env (m ++ [0]) =
      match gs2_authzid env m with
      | gs2_outcome.accept message => gs2_outcome.accept (message ++ [0])
      | o => o := by
  match m, h0 with
  | [], _ => rfl
  | z0 :: after, h0 =>
    have ha : 0 ∉ after := fun e => h0 (List.mem_cons_of_mem z0 e)
    simp only [gs2_authzid_mem, gs2_authzid, List.cons_append,
      strchr_mem_eq (chr ',') (by decide) after ha]
    cases hs : strchr after (chr ',') with
    | none => rfl
    | some k =>
      have hlt := strchr_lt _ _ _ hs
      have hd : (after ++ [0]).drop (k + 1) = after.drop (k + 1) ++ [0] :=
        List.drop_append_of_le_length (by omega)
      have ht : (after ++ [0]).take k = after.take k :=
        List.take_append_of_le_length (by omega)
      simp only [hd, ht]
      split_ifs with h1
      · rfl
      · cases hn : env.normalize (z0 :: after.take k) env.NICKLEN with
        | none => rfl
        | some authzid =>
          simp only
          split_ifs <;> rfl

/-- The scan of the GS2 header on the memory of a NUL-free input and its
terminator reads outside exactly when the scan of the input does, and else
does what the scan of the input does. -/
theorem gs2_header_mem_eq (env : scram_env) (data : List Byte) (hne : data ≠ [])
    (h0 : 0 ∉ data) :
    gs2_header_mem env (data ++ [0]) =
      match gs2_header env data with
      | gs2_outcome.accept message => gs2_outcome.accept (message ++ [0])
      | o => o := by
  have hz : ¬ (0 : Byte) = chr ',' := by decide
  have hza : ¬ (0 : Byte) = chr 'a' := by decide
  have hze : ¬ (0 : Byte) = chr '=' := by decide
  have hac : ¬ chr 'a' = chr ',' := by decide
  match data, hne, h0 with
  | [flag], _, _ =>
    simp only [gs2_header_mem, gs2_header, List.cons_append, List.nil_append]
    split_ifs <;> simp_all
  | [flag, c1], _, _ =>
    simp only [gs2_header_mem, gs2_header, List.cons_append, List.nil_append]
    split_ifs <;> simp_all
  | [flag, c1, c2], _, _ =>
    simp only [gs2_header_mem, gs2_header, List.cons_append, List.nil_append, List.headD_nil]
    split_ifs <;> simp_all
  | flag :: c1 :: c2 :: c3 :: m4, _, h0 =>
    have h4 : 0 ∉ m4 := fun e => h0 (List.mem_cons_of_mem _ (List.mem_cons_of_mem _
      (List.mem_cons_of_mem _ (List.mem_cons_of_mem _ e))))
    simp only [gs2_header_mem, gs2_header, List.cons_append, List.headD_cons, List.tail_cons]
    by_cases hf : flag = chr 'y' ∨ flag = chr 'n'
    · simp only [hf, if_true]
      by_cases hc1 : c1 = chr ','
      · simp only [hc1, ne_eq, not_true_eq_false, if_false]
        by_cases ha : c2 = chr 'a'
        · by_cases he : c3 = chr '='
          · simp only [ha, he, and_self, if_true]
            exact gs2_authzid_mem_eq env m4 h4
          · simp [ha, he, hac]
        · by_cases hc2 : c2 = chr ','
          · have hca : ¬ chr ',' = chr 'a' := by decide
            subst hc2
            simp [hca]
          · simp [ha, hc2]
      · simp [hc1]
    · simp [hf]

/-- The authzid section reads outside only when nothing follows `a=`. -/
theorem gs2_authzid_overread_iff (env : scram_env) (m : List Byte) :
    gs2_authzid env m = gs2_outcome.overread ↔ m = [] := by
  constructor
  · intro h
    match m, h with
    | [], _ => rfl
    | z0 :: after, h =>
      exfalso
      simp only [gs2_authzid] at h
      cases hs : strchr after (chr ',') with
      | none => simp [hs] at h
      | some k =>
        simp only [hs] at h
        split_ifs at h
        cases hn : env.normalize (z0 :: after.take k) env.NICKLEN with
        | none => simp [hn] at h
        | some authzid =>
          simp only [hn] at h
          split_ifs at h
  · intro h; subst h; rfl

/-- The scan of the GS2 header reads a byte outside the input and its
terminator on the inputs `n,a=` and `y,a=`, and on no other input. -/
theorem gs2_header_overread_iff (env : scram_env) (data : List Byte) :
    gs2_header env data = gs2_outcome.overread ↔
      (data = bytes "n,a=" ∨ data = bytes "y,a=") := by
  have hn : bytes "n,a=" = [chr 'n', chr ',', chr 'a', chr '='] := rfl
  have hy : bytes "y,a=" = [chr 'y', chr ',', chr 'a', chr '='] := rfl
  rw [hn, hy]
  constructor
  · intro h
    unfold gs2_header at h
    match data, h with
    | [], h => simp at h
    | [flag], h => simp only at h; split_ifs at h
    | [flag, c1], h => simp only at h; split_ifs at h
    | flag :: c1 :: c2 :: m3, h =>
      simp only at h
      split_ifs at h with hf hc1 ha hc2
      · have hm := (gs2_authzid_overread_iff env m3.tail).mp h
        have hc1' : c1 = chr ',' := by simpa using hc1
        match m3, ha, hm with
        | [], ha, _ => exact absurd ha.2 (by decide)
        | [c3], ha, _ =>
          have h3 : c3 = chr '=' := by simpa using ha.2
          rcases hf with hf | hf
          · right; rw [hf, hc1', ha.1, h3]
          · left; rw [hf, hc1', ha.1, h3]
        | c3 :: c4 :: m5, _, hm => simp at hm
  · intro h
    rcases h with h | h <;> subst h <;> rfl

/-- The client-first step has no defined result exactly on the inputs `n,a=`
and `y,a=`. -/
theorem mech_step_clientfirst_none_iff (env : scram_env) (users : user_store)
    (s : scramsha_session) (inp : Option (List Byte)) (prf : Nat) :
    mech_step_clientfirst env users s inp prf = none ↔
      (inp = some (bytes "n,a=") ∨ inp = some (bytes "y,a=")) := by
  constructor
  · intro h
    unfold mech_step_clientfirst at h
    match inp, h with
    | none, h => simp at h
    | some [], h => simp at h
    | some (b :: rest), h =>
      simp only at h
      split_ifs at h
      cases hg : gs2_header env (b :: rest) with
      | overread =>
        rcases (gs2_header_overread_iff env (b :: rest)).mp hg with e | e
        · left; rw [e]
        · right; rw [e]
      | reject => simp [hg] at h
      | accept message => simp [hg] at h
  · intro h
    rcases h with h | h <;> subst h <;> rfl

/-- The authzid section on an authzid of one byte or more that holds no comma:
that authzid is the one that is measured, normalised and checked, and the
attribute list starts behind the comma that ends it. -/
theorem gs2_authzid_nonempty (env : scram_env) (z0 : Byte) (z rest : List Byte)
    (hz : chr ',' ∉ z) :
    gs2_authzid env ((z0 :: z) ++ chr ',' :: rest) =
      if (z0 :: z).length ≥ env.NICKLEN then gs2_outcome.reject
      else
        match env.normalize (z0 :: z) env.NICKLEN with
        | none => gs2_outcome.reject
        | some authzid =>
          if ! env.authzid_can_login authzid then gs2_outcome.reject
          else gs2_outcome.accept rest := by
  have hs : strchr (z ++ chr ',' :: rest) (chr ',') = some z.length := strchr_append _ z rest hz
  have ht : (z ++ chr ',' :: rest).take z.length = z := List.take_left' rfl
  have hd : (z ++ chr ',' :: rest).drop (z.length + 1) = rest := by
    rw [show z ++ chr ',' :: rest = (z ++ [chr ',']) ++ rest by simp]
    exact List.drop_left' (by simp)
  simp only [gs2_authzid, List.cons_append, hs, ht, hd, List.length_cons]

/-- The authzid section on an empty authzid, `a=,`: the search for the end
starts behind the comma, so the authzid that is measured, normalised and
checked is that comma and what follows it up to the next comma, and the
attribute list starts behind the next comma. -/
theorem gs2_authzid_empty (env : scram_env) (y rest : List Byte) (hy : chr ',' ∉ y) :
    gs2_authzid env (chr ',' :: (y ++ chr ',' :: rest)) =
      if (chr ',' :: y).length ≥ env.NICKLEN then gs2_outcome.reject
      else
        match env.normalize (chr ',' :: y) env.NICKLEN with
        | none => gs2_outcome.reject
        | some authzid =>
          if ! env.authzid_can_login authzid then gs2_outcome.reject
          else gs2_outcome.accept rest :=
  gs2_authzid_nonempty env (chr ',') y rest hy

set_option maxRecDepth 100000 in
/-- C31, as the code behaves on an empty authzid: on the client-first input
`n,a=,,n=user,r=abc` the bytes between `a=` and the first comma behind it are
none, yet a core that lets only the authzid `,` log in lets the step return
More, and the header saved as `c_gs2` is `n,a=,,`, which ends at the second
comma; a core that lets only the empty authzid log in makes the step return
Error. -/
theorem mech_step_clientfirst_empty_authzid :
    (mech_step_clientfirst comma_authzid_env sample_users mech_start
      (some (bytes "n,a=,,n=user,r=abc")) 25).map (fun r => (r.ret, r.s.c_gs2_buf)) =
        some (ASASL_MORE, bytes "n,a=,,") ∧
    (mech_step_clientfirst empty_authzid_env sample_users mech_start
      (some (bytes "n,a=,,n=user,r=abc")) 25).map (fun r => r.ret) = some ASASL_ERROR := by
  decide

/-- C32, as the code behaves: on the input `n,a=` of four non-NUL bytes and a
terminator at index 4 the search `strchr (message + 1, ',')` of line 186
starts at index 5, outside the buffer, whatever the environment; the step has
no defined result. -/
theorem mech_step_clientfirst_overread (env : scram_env) (users : user_store)
    (s : scramsha_session) (prf : Nat) :
    gs2_header_mem env (bytes "n,a=" ++ [0]) = gs2_outcome.overread ∧
    gs2_authzid_mem env [0] = gs2_outcome.overread ∧
    mech_step_clientfirst env users s (some (bytes "n,a=")) prf = none :=
  ⟨rfl, rfl, rfl⟩

/-- The decimal rendering of a number below `10 ^ e` has at most `e`
digits. -/
theorem decimal_length_le (n e : Nat) (he : 0 < e) (hn : n < 10 ^ e) :
    (decimal n).length ≤ e := by
  unfold decimal
  rw [List.length_map]
  exact Nat.toDigitsCore_length 10 (by decide) (n + 1) n e hn he

/-- C33: on a client-first input that passes the header, attribute, user and
verifier checks, with a server nonce of 64 characters, the step returns More
if and only if the length 2 + |cn| + 64 + 3 + |salt64| + 3 + digits(iter) of
the server-first-message lies strictly between
NONCE_LENGTH + PBKDF2_SALTLEN_MIN + 16 (88 for PBKDF2_SALTLEN_MIN = 8) and
SASL_C2S_MAXLEN; otherwise it returns Error, with the step Errored and no
output. With PBKDF2_SALTLEN_MIN = 8, a salt64 of 12 characters (a salt of 8
bytes), an iteration count below 1000 and a client nonce of one byte the step
returns Error. -/
theorem mech_step_clientfirst_length_check (env : scram_env) (users : user_store)
    (s : scramsha_session) (data message n input_r authcid : List Byte) (u : user_ref)
    (prf : Nat)
    (hne : data ≠ []) (h0 : 0 ∉ data)
    (hg : gs2_header env data = gs2_outcome.accept message)
    (hparse : (sasl_scramsha_attrlist_parse message).1 = true)
    (hm : (sasl_scramsha_attrlist_parse message).2 (chr 'm') = none)
    (hn : (sasl_scramsha_attrlist_parse message).2 (chr 'n') = some n) (hnne : n ≠ [])
    (hr : (sasl_scramsha_attrlist_parse message).2 (chr 'r') = some input_r)
    (hrne : input_r ≠ [])
    (hnl : n.length < env.NICKLEN)
    (hnorm : env.normalize n env.NICKLEN = some authcid)
    (hlogin : env.authcid_can_login authcid = authcid_result.allowed u)
    (hcrypt : (users u).flags &&& env.MU_CRYPTPASS ≠ 0)
    (hnopass : (users u).flags &&& env.MU_NOPASSWORD = 0)
    (hex : (env.dbextract (users u).pass s.db).1 = true)
    (hprf : (env.dbextract (users u).pass s.db).2.a = prf)
    (hrand : (env.random_string NONCE_LENGTH).length = 64) :
    ∃ r, mech_step_clientfirst env users s (some data) prf = some r ∧
      (r.ret = ASASL_MORE ↔
        (NONCE_LENGTH + env.PBKDF2_SALTLEN_MIN + 16 <
          2 + input_r.length + 64 + 3 + (env.dbextract (users u).pass s.db).2.salt64.length + 3 +
            (decimal (env.dbextract (users u).pass s.db).2.c).length ∧
        2 + input_r.length + 64 + 3 + (env.dbextract (users u).pass s.db).2.salt64.length + 3 +
            (decimal (env.dbextract (users u).pass s.db).2.c).length < env.SASL_C2S_MAXLEN)) ∧
      (env.PBKDF2_SALTLEN_MIN = 8 →
        (r.ret = ASASL_MORE ↔
          (88 < 2 + input_r.length + 64 + 3 +
              (env.dbextract (users u).pass s.db).2.salt64.length + 3 +
              (decimal (env.dbextract (users u).pass s.db).2.c).length ∧
          2 + input_r.length + 64 + 3 + (env.dbextract (users u).pass s.db).2.salt64.length + 3 +
              (decimal (env.dbextract (users u).pass s.db).2.c).length <
            env.SASL_C2S_MAXLEN))) ∧
      (r.ret = ASASL_MORE ∨
        (r.ret = ASASL_ERROR ∧ r.s.step = SCRAMSHA_STEP_ERRORED ∧ r.out = none)) ∧
      (env.PBKDF2_SALTLEN_MIN = 8 → input_r.length = 1 →
        (env.dbextract (users u).pass s.db).2.salt64.length = 12 →
        (env.dbextract (users u).pass s.db).2.c < 1000 →
        r.ret = ASASL_ERROR ∧ r.s.step = SCRAMSHA_STEP_ERRORED) := by
  have hstep : mech_step_clientfirst env users s (some data) prf =
      some (clientfirst_attrs env users s data message prf) := by
    unfold mech_step_clientfirst
    match data, hne, h0, hg with
    | b :: rest, _, h0, hg => simp only [h0, if_false, hg]
  have hlen := server_first_message_length input_r (env.random_string NONCE_LENGTH)
    (env.dbextract (users u).pass s.db).2.salt64 (env.dbextract (users u).pass s.db).2.c
  rw [hrand] at hlen
  have hN : NONCE_LENGTH = 64 := rfl
  refine ⟨_, hstep, ?_⟩
  match n, hnne, hn, hnl, hnorm with
  | n0 :: n', _, hn, hnl, hnorm =>
    match input_r, hrne, hr, hlen with
    | r0 :: r', _, hr, hlen =>
      have hp' : (!(sasl_scramsha_attrlist_parse message).1) = false := by simp [hparse]
      have hnl' : ¬ (n0 :: n').length ≥ env.NICKLEN := by omega
      have hex' : (!(env.dbextract (users u).pass s.db).1) = false := by simp [hex]
      by_cases hb : (server_first_message (r0 :: r') (env.random_string NONCE_LENGTH)
          (env.dbextract (users u).pass s.db).2.salt64
          (env.dbextract (users u).pass s.db).2.c).length ≤
            NONCE_LENGTH + env.PBKDF2_SALTLEN_MIN + 16 ∨
          (server_first_message (r0 :: r') (env.random_string NONCE_LENGTH)
          (env.dbextract (users u).pass s.db).2.salt64
          (env.dbextract (users u).pass s.db).2.c).length ≥ env.SASL_C2S_MAXLEN
      · have hres : clientfirst_attrs env users s data message prf =
            goto_error { s with
              mu := some u
              db := (env.dbextract (users u).pass s.db).2
              c_gs2_len := data.length - message.length
              c_gs2_buf := data.take (data.length - message.length)
              c_msg_len := data.length - (data.length - message.length)
              c_msg_buf := message.take (data.length - (data.length - message.length))
              cn := r0 :: r'
              sn := env.random_string NONCE_LENGTH } := by
          simp only [clientfirst_attrs, hp', Bool.false_eq_true, if_false, hm, hn, hr, hnl',
            hnorm, clientfirst_login, hlogin, hcrypt, hnopass, hex', hprf, ne_eq,
            not_true_eq_false, hb, if_true]
        rw [hres]
        rw [hlen, hN] at hb
        refine ⟨?_, ?_, Or.inr ⟨rfl, rfl, rfl⟩, fun _ _ _ _ => ⟨rfl, rfl⟩⟩
        · simp only [goto_error, hN]
          constructor
          · intro h; exact absurd h (by decide)
          · intro h; omega
        · intro h8
          simp only [goto_error]
          constructor
          · intro h; exact absurd h (by decide)
          · intro h; omega
      · have hres : (clientfirst_attrs env users s data message prf).ret = ASASL_MORE := by
          simp only [clientfirst_attrs, hp', Bool.false_eq_true, if_false, hm, hn, hr, hnl',
            hnorm, clientfirst_login, hlogin, hcrypt, hnopass, hex', hprf, ne_eq,
            not_true_eq_false, hb]
        rw [hlen, hN] at hb
        refine ⟨?_, ?_, Or.inl hres, ?_⟩
        · rw [hN]
          exact ⟨fun _ => by omega, fun _ => hres⟩
        · intro h8
          exact ⟨fun _ => by omega, fun _ => hres⟩
        · intro h8 h1 h12 hc
          have hd := decimal_length_le _ 3 (by decide) (show
            (env.dbextract (users u).pass s.db).2.c < 10 ^ 3 from hc)
          exfalso
          apply hb
          left
          omega

set_option maxRecDepth 100000 in
theorem mech_step_clientfirst_length_check_witness :
    (∃ r, mech_step_clientfirst sample_env sample_users mech_start
        (some (bytes "n,,n=user,r=abc")) 25 = some r ∧ r.ret = ASASL_MORE) ∧
    (mech_step_clientfirst short_salt_env sample_users mech_start
        (some (bytes "n,,n=user,r=a")) 25).map (fun r => (r.ret, r.s.step, r.out)) =
      some (ASASL_ERROR, SCRAMSHA_STEP_ERRORED, none) :=
  ⟨(mech_step_clientfirst_length_check sample_env sample_users mech_start
      (bytes "n,,n=user,r=abc") (bytes "n=user,r=abc") (bytes "user") (bytes "abc")
      (bytes "user") 7 25 (by decide) (by decide) (by decide) (by decide) (by decide)
      (by decide) (by decide) (by decide) (by decide) (by decide) (by decide) (by decide)
      (by decide) (by decide) (by decide) (by decide) (by decide)).imp
      (fun _ hx => ⟨hx.1, hx.2.1.mpr (by decide)⟩),
    by decide⟩

end Atheme
